import Mathlib

/-!
# Verification of the `citeable` citation library

A shallow embedding of the `citeable` package (entry data model in
`_entries.py`, single-record BibTeX reader in `_parser.py`, dict bridge)
over `List Char` / `String`, with theorems settling the frozen claims.

Python strings are modelled as `List Char` for scanning code and `String`
for entry fields.  Helpers from the repository's `_keys.py` / `_validate.py`
modules (absent from the sources) are modelled from the spec and marked so
in their doc comments.
-/

set_option maxHeartbeats 2000000
set_option maxRecDepth 4096

namespace Citeable

/-! ## Python string primitives, modelled over `List Char` -/

/-- The opening brace character (used when building BibTeX text). -/
def obr : Char := '\x7b'

/-- The closing brace character. -/
def cbr : Char := '\x7d'

/-- Models Python's whitespace class (`str.strip` default, regex `\s`),
restricted to the ASCII whitespace characters. -/
def isSpaceChar (c : Char) : Bool :=
  c = ' ' || c = '\t' || c = '\n' || c = '\r' || c = '\x0b' || c = '\x0c'

/-- Models the regex class `\w` (ASCII scope: letters, digits, underscore). -/
def isWordChar (c : Char) : Bool :=
  c.isAlphanum || c = '_'

/-- Python `str.strip()` (leading and trailing whitespace removed). -/
def pyStrip (l : List Char) : List Char :=
  ((l.dropWhile isSpaceChar).reverse.dropWhile isSpaceChar).reverse

/-- Python `str.rstrip(",")`: remove all trailing comma characters. -/
def rstripCommas (l : List Char) : List Char :=
  (l.reverse.dropWhile (· = ',')).reverse

/-- Python format spec `{name:<10}`: left-justify to width 10 with spaces. -/
def pyLJust (l : List Char) (width : Nat) : List Char :=
  l ++ List.replicate (width - l.length) ' '

/-- Python `str.lower()` (ASCII scope). -/
def lowerL (l : List Char) : List Char := l.map Char.toLower

/-- Python no-argument `str.split()`: split on whitespace runs, dropping
empty pieces. -/
def pySplitWs : List Char → List (List Char)
  | [] => []
  | c :: rest =>
    let r := pySplitWs rest
    if isSpaceChar c then r
    else
      match rest with
      | [] => [[c]]
      | d :: _ =>
        if isSpaceChar d then [c] :: r
        else
          match r with
          | w :: ws => (c :: w) :: ws
          | [] => [[c]]

/-- Python `str.split(sep)` for a non-empty separator: leftmost,
non-overlapping cuts.  Fuel-driven; `splitSep` supplies enough fuel. -/
def splitSepAux (sep : List Char) : Nat → List Char → List (List Char)
  | 0, l => [l]
  | fuel + 1, l =>
    if sep.isPrefixOf l then
      match splitSepAux sep fuel (l.drop sep.length) with
      | w :: ws => [] :: w :: ws
      | [] => [[], []]
    else
      match l with
      | [] => [[]]
      | c :: rest =>
        match splitSepAux sep fuel rest with
        | w :: ws => (c :: w) :: ws
        | [] => [[c]]

/-- Python `str.split(sep)`. -/
def splitSep (sep l : List Char) : List (List Char) :=
  splitSepAux sep (l.length + 1) l

/-- Python `sep.join(pieces)`. -/
def joinSep (sep : List Char) : List (List Char) → List Char
  | [] => []
  | [l] => l
  | l :: ls => l ++ sep ++ joinSep sep ls

/-- The decimal digit character for a digit value (`_` collapses to `9`;
callers only pass values below ten). -/
def digitChar : Nat → Char
  | 0 => '0' | 1 => '1' | 2 => '2' | 3 => '3' | 4 => '4'
  | 5 => '5' | 6 => '6' | 7 => '7' | 8 => '8' | _ => '9'

/-- Decimal digits of a natural number, most-significant first.
Fuel-driven so that it evaluates by kernel reduction. -/
def natDecimalAux : Nat → Nat → List Char
  | 0, _ => []
  | fuel + 1, n =>
    if n < 10 then [digitChar n]
    else natDecimalAux fuel (n / 10) ++ [digitChar (n % 10)]

/-- Python `str(n)` for a non-negative integer. -/
def natDecimal (n : Nat) : List Char := natDecimalAux (n + 1) n

/-- Python `str(i)` for an arbitrary integer. -/
def intDecimal (i : Int) : List Char :=
  if i < 0 then '-' :: natDecimal i.natAbs else natDecimal i.toNat

/-- Value of an ASCII decimal digit, if `c` is one. -/
def digitVal (c : Char) : Option Nat :=
  if '0' ≤ c ∧ c ≤ '9' then some (c.toNat - 48) else none

/-- Digit-run accumulator for `pyDigits`: digits with single underscores
allowed between digits (Python integer-literal grammar). -/
def pyDigitsAux (acc : Nat) : List Char → Option Nat
  | [] => some acc
  | c :: rest =>
    if c = '_' then
      match rest with
      | c2 :: rest2 =>
        match digitVal c2 with
        | some d => pyDigitsAux (acc * 10 + d) rest2
        | none => none
      | [] => none
    else
      match digitVal c with
      | some d => pyDigitsAux (acc * 10 + d) rest
      | none => none

/-- The value of a run of decimal digit characters, over an accumulator. -/
def digitsValAcc (acc : Nat) (l : List Char) : Nat :=
  l.foldl (fun a c => a * 10 + (c.toNat - 48)) acc

/-- Non-empty decimal digit sequence (underscore separators allowed),
as accepted by Python `int()` after sign and whitespace handling. -/
def pyDigits : List Char → Option Nat
  | [] => none
  | c :: rest =>
    match digitVal c with
    | some d => pyDigitsAux d rest
    | none => none

/-- Python `int(s)`: strip whitespace, optional single sign, digit run.
Returns `none` where Python raises `ValueError`. -/
def pyIntOfChars (l : List Char) : Option Int :=
  match pyStrip l with
  | '-' :: rest => (pyDigits rest).map (fun n => -(n : Int))
  | '+' :: rest => (pyDigits rest).map (fun n => (n : Int))
  | s => (pyDigits s).map (fun n => (n : Int))

/-! ## Error kinds

All failures in the Python sources are `ValueError` (or `TypeError` for a
bad keyword-argument set); the spec names them by kind.  Each kind gets its
own constructor so theorems can tell them apart. -/

inductive CiteError where
  | invalidEntry
  | noEntryFound
  | multipleEntriesFound
  | unsupportedEntryType
  | numericParse
  | missingTypeKey
  | unknownType
  | missingArgument
  | unexpectedArgument
  | typeMismatch
  | substringNotFound
  deriving DecidableEq, Repr

instance {e a : Type} [DecidableEq e] [DecidableEq a] :
    DecidableEq (Except e a) := fun x y =>
  match x, y with
  | .ok u, .ok v =>
    if h : u = v then isTrue (by rw [h]) else isFalse (by simp [h])
  | .error u, .error v =>
    if h : u = v then isTrue (by rw [h]) else isFalse (by simp [h])
  | .ok _, .error _ => isFalse (by simp)
  | .error _, .ok _ => isFalse (by simp)

/-! ## Entry data model (`_entries.py`)

One structure per concrete class; fields listed in the order the Python
`__init__` assigns them (`_init_base` fields first). -/

structure ArticleData where
  author : List String
  title : String
  year : Int
  doi : Option String
  url : Option String
  note : Option String
  key : String
  app : Option String
  journal : String
  volume : Int
  pages : Option String
  article_number : Option String
  number : Option Int
  deriving DecidableEq, Repr

structure BookData where
  author : List String
  title : String
  year : Int
  doi : Option String
  url : Option String
  note : Option String
  key : String
  app : Option String
  publisher : String
  edition : Option String
  editor : Option (List String)
  deriving DecidableEq, Repr

structure InProceedingsData where
  author : List String
  title : String
  year : Int
  doi : Option String
  url : Option String
  note : Option String
  key : String
  app : Option String
  booktitle : String
  pages : Option String
  publisher : Option String
  editor : Option (List String)
  deriving DecidableEq, Repr

structure TechReportData where
  author : List String
  title : String
  year : Int
  doi : Option String
  url : Option String
  note : Option String
  key : String
  app : Option String
  institution : String
  number : Option String
  deriving DecidableEq, Repr

structure ThesisData where
  author : List String
  title : String
  year : Int
  doi : Option String
  url : Option String
  note : Option String
  key : String
  app : Option String
  school : String
  thesis_type : String
  deriving DecidableEq, Repr

structure SoftwareData where
  author : List String
  title : String
  year : Int
  doi : Option String
  url : Option String
  note : Option String
  key : String
  app : Option String
  publisher : Option String
  version : Option String
  license : Option String
  deriving DecidableEq, Repr

structure MiscData where
  author : List String
  title : String
  year : Int
  doi : Option String
  url : Option String
  note : Option String
  key : String
  app : Option String
  deriving DecidableEq, Repr

/-- The seven concrete citation classes, as a sum. -/
inductive Entry where
  | article : ArticleData → Entry
  | book : BookData → Entry
  | inProceedings : InProceedingsData → Entry
  | techReport : TechReportData → Entry
  | thesis : ThesisData → Entry
  | software : SoftwareData → Entry
  | misc : MiscData → Entry
  deriving DecidableEq, Repr

/-- `type(self).__name__` for an entry. -/
def Entry.typeName : Entry → String
  | .article _ => "Article"
  | .book _ => "Book"
  | .inProceedings _ => "InProceedings"
  | .techReport _ => "TechReport"
  | .thesis _ => "Thesis"
  | .software _ => "Software"
  | .misc _ => "Misc"

/-- The `key` attribute, shared by every class. -/
def Entry.key : Entry → String
  | .article a => a.key
  | .book a => a.key
  | .inProceedings a => a.key
  | .techReport a => a.key
  | .thesis a => a.key
  | .software a => a.key
  | .misc a => a.key

/-- The `app` attribute, shared by every class. -/
def Entry.app : Entry → Option String
  | .article a => a.app
  | .book a => a.app
  | .inProceedings a => a.app
  | .techReport a => a.app
  | .thesis a => a.app
  | .software a => a.app
  | .misc a => a.app

/-- The `author` attribute, shared by every class. -/
def Entry.author : Entry → List String
  | .article a => a.author
  | .book a => a.author
  | .inProceedings a => a.author
  | .techReport a => a.author
  | .thesis a => a.author
  | .software a => a.author
  | .misc a => a.author

/-- The `title` attribute, shared by every class. -/
def Entry.title : Entry → String
  | .article a => a.title
  | .book a => a.title
  | .inProceedings a => a.title
  | .techReport a => a.title
  | .thesis a => a.title
  | .software a => a.title
  | .misc a => a.title

/-- The `year` attribute, shared by every class. -/
def Entry.year : Entry → Int
  | .article a => a.year
  | .book a => a.year
  | .inProceedings a => a.year
  | .techReport a => a.year
  | .thesis a => a.year
  | .software a => a.year
  | .misc a => a.year

/-- Replace the `app` field (the parser always leaves `app` at its
default `None`). -/
def Entry.setAppNone : Entry → Entry
  | .article a => .article { a with app := none }
  | .book a => .book { a with app := none }
  | .inProceedings a => .inProceedings { a with app := none }
  | .techReport a => .techReport { a with app := none }
  | .thesis a => .thesis { a with app := none }
  | .software a => .software { a with app := none }
  | .misc a => .misc { a with app := none }

/-- Replace the `key` and `app` fields. -/
def Entry.withKeyApp (e : Entry) (k : String) (ap : Option String) : Entry :=
  match e with
  | .article a => .article { a with key := k, app := ap }
  | .book a => .book { a with key := k, app := ap }
  | .inProceedings a => .inProceedings { a with key := k, app := ap }
  | .techReport a => .techReport { a with key := k, app := ap }
  | .thesis a => .thesis { a with key := k, app := ap }
  | .software a => .software { a with key := k, app := ap }
  | .misc a => .misc { a with key := k, app := ap }

/-! ## Content fields, equality and hash (`_content_fields`, `__eq__`,
`__hash__`)

`_content_fields` collects `sorted(vars(obj).items())` minus the excluded
names `{key, app}` into a tuple (lists made hashable as tuples).  The
heterogeneous tuple is modelled as a `List` of a value sum; fields appear
in sorted attribute-name order, as in the source. -/

inductive HVal where
  | s : String → HVal
  | os : Option String → HVal
  | i : Int → HVal
  | oi : Option Int → HVal
  | ls : List String → HVal
  | ols : Option (List String) → HVal
  deriving DecidableEq, Repr

/-- `_content_fields(obj, {"key", "app"})`, per class.  Attribute names in
sorted order with `key`/`app` dropped. -/
def Entry.contentFields : Entry → List HVal
  | .article a =>
      [.os a.article_number, .ls a.author, .os a.doi, .s a.journal, .os a.note,
       .oi a.number, .os a.pages, .s a.title, .os a.url, .i a.volume, .i a.year]
  | .book a =>
      [.ls a.author, .os a.doi, .os a.edition, .ols a.editor, .os a.note,
       .s a.publisher, .s a.title, .os a.url, .i a.year]
  | .inProceedings a =>
      [.ls a.author, .s a.booktitle, .os a.doi, .ols a.editor, .os a.note,
       .os a.pages, .os a.publisher, .s a.title, .os a.url, .i a.year]
  | .techReport a =>
      [.ls a.author, .os a.doi, .s a.institution, .os a.note, .os a.number,
       .s a.title, .os a.url, .i a.year]
  | .thesis a =>
      [.ls a.author, .os a.doi, .os a.note, .s a.school, .s a.thesis_type,
       .s a.title, .os a.url, .i a.year]
  | .software a =>
      [.ls a.author, .os a.doi, .os a.license, .os a.note, .os a.publisher,
       .s a.title, .os a.url, .i a.year]
  | .misc a =>
      [.ls a.author, .os a.doi, .os a.note, .s a.title, .os a.url, .i a.year]

/-- `CitationBase.__eq__`: identical class, then content-field tuples
compared.  (Python returns `NotImplemented` across classes, which resolves
to `False` for these types.) -/
def ceq (a b : Entry) : Bool :=
  a.typeName = b.typeName && a.contentFields = b.contentFields

/-- `CitationBase.__hash__` hashes `(type(self).__name__, content_fields)`;
the hash input tuple is the faithful observable (equal tuples give equal
Python hashes). -/
def pyHashInput (e : Entry) : String × List HVal :=
  (e.typeName, e.contentFields)

/-! ## Validators and key generation

`_validate.py` and `_keys.py` are not among the sources; the helpers used
by `_entries.py` are modelled from the spec. -/

/-- Modelled from the spec: `_validate.require_field` — construction "fails
with an `InvalidEntry`-kind error when a required field is missing/empty";
an empty text value fails, any other passes.  (Integer-valued required
fields such as `Article.volume` have no empty state and are checked
trivially.) -/
def requireField (value : String) : Except CiteError Unit :=
  if value = "" then .error .invalidEntry else .ok ()

/-- Modelled from the spec: `_validate.require_non_empty_authors` — the
invariant "`author` has ≥1 entry" fails on an empty list. -/
def requireNonEmptyAuthors (authors : List String) : Except CiteError Unit :=
  if authors = [] then .error .invalidEntry else .ok ()

/-- Modelled from the spec: `_validate.extract_surname` — "text before the
first comma if `Surname, Given` form, else the last whitespace-separated
token, else the whole string if single token". -/
def extractSurname (name : String) : String :=
  if ',' ∈ name.data then String.mk (name.data.takeWhile (· ≠ ','))
  else
    match pySplitWs name.data with
    | [] => name
    | parts => String.mk (parts.getLastD [])

/-- Modelled from the spec: `_keys.generate_key` — "takes the first
author's surname … and concatenates as `{Surname}.{year}`". -/
def generateKey (authors : List String) (year : Int) : String :=
  extractSurname (authors.headD "") ++ "." ++ String.mk (intDecimal year)

/-! ## Constructors

One `Except`-valued maker per class, mirroring each `__init__` (its own
`require_field` calls, then the class-specific check, then `_init_base`). -/

/-- `CitationBase._init_base`, returning the common fields once the author
check passes; `key` defaults through `generate_key` exactly when the `key`
argument is `None`. -/
def initBase (author : List String) (title : String) (year : Int)
    (doi url note : Option String) (key : Option String)
    (app : Option String) : Except CiteError MiscData := do
  requireNonEmptyAuthors author
  .ok { author, title, year, doi, url, note,
        key := match key with
               | some k => k
               | none => generateKey author year,
        app }

/-- `Article.__init__`. -/
def mkArticle (author : List String) (title : String) (year : Int)
    (journal : String) (volume : Int)
    (pages article_number : Option String) (number : Option Int)
    (doi url note key app : Option String) : Except CiteError Entry := do
  requireField journal
  -- require_field(volume, ...): an integer is never missing/empty
  if pages = none ∧ article_number = none then
    .error .invalidEntry
  else do
    let base ← initBase author title year doi url note key app
    .ok (.article { base with journal, volume, pages, article_number, number })

/-- `Book.__init__`. -/
def mkBook (author : List String) (title : String) (year : Int)
    (publisher : String) (edition : Option String)
    (editor : Option (List String))
    (doi url note key app : Option String) : Except CiteError Entry := do
  requireField publisher
  let base ← initBase author title year doi url note key app
  .ok (.book { base with publisher, edition, editor })

/-- `InProceedings.__init__`. -/
def mkInProceedings (author : List String) (title : String) (year : Int)
    (booktitle : String) (pages : Option String)
    (publisher : Option String) (editor : Option (List String))
    (doi url note key app : Option String) : Except CiteError Entry := do
  requireField booktitle
  let base ← initBase author title year doi url note key app
  .ok (.inProceedings { base with booktitle, pages, publisher, editor })

/-- `TechReport.__init__`.  Its `number` stays text. -/
def mkTechReport (author : List String) (title : String) (year : Int)
    (institution : String) (number : Option String)
    (doi url note key app : Option String) : Except CiteError Entry := do
  requireField institution
  let base ← initBase author title year doi url note key app
  .ok (.techReport { base with institution, number })

/-- `Thesis.__init__`: `school` and `thesis_type` required, the latter
restricted to `phd` / `masters`. -/
def mkThesis (author : List String) (title : String) (year : Int)
    (school : String) (thesis_type : String)
    (doi url note key app : Option String) : Except CiteError Entry := do
  requireField school
  requireField thesis_type
  if thesis_type ≠ "phd" ∧ thesis_type ≠ "masters" then
    .error .invalidEntry
  else do
    let base ← initBase author title year doi url note key app
    .ok (.thesis { base with school, thesis_type })

/-- `Software.__init__`: no class-specific required fields. -/
def mkSoftware (author : List String) (title : String) (year : Int)
    (publisher version license : Option String)
    (doi url note key app : Option String) : Except CiteError Entry := do
  let base ← initBase author title year doi url note key app
  .ok (.software { base with publisher, version, license })

/-- `Misc.__init__`: only the common fields. -/
def mkMisc (author : List String) (title : String) (year : Int)
    (doi url note key app : Option String) : Except CiteError Entry := do
  let base ← initBase author title year doi url note key app
  .ok (.misc base)

/-! ## `summary()` (`CitationBase.summary`, `_author_summary`,
`_title_excerpt`) -/

/-- `_author_summary`: surname of the first author, with `et al.` when more
than one author.  (`authors[0]`: callers guarantee a non-empty list.) -/
def authorSummary (authors : List String) : String :=
  let surname := extractSurname (authors.headD "")
  if authors.length > 1 then surname ++ " et al." else surname

/-- `_title_excerpt` with its default `max_len = 50`. -/
def titleExcerpt (title : String) : String :=
  if title.data.length ≤ 50 then title
  else String.mk (title.data.take 50 ++ ['…'])

/-- `CitationBase.summary`: `(app_name, citation_string)`. -/
def Entry.summary (e : Entry) : String × String :=
  (e.app.getD "",
   authorSummary e.author ++ " " ++ String.mk (intDecimal e.year) ++ " "
     ++ titleExcerpt e.title)

/-! ## BibTeX rendering (each class's `__str__`) -/

/-- `"\n".join(lines)`. -/
def joinNL : List (List Char) → List Char
  | [] => []
  | [l] => l
  | l :: ls => l ++ '\n' :: joinNL ls

/-- `_author_str`: `" and ".join(authors)`. -/
def authorStr (authors : List String) : List Char :=
  joinSep " and ".data (authors.map String.data)

/-- `_format_bibtex_field(name, value)`:
two spaces, name left-justified to ten, `= `, braced value, comma. -/
def formatBibtexField (name value : List Char) : List Char :=
  "  ".data ++ pyLJust name 10 ++ "= ".data ++ [obr] ++ value ++ [cbr, ',']

/-- A `(name, rendered value)` pair only when the optional text value is
present. -/
def optPair (name : List Char) (v : Option String) :
    List (List Char × List Char) :=
  match v with
  | some s => [(name, s.data)]
  | none => []

/-- `_append_common_bibtex`: `doi`/`url`/`note` pairs when set. -/
def commonPairs (doi url note : Option String) :
    List (List Char × List Char) :=
  optPair "doi".data doi ++ optPair "url".data url ++ optPair "note".data note

/-- The `(name, rendered value)` pairs of `Article.__str__`, in its fixed
order (optional lines only when the field is set). -/
def articleFieldList (a : ArticleData) : List (List Char × List Char) :=
  [("author".data, authorStr a.author),
   ("title".data, a.title.data),
   ("journal".data, a.journal.data),
   ("year".data, intDecimal a.year),
   ("volume".data, intDecimal a.volume)]
  ++ (match a.number with
      | some n => [("number".data, intDecimal n)]
      | none => [])
  ++ optPair "pages".data a.pages
  ++ optPair "article_number".data a.article_number
  ++ commonPairs a.doi a.url a.note

/-- The field pairs of `Book.__str__`. -/
def bookFieldList (a : BookData) : List (List Char × List Char) :=
  [("author".data, authorStr a.author),
   ("title".data, a.title.data),
   ("publisher".data, a.publisher.data),
   ("year".data, intDecimal a.year)]
  ++ optPair "edition".data a.edition
  ++ (match a.editor with
      | some ed => [("editor".data, authorStr ed)]
      | none => [])
  ++ commonPairs a.doi a.url a.note

/-- The field pairs of `InProceedings.__str__`. -/
def inProceedingsFieldList (a : InProceedingsData) :
    List (List Char × List Char) :=
  [("author".data, authorStr a.author),
   ("title".data, a.title.data),
   ("booktitle".data, a.booktitle.data),
   ("year".data, intDecimal a.year)]
  ++ optPair "pages".data a.pages
  ++ optPair "publisher".data a.publisher
  ++ (match a.editor with
      | some ed => [("editor".data, authorStr ed)]
      | none => [])
  ++ commonPairs a.doi a.url a.note

/-- The field pairs of `TechReport.__str__`. -/
def techReportFieldList (a : TechReportData) : List (List Char × List Char) :=
  [("author".data, authorStr a.author),
   ("title".data, a.title.data),
   ("institution".data, a.institution.data),
   ("year".data, intDecimal a.year)]
  ++ optPair "number".data a.number
  ++ commonPairs a.doi a.url a.note

/-- The field pairs of `Thesis.__str__` (note: `thesis_type` is carried by
the entry-type token, not rendered as a field). -/
def thesisFieldList (a : ThesisData) : List (List Char × List Char) :=
  [("author".data, authorStr a.author),
   ("title".data, a.title.data),
   ("school".data, a.school.data),
   ("year".data, intDecimal a.year)]
  ++ commonPairs a.doi a.url a.note

/-- The field pairs of `Software.__str__`. -/
def softwareFieldList (a : SoftwareData) : List (List Char × List Char) :=
  [("author".data, authorStr a.author),
   ("title".data, a.title.data),
   ("year".data, intDecimal a.year)]
  ++ optPair "publisher".data a.publisher
  ++ optPair "version".data a.version
  ++ optPair "license".data a.license
  ++ commonPairs a.doi a.url a.note

/-- The field pairs of `Misc.__str__`. -/
def miscFieldList (a : MiscData) : List (List Char × List Char) :=
  [("author".data, authorStr a.author),
   ("title".data, a.title.data),
   ("year".data, intDecimal a.year)]
  ++ commonPairs a.doi a.url a.note

/-- The BibTeX type token each entry renders with (`phdthesis` /
`mastersthesis` for `Thesis`, the lowercase class name otherwise). -/
def Entry.bibType : Entry → List Char
  | .article _ => "article".data
  | .book _ => "book".data
  | .inProceedings _ => "inproceedings".data
  | .techReport _ => "techreport".data
  | .thesis a =>
    if a.thesis_type = "phd" then "phdthesis".data else "mastersthesis".data
  | .software _ => "software".data
  | .misc _ => "misc".data

/-- The field pairs any entry renders, in its class's fixed order. -/
def Entry.fieldList : Entry → List (List Char × List Char)
  | .article a => articleFieldList a
  | .book a => bookFieldList a
  | .inProceedings a => inProceedingsFieldList a
  | .techReport a => techReportFieldList a
  | .thesis a => thesisFieldList a
  | .software a => softwareFieldList a
  | .misc a => miscFieldList a

/-- One rendered field line with its terminating newline (the shape every
line of the `__str__` body block takes inside the joined text). -/
def lineOf (p : List Char × List Char) : List Char :=
  formatBibtexField p.1 p.2 ++ ['\n']

/-- The `__str__` of each class: the header line `@type{key,`, one
`_format_bibtex_field` line per field pair, the closing `}`; joined with
newlines. -/
def renderEntry (e : Entry) : List Char :=
  joinNL (('@' :: e.bibType ++ obr :: e.key.data ++ [','])
    :: (e.fieldList.map fun p => formatBibtexField p.1 p.2) ++ [[cbr]])

/-! ## Dict bridge (`to_dict`, `from_dict`)

Python dicts with string keys are modelled as association lists with
unique keys; JSON-able values as the `DVal` sum. -/

inductive DVal where
  | s : String → DVal
  | i : Int → DVal
  | ls : List String → DVal
  | null : DVal
  deriving DecidableEq, Repr

/-- `Option String` to its dict value (`None` ↦ `null`). -/
def optStrD : Option String → DVal
  | some v => .s v
  | none => .null

/-- `Option Int` to its dict value. -/
def optIntD : Option Int → DVal
  | some v => .i v
  | none => .null

/-- `Option (List String)` to its dict value. -/
def optLsD : Option (List String) → DVal
  | some v => .ls v
  | none => .null

/-- Dict lookup (`d[k]` / `d.get(k)`); keys of a Python dict are unique,
so the first match is the value. -/
def dictGet : List (String × DVal) → String → Option DVal
  | [], _ => Option.none
  | p :: rest, k => if p.1 = k then some p.2 else dictGet rest k

/-- `d.pop(k, None)`: the value (if any) and the dict without that key. -/
def dictPop (d : List (String × DVal)) (k : String) :
    Option DVal × List (String × DVal) :=
  match d with
  | [] => (Option.none, [])
  | p :: rest =>
    if p.1 = k then (some p.2, rest)
    else
      let (v, r) := dictPop rest k
      (v, p :: r)

/-- `to_dict`: `{"type": type(self).__name__, **vars(self)}` — the
discriminator first, then every attribute in assignment order. -/
def Entry.toDict : Entry → List (String × DVal)
  | .article a =>
      [("type", .s "Article"), ("author", .ls a.author), ("title", .s a.title),
       ("year", .i a.year), ("doi", optStrD a.doi), ("url", optStrD a.url),
       ("note", optStrD a.note), ("key", .s a.key), ("app", optStrD a.app),
       ("journal", .s a.journal), ("volume", .i a.volume),
       ("pages", optStrD a.pages), ("article_number", optStrD a.article_number),
       ("number", optIntD a.number)]
  | .book a =>
      [("type", .s "Book"), ("author", .ls a.author), ("title", .s a.title),
       ("year", .i a.year), ("doi", optStrD a.doi), ("url", optStrD a.url),
       ("note", optStrD a.note), ("key", .s a.key), ("app", optStrD a.app),
       ("publisher", .s a.publisher), ("edition", optStrD a.edition),
       ("editor", optLsD a.editor)]
  | .inProceedings a =>
      [("type", .s "InProceedings"), ("author", .ls a.author),
       ("title", .s a.title), ("year", .i a.year), ("doi", optStrD a.doi),
       ("url", optStrD a.url), ("note", optStrD a.note), ("key", .s a.key),
       ("app", optStrD a.app), ("booktitle", .s a.booktitle),
       ("pages", optStrD a.pages), ("publisher", optStrD a.publisher),
       ("editor", optLsD a.editor)]
  | .techReport a =>
      [("type", .s "TechReport"), ("author", .ls a.author),
       ("title", .s a.title), ("year", .i a.year), ("doi", optStrD a.doi),
       ("url", optStrD a.url), ("note", optStrD a.note), ("key", .s a.key),
       ("app", optStrD a.app), ("institution", .s a.institution),
       ("number", optStrD a.number)]
  | .thesis a =>
      [("type", .s "Thesis"), ("author", .ls a.author), ("title", .s a.title),
       ("year", .i a.year), ("doi", optStrD a.doi), ("url", optStrD a.url),
       ("note", optStrD a.note), ("key", .s a.key), ("app", optStrD a.app),
       ("school", .s a.school), ("thesis_type", .s a.thesis_type)]
  | .software a =>
      [("type", .s "Software"), ("author", .ls a.author), ("title", .s a.title),
       ("year", .i a.year), ("doi", optStrD a.doi), ("url", optStrD a.url),
       ("note", optStrD a.note), ("key", .s a.key), ("app", optStrD a.app),
       ("publisher", optStrD a.publisher), ("version", optStrD a.version),
       ("license", optStrD a.license)]
  | .misc a =>
      [("type", .s "Misc"), ("author", .ls a.author), ("title", .s a.title),
       ("year", .i a.year), ("doi", optStrD a.doi), ("url", optStrD a.url),
       ("note", optStrD a.note), ("key", .s a.key), ("app", optStrD a.app)]

/-- Required list-of-string keyword argument (a missing required argument
is Python's `TypeError` at the constructor call). -/
def reqStrListArg (d : List (String × DVal)) (k : String) :
    Except CiteError (List String) :=
  match dictGet d k with
  | some (.ls v) => .ok v
  | some _ => .error .typeMismatch
  | Option.none => .error .missingArgument

/-- Required text keyword argument. -/
def reqStrArg (d : List (String × DVal)) (k : String) :
    Except CiteError String :=
  match dictGet d k with
  | some (.s v) => .ok v
  | some _ => .error .typeMismatch
  | Option.none => .error .missingArgument

/-- Required integer keyword argument. -/
def reqIntArg (d : List (String × DVal)) (k : String) :
    Except CiteError Int :=
  match dictGet d k with
  | some (.i v) => .ok v
  | some _ => .error .typeMismatch
  | Option.none => .error .missingArgument

/-- Optional text keyword argument (absent or `null` ↦ default `None`). -/
def optStrArg (d : List (String × DVal)) (k : String) :
    Except CiteError (Option String) :=
  match dictGet d k with
  | some (.s v) => .ok (some v)
  | some .null => .ok Option.none
  | some _ => .error .typeMismatch
  | Option.none => .ok Option.none

/-- Optional integer keyword argument. -/
def optIntArg (d : List (String × DVal)) (k : String) :
    Except CiteError (Option Int) :=
  match dictGet d k with
  | some (.i v) => .ok (some v)
  | some .null => .ok Option.none
  | some _ => .error .typeMismatch
  | Option.none => .ok Option.none

/-- Optional list-of-string keyword argument. -/
def optStrListArg (d : List (String × DVal)) (k : String) :
    Except CiteError (Option (List String)) :=
  match dictGet d k with
  | some (.ls v) => .ok (some v)
  | some .null => .ok Option.none
  | some _ => .error .typeMismatch
  | Option.none => .ok Option.none

/-- Keyword names accepted by every constructor (`_init_base`). -/
def commonKeys : List String :=
  ["author", "title", "year", "doi", "url", "note", "key", "app"]

/-- Does the dict carry only keyword names the class accepts?  (An
unexpected keyword is Python's `TypeError`.) -/
def keysAllowed (d : List (String × DVal)) (allowed : List String) : Bool :=
  d.all (fun p => allowed.contains p.1)

/-- Read the `_init_base` keyword arguments. -/
def readCommonArgs (d : List (String × DVal)) :
    Except CiteError (List String × String × Int × Option String
      × Option String × Option String × Option String × Option String) := do
  let author ← reqStrListArg d "author"
  let title ← reqStrArg d "title"
  let year ← reqIntArg d "year"
  let doi ← optStrArg d "doi"
  let url ← optStrArg d "url"
  let note ← optStrArg d "note"
  let key ← optStrArg d "key"
  let app ← optStrArg d "app"
  .ok (author, title, year, doi, url, note, key, app)

/-- `entry_cls(**data)` for `Article`. -/
def dictToArticle (d : List (String × DVal)) : Except CiteError Entry := do
  if keysAllowed d (commonKeys ++
      ["journal", "volume", "pages", "article_number", "number"]) then
    let (author, title, year, doi, url, note, key, app) ← readCommonArgs d
    let journal ← reqStrArg d "journal"
    let volume ← reqIntArg d "volume"
    let pages ← optStrArg d "pages"
    let article_number ← optStrArg d "article_number"
    let number ← optIntArg d "number"
    mkArticle author title year journal volume pages article_number number
      doi url note key app
  else .error .unexpectedArgument

/-- `entry_cls(**data)` for `Book`. -/
def dictToBook (d : List (String × DVal)) : Except CiteError Entry := do
  if keysAllowed d (commonKeys ++ ["publisher", "edition", "editor"]) then
    let (author, title, year, doi, url, note, key, app) ← readCommonArgs d
    let publisher ← reqStrArg d "publisher"
    let edition ← optStrArg d "edition"
    let editor ← optStrListArg d "editor"
    mkBook author title year publisher edition editor doi url note key app
  else .error .unexpectedArgument

/-- `entry_cls(**data)` for `InProceedings`. -/
def dictToInProceedings (d : List (String × DVal)) : Except CiteError Entry := do
  if keysAllowed d (commonKeys ++
      ["booktitle", "pages", "publisher", "editor"]) then
    let (author, title, year, doi, url, note, key, app) ← readCommonArgs d
    let booktitle ← reqStrArg d "booktitle"
    let pages ← optStrArg d "pages"
    let publisher ← optStrArg d "publisher"
    let editor ← optStrListArg d "editor"
    mkInProceedings author title year booktitle pages publisher editor
      doi url note key app
  else .error .unexpectedArgument

/-- `entry_cls(**data)` for `TechReport`. -/
def dictToTechReport (d : List (String × DVal)) : Except CiteError Entry := do
  if keysAllowed d (commonKeys ++ ["institution", "number"]) then
    let (author, title, year, doi, url, note, key, app) ← readCommonArgs d
    let institution ← reqStrArg d "institution"
    let number ← optStrArg d "number"
    mkTechReport author title year institution number doi url note key app
  else .error .unexpectedArgument

/-- `entry_cls(**data)` for `Thesis`. -/
def dictToThesis (d : List (String × DVal)) : Except CiteError Entry := do
  if keysAllowed d (commonKeys ++ ["school", "thesis_type"]) then
    let (author, title, year, doi, url, note, key, app) ← readCommonArgs d
    let school ← reqStrArg d "school"
    let thesis_type ← reqStrArg d "thesis_type"
    mkThesis author title year school thesis_type doi url note key app
  else .error .unexpectedArgument

/-- `entry_cls(**data)` for `Software`. -/
def dictToSoftware (d : List (String × DVal)) : Except CiteError Entry := do
  if keysAllowed d (commonKeys ++ ["publisher", "version", "license"]) then
    let (author, title, year, doi, url, note, key, app) ← readCommonArgs d
    let publisher ← optStrArg d "publisher"
    let version ← optStrArg d "version"
    let license ← optStrArg d "license"
    mkSoftware author title year publisher version license doi url note key app
  else .error .unexpectedArgument

/-- `entry_cls(**data)` for `Misc`. -/
def dictToMisc (d : List (String × DVal)) : Except CiteError Entry := do
  if keysAllowed d commonKeys then
    let (author, title, year, doi, url, note, key, app) ← readCommonArgs d
    mkMisc author title year doi url note key app
  else .error .unexpectedArgument

/-- `from_dict` after the shallow copy: pop the `"type"` discriminator from
the working dict, dispatch through `_ENTRY_TYPES`, construct from the
remaining keys. -/
def fromDictData (data : List (String × DVal)) : Except CiteError Entry :=
  let (tv, rest) := dictPop data "type"
  match tv with
  | Option.none => .error .missingTypeKey
  | some (.s "Article") => dictToArticle rest
  | some (.s "Book") => dictToBook rest
  | some (.s "InProceedings") => dictToInProceedings rest
  | some (.s "TechReport") => dictToTechReport rest
  | some (.s "Thesis") => dictToThesis rest
  | some (.s "Software") => dictToSoftware rest
  | some (.s "Misc") => dictToMisc rest
  | some _ => .error .unknownType

/-- `from_dict` as the caller observes it: the result, and the caller's
dict after the call.  The source shallow-copies (`data = dict(data)`) and
pops `"type"` from the copy only, so the argument is handed back
untouched. -/
def fromDictCall (data : List (String × DVal)) :
    Except CiteError Entry × List (String × DVal) :=
  (fromDictData data, data)

/-! ## BibTeX reading (`_parser.py`)

Scanning is modelled over `List Char`.  The two regexes are deterministic
on their inputs (greedy runs of character classes followed by a literal
character admit no backtracking alternatives), so each is embedded as a
direct functional matcher, and `re.finditer`'s leftmost, non-overlapping
iteration as a scan that retries at the next position on failure. -/

/-- Match of `_ENTRY_START_RE` (`@(\w+)\s*\{`) at the head of `l`:
the captured word and the suffix after the opening brace. -/
def tryEntryStart (l : List Char) : Option (List Char × List Char) :=
  match l with
  | '@' :: rest =>
    let w := rest.takeWhile isWordChar
    if w = [] then Option.none
    else
      match (rest.dropWhile isWordChar).dropWhile isSpaceChar with
      | c :: tail => if c = obr then some (w, tail) else Option.none
      | [] => Option.none
  | _ => Option.none

/-- `finditer` for the entry-start pattern: try at each position, resume
after a match's end.  Fuel-driven (`length` is enough fuel since every
step consumes at least one character). -/
def finditerES : Nat → List Char → List (List Char × List Char)
  | 0, _ => []
  | _, [] => []
  | fuel + 1, c :: rest =>
    match tryEntryStart (c :: rest) with
    | some (w, tail) => (w, tail) :: finditerES fuel tail
    | Option.none => finditerES fuel rest

/-- The brace-depth scan of `_extract_entries`: consume characters while
the depth stays positive, including the character that closes it (or the
whole remainder when the input runs out). -/
def braceScan : List Char → Nat → List Char
  | [], _ => []
  | c :: rest, depth =>
    let d := if c = obr then depth + 1 else if c = cbr then depth - 1 else depth
    if d = 0 then [c] else c :: braceScan rest d

/-- Key/fields split of an entry body: text before the first comma is the
cite key (stripped); without a comma the whole body is the key. -/
def splitKeyFields (body : List Char) : List Char × List Char :=
  if ',' ∈ body then
    (pyStrip (body.takeWhile (· ≠ ',')), (body.dropWhile (· ≠ ',')).drop 1)
  else (pyStrip body, [])

/-- `_extract_entries`: one `(entry_type, cite_key, fields_body)` triple
per entry-start match; the body runs from just after the opening brace to
just before the character that returned the depth to zero. -/
def extractEntries (s : List Char) : List (List Char × List Char × List Char) :=
  (finditerES s.length s).map (fun m =>
    let body := (braceScan m.2 1).dropLast
    let (k, f) := splitKeyFields body
    (m.1, k, f))

/-- Match of `_FIELD_START_RE` (`^\s*(\w+)\s*=\s*`, multiline) at a
line-start position: the field name, the suffix after the match, and
whether the match's end sits just after a newline (so the resume position
is itself a line start). -/
def tryFieldStart (l : List Char) : Option (List Char × List Char × Bool) :=
  let r1 := l.dropWhile isSpaceChar
  let w := r1.takeWhile isWordChar
  if w = [] then Option.none
  else
    match (r1.dropWhile isWordChar).dropWhile isSpaceChar with
    | '=' :: r4 =>
      let sp := r4.takeWhile isSpaceChar
      some (w, r4.dropWhile isSpaceChar, sp.getLastD 'x' = '\n')
    | _ => Option.none

/-- Scan forward for the next field-start match: a multiline `^` matches
at the current position when flagged, and right after every newline.
Returns the characters skipped (the previous field's raw value span) and
the match, if any. -/
def seekField : List Char → Bool → List Char × Option (List Char × List Char × Bool)
  | [], _ => ([], Option.none)
  | c :: rest, atLS =>
    if atLS then
      match tryFieldStart (c :: rest) with
      | some m => ([], some m)
      | Option.none =>
        let (sk, m) := seekField rest (c = '\n')
        (c :: sk, m)
    else
      let (sk, m) := seekField rest (c = '\n')
      (c :: sk, m)

/-- Collect `(name, raw value span)` pairs: each value runs from a match's
end to the next match's start.  Fuel-driven (each step consumes at least
two characters). -/
def fieldPairsF : Nat → List Char → List Char → Bool →
    List (List Char × List Char)
  | 0, w, l, atLS => [(w, (seekField l atLS).1)]
  | fuel + 1, w, l, atLS =>
    match seekField l atLS with
    | (v, some (w2, r2, f2)) => (w, v) :: fieldPairsF fuel w2 r2 f2
    | (v, Option.none) => [(w, v)]

/-- All field matches of a body with their raw value spans (text before
the first match is not part of any value). -/
def parseFieldPairs (body : List Char) : List (List Char × List Char) :=
  match (seekField body true).2 with
  | some (w, r, f) => fieldPairsF body.length w r f
  | Option.none => []

/-- Brace-depth walk of `_extract_value`: the text strictly inside the
outermost brace pair, `none` when the braces never close. -/
def bracedInnerAux : List Char → Nat → Option (List Char)
  | [], _ => Option.none
  | c :: rest, depth =>
    if c = obr then (bracedInnerAux rest (depth + 1)).map (c :: ·)
    else if c = cbr then
      if depth = 1 then some []
      else (bracedInnerAux rest (depth - 1)).map (c :: ·)
    else (bracedInnerAux rest depth).map (c :: ·)

/-- Text strictly before the next `"` (for the quoted-value branch);
`none` when there is no closing quote (Python's `str.index` raises). -/
def findQuote : List Char → Option (List Char)
  | [] => Option.none
  | c :: rest =>
    if c = '"' then some [] else (findQuote rest).map (c :: ·)

/-- `_extract_value`: strip, then braced (nesting-aware; unbalanced braces
fall through to the stripped text), quoted, or bare (trailing commas and
whitespace stripped). -/
def extractValue (raw : List Char) : Except CiteError (List Char) :=
  let r := pyStrip raw
  if r.head? = some obr then
    match bracedInnerAux (r.drop 1) 1 with
    | some inner => .ok inner
    | Option.none => .ok r
  else if r.head? = some '"' then
    match findQuote (r.drop 1) with
    | some inner => .ok inner
    | Option.none => .error .substringNotFound
  else .ok (pyStrip (rstripCommas r))

/-- Decode each raw value in match order (the first failing decode
propagates, as in the Python loop). -/
def parseFieldsAux : List (List Char × List Char) →
    Except CiteError (List (List Char × List Char))
  | [] => .ok []
  | p :: rest => do
    let v ← extractValue p.2
    let tail ← parseFieldsAux rest
    .ok ((lowerL p.1, v) :: tail)

/-- `_parse_fields`: lower-cased names mapped to decoded values, in match
order (a later duplicate name wins at lookup time). -/
def parseFields (body : List Char) :
    Except CiteError (List (List Char × List Char)) :=
  parseFieldsAux (parseFieldPairs body)

/-- Dict lookup over the parsed field pairs (last write wins, as in a
Python dict built by sequential assignment). -/
def pyDictGetL (d : List (List Char × List Char)) (k : List Char) :
    Option (List Char) :=
  d.foldl (fun acc p => if p.1 = k then some p.2 else acc) Option.none

/-- `_normalise_author`: strip; keep a name containing a comma; rewrite
two-or-more whitespace-separated tokens as `last, rest`; keep a single
token. -/
def normaliseAuthor (name : List Char) : List Char :=
  let n := pyStrip name
  if ',' ∈ n then n
  else
    let parts := pySplitWs n
    if parts.length ≤ 1 then n
    else parts.getLastD [] ++ ", ".data ++ joinSep [' '] parts.dropLast

/-- `_parse_authors`: split the raw value on `" and "` and normalise each
name. -/
def parseAuthors (raw : List Char) : List (List Char) :=
  (splitSep " and ".data raw).map normaliseAuthor

/-- An optional integer field, `int()`-converted when present
(`_common_kwargs` / `_article_kwargs`). -/
def intFieldOpt (fields : List (List Char × List Char)) (k : List Char) :
    Except CiteError (Option Int) :=
  match pyDictGetL fields k with
  | some v =>
    match pyIntOfChars v with
    | some n => .ok (some n)
    | Option.none => .error .numericParse
  | Option.none => .ok Option.none

/-- An optional text field, passed through. -/
def strFieldOpt (fields : List (List Char × List Char)) (k : List Char) :
    Option String :=
  (pyDictGetL fields k).map String.mk

/-- An optional author-list field, through `_parse_authors`. -/
def authorsFieldOpt (fields : List (List Char × List Char)) (k : List Char) :
    Option (List String) :=
  (pyDictGetL fields k).map (fun v => (parseAuthors v).map String.mk)

/-- The `_common_kwargs` record: the cite key always; `author`, `title`,
`year` (integer-converted), `doi`, `url`, `note` when present. -/
structure CommonKwargs where
  key : String
  author : Option (List String)
  title : Option String
  year : Option Int
  doi : Option String
  url : Option String
  note : Option String

/-- `_common_kwargs`. -/
def commonKwargsOf (fields : List (List Char × List Char))
    (citeKey : List Char) : Except CiteError CommonKwargs := do
  let year ← intFieldOpt fields "year".data
  .ok { key := String.mk citeKey,
        author := authorsFieldOpt fields "author".data,
        title := strFieldOpt fields "title".data,
        year,
        doi := strFieldOpt fields "doi".data,
        url := strFieldOpt fields "url".data,
        note := strFieldOpt fields "note".data }

/-- A required constructor argument that the parser may have failed to
collect (a missing one is Python's `TypeError` at the call). -/
def reqArg {α : Type} : Option α → Except CiteError α
  | some v => .ok v
  | Option.none => .error .missingArgument

/-- `_TYPE_MAP`'s target classes (`phdthesis` and `mastersthesis` both map
to `Thesis`, remembered with their `thesis_type`). -/
inductive BibClass where
  | articleC | bookC | inProceedingsC | techReportC
  | thesisPhd | thesisMasters | softwareC | miscC
  deriving DecidableEq, Repr

/-- `_TYPE_MAP` on the lower-cased entry-type token. -/
def typeMap (et : List Char) : Option BibClass :=
  if et = "article".data then some .articleC
  else if et = "book".data then some .bookC
  else if et = "inproceedings".data then some .inProceedingsC
  else if et = "techreport".data then some .techReportC
  else if et = "phdthesis".data then some .thesisPhd
  else if et = "mastersthesis".data then some .thesisMasters
  else if et = "software".data then some .softwareC
  else if et = "misc".data then some .miscC
  else Option.none

/-- Parse one extracted entry: type dispatch, field parsing, kwargs
collection (`_common_kwargs` plus the class's kwargs function), then the
class constructor. -/
def parseOne (entryTypeRaw citeKey body : List Char) :
    Except CiteError Entry := do
  match typeMap (lowerL entryTypeRaw) with
  | Option.none => .error .unsupportedEntryType
  | some cls => do
    let fields ← parseFields body
    let c ← commonKwargsOf fields citeKey
    match cls with
    | .articleC => do
      let volume ← intFieldOpt fields "volume".data
      let number ← intFieldOpt fields "number".data
      let author ← reqArg c.author
      let title ← reqArg c.title
      let year ← reqArg c.year
      let journal ← reqArg (strFieldOpt fields "journal".data)
      let volumeV ← reqArg volume
      mkArticle author title year journal volumeV
        (strFieldOpt fields "pages".data)
        (strFieldOpt fields "article_number".data) number
        c.doi c.url c.note (some c.key) Option.none
    | .bookC => do
      let author ← reqArg c.author
      let title ← reqArg c.title
      let year ← reqArg c.year
      let publisher ← reqArg (strFieldOpt fields "publisher".data)
      mkBook author title year publisher
        (strFieldOpt fields "edition".data)
        (authorsFieldOpt fields "editor".data)
        c.doi c.url c.note (some c.key) Option.none
    | .inProceedingsC => do
      let author ← reqArg c.author
      let title ← reqArg c.title
      let year ← reqArg c.year
      let booktitle ← reqArg (strFieldOpt fields "booktitle".data)
      mkInProceedings author title year booktitle
        (strFieldOpt fields "pages".data)
        (strFieldOpt fields "publisher".data)
        (authorsFieldOpt fields "editor".data)
        c.doi c.url c.note (some c.key) Option.none
    | .techReportC => do
      let author ← reqArg c.author
      let title ← reqArg c.title
      let year ← reqArg c.year
      let institution ← reqArg (strFieldOpt fields "institution".data)
      mkTechReport author title year institution
        (strFieldOpt fields "number".data)
        c.doi c.url c.note (some c.key) Option.none
    | .thesisPhd => do
      let author ← reqArg c.author
      let title ← reqArg c.title
      let year ← reqArg c.year
      let school ← reqArg (strFieldOpt fields "school".data)
      mkThesis author title year school "phd"
        c.doi c.url c.note (some c.key) Option.none
    | .thesisMasters => do
      let author ← reqArg c.author
      let title ← reqArg c.title
      let year ← reqArg c.year
      let school ← reqArg (strFieldOpt fields "school".data)
      mkThesis author title year school "masters"
        c.doi c.url c.note (some c.key) Option.none
    | .softwareC => do
      let author ← reqArg c.author
      let title ← reqArg c.title
      let year ← reqArg c.year
      mkSoftware author title year
        (strFieldOpt fields "publisher".data)
        (strFieldOpt fields "version".data)
        (strFieldOpt fields "license".data)
        c.doi c.url c.note (some c.key) Option.none
    | .miscC => do
      let author ← reqArg c.author
      let title ← reqArg c.title
      let year ← reqArg c.year
      mkMisc author title year c.doi c.url c.note (some c.key) Option.none

/-- `from_bibtex_string`: single-record parse — no entry-start match is
`NoEntryFound`, more than one is `MultipleEntriesFound`. -/
def fromBibtexChars (s : List Char) : Except CiteError Entry :=
  match extractEntries s with
  | [] => .error .noEntryFound
  | [(t, k, b)] => parseOne t k b
  | _ => .error .multipleEntriesFound

/-- The constructor preconditions, per class: exactly the validity state a
successfully constructed entry satisfies. -/
def Entry.valid : Entry → Bool
  | .article a =>
      a.journal ≠ "" && (a.pages ≠ none || a.article_number ≠ none)
        && a.author ≠ []
  | .book a => a.publisher ≠ "" && a.author ≠ []
  | .inProceedings a => a.booktitle ≠ "" && a.author ≠ []
  | .techReport a => a.institution ≠ "" && a.author ≠ []
  | .thesis a =>
      a.school ≠ "" && (a.thesis_type = "phd" || a.thesis_type = "masters")
        && a.author ≠ []
  | .software a => a.author ≠ []
  | .misc a => a.author ≠ []

/-! ## Spec-side definitions

Definitions below this point are written from the claims' words, for
comparison against the source-side functions above. -/

/-- Claim-side (C3): same variant and all fields except `key` and `app`
equal, written out field by field (attribute names in sorted order). -/
def sameContentSpec : Entry → Entry → Prop
  | .article x, .article y =>
      x.article_number = y.article_number ∧ x.author = y.author
        ∧ x.doi = y.doi ∧ x.journal = y.journal ∧ x.note = y.note
        ∧ x.number = y.number ∧ x.pages = y.pages ∧ x.title = y.title
        ∧ x.url = y.url ∧ x.volume = y.volume ∧ x.year = y.year
  | .book x, .book y =>
      x.author = y.author ∧ x.doi = y.doi ∧ x.edition = y.edition
        ∧ x.editor = y.editor ∧ x.note = y.note ∧ x.publisher = y.publisher
        ∧ x.title = y.title ∧ x.url = y.url ∧ x.year = y.year
  | .inProceedings x, .inProceedings y =>
      x.author = y.author ∧ x.booktitle = y.booktitle ∧ x.doi = y.doi
        ∧ x.editor = y.editor ∧ x.note = y.note ∧ x.pages = y.pages
        ∧ x.publisher = y.publisher ∧ x.title = y.title ∧ x.url = y.url
        ∧ x.year = y.year
  | .techReport x, .techReport y =>
      x.author = y.author ∧ x.doi = y.doi ∧ x.institution = y.institution
        ∧ x.note = y.note ∧ x.number = y.number ∧ x.title = y.title
        ∧ x.url = y.url ∧ x.year = y.year
  | .thesis x, .thesis y =>
      x.author = y.author ∧ x.doi = y.doi ∧ x.note = y.note
        ∧ x.school = y.school ∧ x.thesis_type = y.thesis_type
        ∧ x.title = y.title ∧ x.url = y.url ∧ x.year = y.year
  | .software x, .software y =>
      x.author = y.author ∧ x.doi = y.doi ∧ x.license = y.license
        ∧ x.note = y.note ∧ x.publisher = y.publisher ∧ x.title = y.title
        ∧ x.url = y.url ∧ x.year = y.year
  | .misc x, .misc y =>
      x.author = y.author ∧ x.doi = y.doi ∧ x.note = y.note
        ∧ x.title = y.title ∧ x.url = y.url ∧ x.year = y.year
  | _, _ => False

/-- Claim-side (C6, amended): strip surrounding whitespace first; then a
name containing a comma is unchanged, a name of two or more
whitespace-separated tokens becomes `{last token}, {rest joined by
space}`, and a single token is kept as stripped. -/
def normaliseSpec (name : List Char) : List Char :=
  let stripped := pyStrip name
  let tokens := pySplitWs stripped
  if ',' ∈ stripped then stripped
  else if 2 ≤ tokens.length then
    tokens.getLastD [] ++ ',' :: ' ' :: joinSep [' '] tokens.dropLast
  else stripped

/-- Claim-side (C4): the number of positions of the text at which the
entry-start pattern `@(\w+)\s*\{` matches (matches never overlap, so this
is also the `finditer` match count). -/
def matchCount (s : List Char) : Nat :=
  s.tails.countP (fun t => (tryEntryStart t).isSome)

/-! ## BibTeX-safety side conditions (C2, amended)

Characters and shapes with which the fixed rendering templates stay inside
the grammar fragment the reader understands. -/

/-- No braces (would disturb depth scanning / value decoding), no `@`
(would read as another entry start), no newline (would read as another
field line). -/
def safeChar (c : Char) : Bool :=
  !(c = obr || c = cbr || c = '@' || c = '\n')

/-- All characters safe. -/
def safeStr (s : String) : Bool := s.data.all safeChar

/-- Safe when present. -/
def safeOptStr : Option String → Bool
  | some s => safeStr s
  | none => true

/-- An author/editor list the rendering round-trips: every name safe and a
fixed point of the reader's normalisation, and the `" and "`-joined text
splits back into exactly the same names. -/
def safeAuthorList (l : List String) : Bool :=
  l.all (fun n => safeStr n && (normaliseAuthor n.data == n.data))
    && (splitSep " and ".data (joinSep " and ".data (l.map String.data))
          == l.map String.data)

/-- Safe when present. -/
def safeOptAuthorList : Option (List String) → Bool
  | some l => safeAuthorList l
  | none => true

/-- A cite key the reader hands back unchanged: safe characters, no comma
(the key/fields separator), no surrounding whitespace (the reader
strips). -/
def safeKey (k : String) : Bool :=
  k.data.all (fun c => safeChar c && !(c = ','))
    && (pyStrip k.data == k.data)

/-- All string-valued parts of the entry are BibTeX-safe. -/
def bibtexSafe : Entry → Bool
  | .article a =>
      safeKey a.key && safeAuthorList a.author && safeStr a.title
        && safeStr a.journal && safeOptStr a.pages
        && safeOptStr a.article_number && safeOptStr a.doi
        && safeOptStr a.url && safeOptStr a.note
  | .book a =>
      safeKey a.key && safeAuthorList a.author && safeStr a.title
        && safeStr a.publisher && safeOptStr a.edition
        && safeOptAuthorList a.editor && safeOptStr a.doi
        && safeOptStr a.url && safeOptStr a.note
  | .inProceedings a =>
      safeKey a.key && safeAuthorList a.author && safeStr a.title
        && safeStr a.booktitle && safeOptStr a.pages
        && safeOptStr a.publisher && safeOptAuthorList a.editor
        && safeOptStr a.doi && safeOptStr a.url && safeOptStr a.note
  | .techReport a =>
      safeKey a.key && safeAuthorList a.author && safeStr a.title
        && safeStr a.institution && safeOptStr a.number
        && safeOptStr a.doi && safeOptStr a.url && safeOptStr a.note
  | .thesis a =>
      safeKey a.key && safeAuthorList a.author && safeStr a.title
        && safeStr a.school && safeOptStr a.doi && safeOptStr a.url
        && safeOptStr a.note
  | .software a =>
      safeKey a.key && safeAuthorList a.author && safeStr a.title
        && safeOptStr a.publisher && safeOptStr a.version
        && safeOptStr a.license && safeOptStr a.doi && safeOptStr a.url
        && safeOptStr a.note
  | .misc a =>
      safeKey a.key && safeAuthorList a.author && safeStr a.title
        && safeOptStr a.doi && safeOptStr a.url && safeOptStr a.note

/-- A rendered field name: non-empty, all regex-word characters (every
literal name the `__str__` templates use satisfies this). -/
def goodName (n : List Char) : Prop :=
  n ≠ [] ∧ ∀ c ∈ n, isWordChar c = true

/-- A rendered field value the reader scans through unharmed: no braces,
no newline, no entry-start marker. -/
def goodVal (v : List Char) : Prop :=
  ∀ c ∈ v, c ≠ obr ∧ c ≠ cbr ∧ c ≠ '\n' ∧ c ≠ '@'

/-- A well-behaved rendered field pair. -/
def goodPair (p : List Char × List Char) : Prop :=
  goodName p.1 ∧ goodVal p.2

/-- All pairs well-behaved. -/
def goodPairs (ps : List (List Char × List Char)) : Prop :=
  ∀ p ∈ ps, goodPair p

/-- The body block of a rendered entry: each field line followed by its
newline (the form `"\n".join` gives the middle of the text). -/
def catLines : List (List Char × List Char) → List Char
  | [] => []
  | p :: ps => lineOf p ++ catLines ps

/-- Goodness of a name is a decidable proposition. -/
instance instDecGoodName (n : List Char) : Decidable (goodName n) :=
  decidable_of_iff (n ≠ [] ∧ ∀ c ∈ n, isWordChar c = true) Iff.rfl

/-- Goodness of a value is a decidable proposition. -/
instance instDecGoodVal (v : List Char) : Decidable (goodVal v) :=
  decidable_of_iff (∀ c ∈ v, c ≠ obr ∧ c ≠ cbr ∧ c ≠ '\n' ∧ c ≠ '@')
    Iff.rfl

/-! ## Concrete inputs for counterexamples and witnesses -/

/-- A `@techreport` record whose `number` field is not numeric. -/
def trInput : List Char :=
  ("@techreport\x7bTuring.1936,\n  author      = \x7bTuring, Alan\x7d,\n  title       = \x7bOn Computable Numbers\x7d,\n  institution = \x7bCambridge\x7d,\n  year        = \x7b1936\x7d,\n  number      = \x7bTR-42\x7d,\n\x7d").data

/-- The fields body `_extract_entries` produces for `trInput`. -/
def trBody : List Char :=
  ("\n  author      = \x7bTuring, Alan\x7d,\n  title       = \x7bOn Computable Numbers\x7d,\n  institution = \x7bCambridge\x7d,\n  year        = \x7b1936\x7d,\n  number      = \x7bTR-42\x7d,\n").data

/-- The entry `trInput` parses to. -/
def trEntry : Entry :=
  .techReport
    { author := ["Turing, Alan"], title := "On Computable Numbers",
      year := 1936, doi := Option.none, url := Option.none,
      note := Option.none, key := "Turing.1936", app := Option.none,
      institution := "Cambridge", number := some "TR-42" }

/-- A record whose author value carries a leading space before a mononym. -/
def monoInput : List Char :=
  ("@misc\x7bPlato.2024,\n  author = \x7b Plato\x7d,\n  title  = \x7bDialogues\x7d,\n  year   = \x7b2024\x7d,\n\x7d").data

/-- The fields body of `monoInput`. -/
def monoBody : List Char :=
  ("\n  author = \x7b Plato\x7d,\n  title  = \x7bDialogues\x7d,\n  year   = \x7b2024\x7d,\n").data

/-- The entry `monoInput` parses to: the name comes out stripped. -/
def monoEntry : Entry :=
  .misc
    { author := ["Plato"], title := "Dialogues", year := 2024,
      doi := Option.none, url := Option.none, note := Option.none,
      key := "Plato.2024", app := Option.none }

/-- A record with an empty cite key. -/
def emptyKeyInput : List Char :=
  ("@misc\x7b,\n  author = \x7bA, B\x7d,\n  title  = \x7bT\x7d,\n  year   = \x7b2024\x7d,\n\x7d").data

/-- The fields body of `emptyKeyInput`. -/
def emptyKeyBody : List Char :=
  ("\n  author = \x7bA, B\x7d,\n  title  = \x7bT\x7d,\n  year   = \x7b2024\x7d,\n").data

/-- The entry `emptyKeyInput` parses to: its key is the empty string. -/
def emptyKeyEntry : Entry :=
  .misc
    { author := ["A, B"], title := "T", year := 2024,
      doi := Option.none, url := Option.none, note := Option.none,
      key := "", app := Option.none }

/-- A record whose `year` value is not numeric. -/
def badYearInput : List Char :=
  ("@misc\x7bk,\n  author = \x7bA, B\x7d,\n  title  = \x7bT\x7d,\n  year   = \x7bMMXXIV\x7d,\n\x7d").data

/-- The fields body of `badYearInput`. -/
def badYearBody : List Char :=
  ("\n  author = \x7bA, B\x7d,\n  title  = \x7bT\x7d,\n  year   = \x7bMMXXIV\x7d,\n").data

/-- A constructible `Misc` whose title is the brace pair `}{` (written
with escapes), which the rendering/parsing pair does not round-trip. -/
def braceTitleEntry : Entry :=
  .misc
    { author := ["A"], title := "\x7d\x7b", year := 2024,
      doi := Option.none, url := Option.none, note := Option.none,
      key := "k", app := Option.none }

/-- A BibTeX-safe, valid article used to witness the round-trip theorem. -/
def witnessArticle : Entry :=
  .article
    { author := ["Huttley, Gavin", "Caley, Katherine"], title := "diverse-seq",
      year := 2025, doi := some "10.21105/joss.07765", url := Option.none,
      note := Option.none, key := "Huttley.2025", app := some "dvs",
      journal := "Journal of Open Source Software", volume := 10,
      pages := some "7765", article_number := Option.none, number := some 110 }

/-! ## Helper lemmas -/

theorem ebind_ok {α β : Type} (a : α) (f : α → Except CiteError β) :
    (Except.ok a >>= f) = f a := rfl

theorem ebind_err {α β : Type} (e : CiteError) (f : α → Except CiteError β) :
    ((Except.error e : Except CiteError α) >>= f) = .error e := rfl

theorem epure {α : Type} (a : α) : (pure a : Except CiteError α) = .ok a := rfl

theorem stringMk_data (s : String) : String.mk s.data = s := rfl

theorem ceq_refl (e : Entry) : ceq e e = true := by
  cases e <;> simp [ceq]

/-! ## Claim C3 -/

/-- Claim C3: two entries compare equal exactly when they are the same
variant with all fields except `key` and `app` equal; consequently entries
differing only in `key`/`app` compare equal and hash identically (the hash
input tuple coincides). -/
theorem C3_content_equality : ∀ a b : Entry,
    (ceq a b = true ↔ sameContentSpec a b)
    ∧ (ceq a b = true → pyHashInput a = pyHashInput b)
    ∧ ∀ (k k2 : String) (ap ap2 : Option String),
        ceq (a.withKeyApp k ap) (a.withKeyApp k2 ap2) = true
        ∧ pyHashInput (a.withKeyApp k ap)
            = pyHashInput (a.withKeyApp k2 ap2) := by
  intro a b
  refine ⟨?_, ?_, ?_⟩
  · cases a <;> cases b <;>
      simp [ceq, Entry.typeName, Entry.contentFields, sameContentSpec]
  · intro h
    simp only [ceq, Bool.and_eq_true, decide_eq_true_eq] at h
    simp [pyHashInput, h.1, h.2]
  · intro k k2 ap ap2
    cases a <;>
      simp [ceq, Entry.withKeyApp, Entry.typeName, Entry.contentFields,
        pyHashInput]

/-! ## Claim C9 -/

/-- Claim C9: `from_dict` never mutates its argument — the caller's dict
after the call is the dict passed in (the source pops `"type"` from a
shallow copy only), so its `"type"` entry in particular is intact. -/
theorem C9_from_dict_preserves_argument : ∀ d : List (String × DVal),
    (fromDictCall d).2 = d
    ∧ dictGet (fromDictCall d).2 "type" = dictGet d "type" :=
  fun _ => ⟨rfl, rfl⟩

/-! ## Claim C8 -/

theorem stringMk_append (a b : List Char) :
    String.mk a ++ String.mk b = String.mk (a ++ b) := rfl

theorem string_length_data (s : String) : s.length = s.data.length := rfl

theorem ellipsisMk : ("…" : String) = String.mk ['…'] := rfl

/-- Claim C8: the citation string of `summary()` carries the first 50
title characters plus an ellipsis exactly when the title is longer than
50 characters, and the unmodified title (nothing appended) otherwise. -/
theorem C8_summary_title_truncation : ∀ e : Entry, e.valid = true →
    (50 < e.title.data.length →
       (e.summary).2 = authorSummary e.author ++ " "
         ++ String.mk (intDecimal e.year) ++ " "
         ++ (String.mk (e.title.data.take 50) ++ "…"))
    ∧ (e.title.data.length ≤ 50 →
       (e.summary).2 = authorSummary e.author ++ " "
         ++ String.mk (intDecimal e.year) ++ " " ++ e.title) := by
  intro e _
  constructor
  · intro h
    simp only [Entry.summary, titleExcerpt]
    rw [if_neg (by omega)]
    rfl
  · intro h
    simp only [Entry.summary, titleExcerpt]
    rw [if_pos (by omega)]

/-- A valid entry with a 60-character title, for the C8 witness. -/
def longTitleMisc : Entry :=
  .misc
    { author := ["Smith, A"], title := String.mk (List.replicate 60 'A'),
      year := 2024, doi := Option.none, url := Option.none,
      note := Option.none, key := "Smith.2024", app := Option.none }

/-- Witness for C8: the truncation branch at a concrete 60-character
title. -/
theorem C8_summary_title_truncation_witness :
    (longTitleMisc.summary).2 = authorSummary longTitleMisc.author ++ " "
      ++ String.mk (intDecimal longTitleMisc.year) ++ " "
      ++ (String.mk (longTitleMisc.title.data.take 50) ++ "…") :=
  (C8_summary_title_truncation longTitleMisc (by decide)).1 (by decide)

/-! ## Claim C7 -/

theorem mkArticle_cases (author : List String) (title : String) (year : Int)
    (journal : String) (volume : Int) (pages article_number : Option String)
    (number : Option Int) (doi url note key app : Option String) :
    ((∃ e, mkArticle author title year journal volume pages article_number
        number doi url note key app = .ok e)
      ↔ (journal ≠ "" ∧ (pages ≠ Option.none ∨ article_number ≠ Option.none)
          ∧ author ≠ []))
    ∧ (mkArticle author title year journal volume pages article_number
        number doi url note key app = .error .invalidEntry
      ↔ ¬(journal ≠ "" ∧ (pages ≠ Option.none ∨ article_number ≠ Option.none)
          ∧ author ≠ [])) := by
  by_cases hj : journal = "" <;> by_cases ha : author = [] <;>
    cases pages <;> cases article_number <;>
    simp [mkArticle, requireField, initBase, requireNonEmptyAuthors,
      hj, ha, ebind_ok, ebind_err]

theorem mkBook_cases (author : List String) (title : String) (year : Int)
    (publisher : String) (edition : Option String)
    (editor : Option (List String)) (doi url note key app : Option String) :
    ((∃ e, mkBook author title year publisher edition editor doi url note
        key app = .ok e) ↔ (publisher ≠ "" ∧ author ≠ []))
    ∧ (mkBook author title year publisher edition editor doi url note
        key app = .error .invalidEntry ↔ ¬(publisher ≠ "" ∧ author ≠ [])) := by
  by_cases hp : publisher = "" <;> by_cases ha : author = [] <;>
    simp [mkBook, requireField, initBase, requireNonEmptyAuthors,
      hp, ha, ebind_ok, ebind_err]

theorem mkInProceedings_cases (author : List String) (title : String)
    (year : Int) (booktitle : String) (pages publisher : Option String)
    (editor : Option (List String)) (doi url note key app : Option String) :
    ((∃ e, mkInProceedings author title year booktitle pages publisher editor
        doi url note key app = .ok e) ↔ (booktitle ≠ "" ∧ author ≠ []))
    ∧ (mkInProceedings author title year booktitle pages publisher editor
        doi url note key app = .error .invalidEntry
      ↔ ¬(booktitle ≠ "" ∧ author ≠ [])) := by
  by_cases hb : booktitle = "" <;> by_cases ha : author = [] <;>
    simp [mkInProceedings, requireField, initBase, requireNonEmptyAuthors,
      hb, ha, ebind_ok, ebind_err]

theorem mkTechReport_cases (author : List String) (title : String)
    (year : Int) (institution : String) (number : Option String)
    (doi url note key app : Option String) :
    ((∃ e, mkTechReport author title year institution number doi url note
        key app = .ok e) ↔ (institution ≠ "" ∧ author ≠ []))
    ∧ (mkTechReport author title year institution number doi url note
        key app = .error .invalidEntry
      ↔ ¬(institution ≠ "" ∧ author ≠ [])) := by
  by_cases hi : institution = "" <;> by_cases ha : author = [] <;>
    simp [mkTechReport, requireField, initBase, requireNonEmptyAuthors,
      hi, ha, ebind_ok, ebind_err]

theorem mkThesis_cases (author : List String) (title : String) (year : Int)
    (school thesis_type : String) (doi url note key app : Option String) :
    ((∃ e, mkThesis author title year school thesis_type doi url note
        key app = .ok e)
      ↔ (school ≠ "" ∧ (thesis_type = "phd" ∨ thesis_type = "masters")
          ∧ author ≠ []))
    ∧ (mkThesis author title year school thesis_type doi url note
        key app = .error .invalidEntry
      ↔ ¬(school ≠ "" ∧ (thesis_type = "phd" ∨ thesis_type = "masters")
          ∧ author ≠ [])) := by
  by_cases hs : school = "" <;> by_cases ha : author = [] <;>
    by_cases hp : thesis_type = "phd" <;> by_cases hm : thesis_type = "masters" <;>
    by_cases ht : thesis_type = "" <;>
    simp [mkThesis, requireField, initBase, requireNonEmptyAuthors,
      hs, ha, hp, hm, ht, ebind_ok, ebind_err]

theorem mkSoftware_cases (author : List String) (title : String) (year : Int)
    (publisher version license doi url note key app : Option String) :
    ((∃ e, mkSoftware author title year publisher version license doi url
        note key app = .ok e) ↔ author ≠ [])
    ∧ (mkSoftware author title year publisher version license doi url note
        key app = .error .invalidEntry ↔ ¬author ≠ []) := by
  by_cases ha : author = [] <;>
    simp [mkSoftware, initBase, requireNonEmptyAuthors, ha, ebind_ok, ebind_err]

theorem mkMisc_cases (author : List String) (title : String) (year : Int)
    (doi url note key app : Option String) :
    ((∃ e, mkMisc author title year doi url note key app = .ok e)
      ↔ author ≠ [])
    ∧ (mkMisc author title year doi url note key app = .error .invalidEntry
      ↔ ¬author ≠ []) := by
  by_cases ha : author = [] <;>
    simp [mkMisc, initBase, requireNonEmptyAuthors, ha, ebind_ok, ebind_err]

/-- Claim C7: each constructor yields an entry exactly when its
preconditions hold (required text fields non-empty, non-empty author list,
`thesis_type` in {phd, masters}, Article with `pages` or
`article_number`), and otherwise fails with the `InvalidEntry`-kind error
and produces no entry. -/
theorem C7_constructor_validation :
    (∀ (author : List String) (title : String) (year : Int)
        (journal : String) (volume : Int)
        (pages article_number : Option String) (number : Option Int)
        (doi url note key app : Option String),
      ((∃ e, mkArticle author title year journal volume pages article_number
          number doi url note key app = .ok e)
        ↔ (journal ≠ "" ∧ (pages ≠ Option.none ∨ article_number ≠ Option.none)
            ∧ author ≠ []))
      ∧ (mkArticle author title year journal volume pages article_number
          number doi url note key app = .error .invalidEntry
        ↔ ¬(journal ≠ "" ∧ (pages ≠ Option.none ∨ article_number ≠ Option.none)
            ∧ author ≠ [])))
    ∧ (∀ (author : List String) (title : String) (year : Int)
          (publisher : String) (edition : Option String)
          (editor : Option (List String)) (doi url note key app : Option String),
        ((∃ e, mkBook author title year publisher edition editor doi url note
            key app = .ok e) ↔ (publisher ≠ "" ∧ author ≠ []))
        ∧ (mkBook author title year publisher edition editor doi url note
            key app = .error .invalidEntry ↔ ¬(publisher ≠ "" ∧ author ≠ [])))
    ∧ (∀ (author : List String) (title : String) (year : Int)
          (booktitle : String) (pages publisher : Option String)
          (editor : Option (List String)) (doi url note key app : Option String),
        ((∃ e, mkInProceedings author title year booktitle pages publisher
            editor doi url note key app = .ok e)
          ↔ (booktitle ≠ "" ∧ author ≠ []))
        ∧ (mkInProceedings author title year booktitle pages publisher editor
            doi url note key app = .error .invalidEntry
          ↔ ¬(booktitle ≠ "" ∧ author ≠ [])))
    ∧ (∀ (author : List String) (title : String) (year : Int)
          (institution : String) (number : Option String)
          (doi url note key app : Option String),
        ((∃ e, mkTechReport author title year institution number doi url note
            key app = .ok e) ↔ (institution ≠ "" ∧ author ≠ []))
        ∧ (mkTechReport author title year institution number doi url note
            key app = .error .invalidEntry
          ↔ ¬(institution ≠ "" ∧ author ≠ [])))
    ∧ (∀ (author : List String) (title : String) (year : Int)
          (school thesis_type : String) (doi url note key app : Option String),
        ((∃ e, mkThesis author title year school thesis_type doi url note
            key app = .ok e)
          ↔ (school ≠ "" ∧ (thesis_type = "phd" ∨ thesis_type = "masters")
              ∧ author ≠ []))
        ∧ (mkThesis author title year school thesis_type doi url note
            key app = .error .invalidEntry
          ↔ ¬(school ≠ "" ∧ (thesis_type = "phd" ∨ thesis_type = "masters")
              ∧ author ≠ [])))
    ∧ (∀ (author : List String) (title : String) (year : Int)
          (publisher version license doi url note key app : Option String),
        ((∃ e, mkSoftware author title year publisher version license doi url
            note key app = .ok e) ↔ author ≠ [])
        ∧ (mkSoftware author title year publisher version license doi url
            note key app = .error .invalidEntry ↔ ¬author ≠ []))
    ∧ (∀ (author : List String) (title : String) (year : Int)
          (doi url note key app : Option String),
        ((∃ e, mkMisc author title year doi url note key app = .ok e)
          ↔ author ≠ [])
        ∧ (mkMisc author title year doi url note key app
            = .error .invalidEntry ↔ ¬author ≠ [])) :=
  ⟨mkArticle_cases, mkBook_cases, mkInProceedings_cases, mkTechReport_cases,
   mkThesis_cases, mkSoftware_cases, mkMisc_cases⟩

/-! ## Claim C1 -/

theorem optStrArg_of_get {d : List (String × DVal)} {k : String}
    {o : Option String} (h : dictGet d k = some (optStrD o)) :
    optStrArg d k = .ok o := by
  cases o <;> simp [optStrArg, h, optStrD]

theorem optIntArg_of_get {d : List (String × DVal)} {k : String}
    {o : Option Int} (h : dictGet d k = some (optIntD o)) :
    optIntArg d k = .ok o := by
  cases o <;> simp [optIntArg, h, optIntD]

theorem optLsArg_of_get {d : List (String × DVal)} {k : String}
    {o : Option (List String)} (h : dictGet d k = some (optLsD o)) :
    optStrListArg d k = .ok o := by
  cases o <;> simp [optStrListArg, h, optLsD]

theorem optStrArg_of_get_s {d : List (String × DVal)} {k : String}
    {v : String} (h : dictGet d k = some (.s v)) :
    optStrArg d k = .ok (some v) := by
  simp [optStrArg, h]

theorem dictToArticle_eval (au : List String) (ti : String) (ye : Int)
    (d1 u1 n1 : Option String) (k1 : String) (ap : Option String)
    (j1 : String) (v1 : Int) (p1 an : Option String) (nu : Option Int) :
    dictToArticle [("author", .ls au), ("title", .s ti), ("year", .i ye),
      ("doi", optStrD d1), ("url", optStrD u1), ("note", optStrD n1),
      ("key", .s k1), ("app", optStrD ap), ("journal", .s j1),
      ("volume", .i v1), ("pages", optStrD p1),
      ("article_number", optStrD an), ("number", optIntD nu)]
    = mkArticle au ti ye j1 v1 p1 an nu d1 u1 n1 (some k1) ap := by
  cases d1 <;> cases u1 <;> cases n1 <;> cases ap <;> cases p1 <;> cases an
    <;> cases nu <;> rfl

theorem dictToBook_eval (au : List String) (ti : String) (ye : Int)
    (d1 u1 n1 : Option String) (k1 : String) (ap : Option String)
    (pub : String) (ed : Option String) (edl : Option (List String)) :
    dictToBook [("author", .ls au), ("title", .s ti), ("year", .i ye),
      ("doi", optStrD d1), ("url", optStrD u1), ("note", optStrD n1),
      ("key", .s k1), ("app", optStrD ap), ("publisher", .s pub),
      ("edition", optStrD ed), ("editor", optLsD edl)]
    = mkBook au ti ye pub ed edl d1 u1 n1 (some k1) ap := by
  cases d1 <;> cases u1 <;> cases n1 <;> cases ap <;> cases ed <;> cases edl
    <;> rfl

theorem dictToInProceedings_eval (au : List String) (ti : String) (ye : Int)
    (d1 u1 n1 : Option String) (k1 : String) (ap : Option String)
    (bt : String) (p1 pub : Option String) (edl : Option (List String)) :
    dictToInProceedings [("author", .ls au), ("title", .s ti), ("year", .i ye),
      ("doi", optStrD d1), ("url", optStrD u1), ("note", optStrD n1),
      ("key", .s k1), ("app", optStrD ap), ("booktitle", .s bt),
      ("pages", optStrD p1), ("publisher", optStrD pub),
      ("editor", optLsD edl)]
    = mkInProceedings au ti ye bt p1 pub edl d1 u1 n1 (some k1) ap := by
  cases d1 <;> cases u1 <;> cases n1 <;> cases ap <;> cases p1 <;> cases pub
    <;> cases edl <;> rfl

theorem dictToTechReport_eval (au : List String) (ti : String) (ye : Int)
    (d1 u1 n1 : Option String) (k1 : String) (ap : Option String)
    (inst : String) (nu : Option String) :
    dictToTechReport [("author", .ls au), ("title", .s ti), ("year", .i ye),
      ("doi", optStrD d1), ("url", optStrD u1), ("note", optStrD n1),
      ("key", .s k1), ("app", optStrD ap), ("institution", .s inst),
      ("number", optStrD nu)]
    = mkTechReport au ti ye inst nu d1 u1 n1 (some k1) ap := by
  cases d1 <;> cases u1 <;> cases n1 <;> cases ap <;> cases nu <;> rfl

theorem dictToThesis_eval (au : List String) (ti : String) (ye : Int)
    (d1 u1 n1 : Option String) (k1 : String) (ap : Option String)
    (sch tt : String) :
    dictToThesis [("author", .ls au), ("title", .s ti), ("year", .i ye),
      ("doi", optStrD d1), ("url", optStrD u1), ("note", optStrD n1),
      ("key", .s k1), ("app", optStrD ap), ("school", .s sch),
      ("thesis_type", .s tt)]
    = mkThesis au ti ye sch tt d1 u1 n1 (some k1) ap := by
  cases d1 <;> cases u1 <;> cases n1 <;> cases ap <;> rfl

theorem dictToSoftware_eval (au : List String) (ti : String) (ye : Int)
    (d1 u1 n1 : Option String) (k1 : String) (ap : Option String)
    (pub ver lic : Option String) :
    dictToSoftware [("author", .ls au), ("title", .s ti), ("year", .i ye),
      ("doi", optStrD d1), ("url", optStrD u1), ("note", optStrD n1),
      ("key", .s k1), ("app", optStrD ap), ("publisher", optStrD pub),
      ("version", optStrD ver), ("license", optStrD lic)]
    = mkSoftware au ti ye pub ver lic d1 u1 n1 (some k1) ap := by
  cases d1 <;> cases u1 <;> cases n1 <;> cases ap <;> cases pub <;> cases ver
    <;> cases lic <;> rfl

theorem dictToMisc_eval (au : List String) (ti : String) (ye : Int)
    (d1 u1 n1 : Option String) (k1 : String) (ap : Option String) :
    dictToMisc [("author", .ls au), ("title", .s ti), ("year", .i ye),
      ("doi", optStrD d1), ("url", optStrD u1), ("note", optStrD n1),
      ("key", .s k1), ("app", optStrD ap)]
    = mkMisc au ti ye d1 u1 n1 (some k1) ap := by
  cases d1 <;> cases u1 <;> cases n1 <;> cases ap <;> rfl

/-- Claim C1: reconstructing any successfully constructed entry from its
dict form yields an equal entry with `key` and `app` preserved exactly. -/
theorem C1_dict_roundtrip : ∀ e : Entry, e.valid = true →
    ∃ e2, fromDictData e.toDict = .ok e2 ∧ ceq e2 e = true
      ∧ e2.key = e.key ∧ e2.app = e.app := by
  intro e hv
  refine ⟨e, ?_, ceq_refl e, rfl, rfl⟩
  cases e with
  | article a =>
    obtain ⟨hj, hpa, hau⟩ :
        a.journal ≠ "" ∧ (a.pages ≠ Option.none ∨ a.article_number ≠ Option.none)
          ∧ a.author ≠ [] := by
      simpa [Entry.valid, and_assoc] using hv
    have hcond : ¬(a.pages = Option.none ∧ a.article_number = Option.none) := by
      rcases hpa with h | h <;> intro hc <;> [exact h hc.1; exact h hc.2]
    simp [Entry.toDict, fromDictData, dictPop, dictToArticle_eval, mkArticle,
      requireField, initBase, requireNonEmptyAuthors, hj, hcond, hau,
      ebind_ok, ebind_err, epure]
  | book a =>
    obtain ⟨hp, hau⟩ : a.publisher ≠ "" ∧ a.author ≠ [] := by
      simpa [Entry.valid] using hv
    simp [Entry.toDict, fromDictData, dictPop, dictToBook_eval, mkBook,
      requireField, initBase, requireNonEmptyAuthors, hp, hau,
      ebind_ok, ebind_err, epure]
  | inProceedings a =>
    obtain ⟨hb, hau⟩ : a.booktitle ≠ "" ∧ a.author ≠ [] := by
      simpa [Entry.valid] using hv
    simp [Entry.toDict, fromDictData, dictPop, dictToInProceedings_eval,
      mkInProceedings, requireField, initBase, requireNonEmptyAuthors,
      hb, hau, ebind_ok, ebind_err, epure]
  | techReport a =>
    obtain ⟨hi, hau⟩ : a.institution ≠ "" ∧ a.author ≠ [] := by
      simpa [Entry.valid] using hv
    simp [Entry.toDict, fromDictData, dictPop, dictToTechReport_eval,
      mkTechReport, requireField, initBase, requireNonEmptyAuthors,
      hi, hau, ebind_ok, ebind_err, epure]
  | thesis a =>
    obtain ⟨hs, ht, hau⟩ :
        a.school ≠ "" ∧ (a.thesis_type = "phd" ∨ a.thesis_type = "masters")
          ∧ a.author ≠ [] := by
      simpa [Entry.valid, and_assoc] using hv
    have ht2 : ¬(a.thesis_type ≠ "phd" ∧ a.thesis_type ≠ "masters") := by
      rcases ht with h | h <;> intro hc <;> [exact hc.1 h; exact hc.2 h]
    have ht3 : a.thesis_type ≠ "" := by
      rcases ht with h | h <;> rw [h] <;> decide
    simp [Entry.toDict, fromDictData, dictPop, dictToThesis_eval, mkThesis,
      requireField, initBase, requireNonEmptyAuthors, hs, ht2, ht3, hau,
      ebind_ok, ebind_err, epure]
  | software a =>
    have hau : a.author ≠ [] := by simpa [Entry.valid] using hv
    simp [Entry.toDict, fromDictData, dictPop, dictToSoftware_eval,
      mkSoftware, initBase, requireNonEmptyAuthors, hau,
      ebind_ok, ebind_err, epure]
  | misc a =>
    have hau : a.author ≠ [] := by simpa [Entry.valid] using hv
    simp [Entry.toDict, fromDictData, dictPop, dictToMisc_eval, mkMisc,
      initBase, requireNonEmptyAuthors, hau, ebind_ok, ebind_err, epure]

/-- Witness for C1: the round trip at a concrete valid article. -/
theorem C1_dict_roundtrip_witness :
    ∃ e2, fromDictData witnessArticle.toDict = .ok e2
      ∧ ceq e2 witnessArticle = true ∧ e2.key = witnessArticle.key
      ∧ e2.app = witnessArticle.app :=
  C1_dict_roundtrip witnessArticle (by decide)

/-! ## Claim C10 -/

/-- The misc entry used to witness C10's explicit-key conjunct. -/
def keyedMisc : Entry :=
  .misc
    { author := ["A, B"], title := "T", year := 2024, doi := Option.none,
      url := Option.none, note := Option.none, key := "xyz",
      app := Option.none }

/-- Claim C10: a constructor called with an explicit `key` string — the
empty string included — stores exactly that string (the default generator
runs only for an absent key), and a record parsed with an empty cite key
comes back with key `""`. -/
theorem C10_explicit_key :
    (∀ (author : List String) (title : String) (year : Int)
        (journal : String) (volume : Int)
        (pages article_number : Option String) (number : Option Int)
        (doi url note app : Option String) (k : String) (e : Entry),
      mkArticle author title year journal volume pages article_number number
        doi url note (some k) app = .ok e → e.key = k)
    ∧ (∀ (author : List String) (title : String) (year : Int)
          (publisher : String) (edition : Option String)
          (editor : Option (List String)) (doi url note app : Option String)
          (k : String) (e : Entry),
        mkBook author title year publisher edition editor doi url note
          (some k) app = .ok e → e.key = k)
    ∧ (∀ (author : List String) (title : String) (year : Int)
          (booktitle : String) (pages publisher : Option String)
          (editor : Option (List String)) (doi url note app : Option String)
          (k : String) (e : Entry),
        mkInProceedings author title year booktitle pages publisher editor
          doi url note (some k) app = .ok e → e.key = k)
    ∧ (∀ (author : List String) (title : String) (year : Int)
          (institution : String) (number : Option String)
          (doi url note app : Option String) (k : String) (e : Entry),
        mkTechReport author title year institution number doi url note
          (some k) app = .ok e → e.key = k)
    ∧ (∀ (author : List String) (title : String) (year : Int)
          (school thesis_type : String) (doi url note app : Option String)
          (k : String) (e : Entry),
        mkThesis author title year school thesis_type doi url note
          (some k) app = .ok e → e.key = k)
    ∧ (∀ (author : List String) (title : String) (year : Int)
          (publisher version license doi url note app : Option String)
          (k : String) (e : Entry),
        mkSoftware author title year publisher version license doi url note
          (some k) app = .ok e → e.key = k)
    ∧ (∀ (author : List String) (title : String) (year : Int)
          (doi url note app : Option String) (k : String) (e : Entry),
        mkMisc author title year doi url note (some k) app = .ok e
          → e.key = k)
    ∧ (∃ e, fromBibtexChars emptyKeyInput = .ok e ∧ e.key = "") := by
  refine ⟨?_, ?_, ?_, ?_, ?_, ?_, ?_, ?_⟩
  · intro au ti ye j v p an nu d u n ap k e h
    by_cases hj : j = "" <;>
      by_cases hc : p = Option.none ∧ an = Option.none <;>
      by_cases ha : au = [] <;>
      simp [mkArticle, requireField, initBase, requireNonEmptyAuthors,
        hj, hc, ha, ebind_ok, ebind_err, epure] at h <;>
      simp [← h, Entry.key]
  · intro au ti ye pub ed edl d u n ap k e h
    by_cases hp : pub = "" <;> by_cases ha : au = [] <;>
      simp [mkBook, requireField, initBase, requireNonEmptyAuthors,
        hp, ha, ebind_ok, ebind_err, epure] at h <;>
      simp [← h, Entry.key]
  · intro au ti ye bt p pub edl d u n ap k e h
    by_cases hb : bt = "" <;> by_cases ha : au = [] <;>
      simp [mkInProceedings, requireField, initBase, requireNonEmptyAuthors,
        hb, ha, ebind_ok, ebind_err, epure] at h <;>
      simp [← h, Entry.key]
  · intro au ti ye inst nu d u n ap k e h
    by_cases hi : inst = "" <;> by_cases ha : au = [] <;>
      simp [mkTechReport, requireField, initBase, requireNonEmptyAuthors,
        hi, ha, ebind_ok, ebind_err, epure] at h <;>
      simp [← h, Entry.key]
  · intro au ti ye sch tt d u n ap k e h
    by_cases hs : sch = "" <;> by_cases ht : tt = "" <;>
      by_cases hpm : tt ≠ "phd" ∧ tt ≠ "masters" <;>
      by_cases ha : au = [] <;>
      simp [mkThesis, requireField, initBase, requireNonEmptyAuthors,
        hs, ht, hpm, ha, ebind_ok, ebind_err, epure] at h <;>
      simp [← h, Entry.key]
  · intro au ti ye pub ver lic d u n ap k e h
    by_cases ha : au = [] <;>
      simp [mkSoftware, initBase, requireNonEmptyAuthors,
        ha, ebind_ok, ebind_err, epure] at h <;>
      simp [← h, Entry.key]
  · intro au ti ye d u n ap k e h
    by_cases ha : au = [] <;>
      simp [mkMisc, initBase, requireNonEmptyAuthors,
        ha, ebind_ok, ebind_err, epure] at h <;>
      simp [← h, Entry.key]
  · have h1 : extractEntries emptyKeyInput
        = [("misc".data, [], emptyKeyBody)] := by decide
    refine ⟨emptyKeyEntry, ?_, rfl⟩
    unfold fromBibtexChars
    rw [h1]
    decide

/-- Witness for C10: the explicit-key conjunct at a concrete `Misc`. -/
theorem C10_explicit_key_witness : keyedMisc.key = "xyz" :=
  C10_explicit_key.2.2.2.2.2.2.1 ["A, B"] "T" 2024 Option.none Option.none
    Option.none Option.none "xyz" keyedMisc (by decide)

/-! ## Claim C4 -/

theorem tryEntryStart_none_of_ne {c : Char} (l : List Char) (h : c ≠ '@') :
    tryEntryStart (c :: l) = Option.none := by
  simp [tryEntryStart, h]

theorem matchCount_cons (c : Char) (l : List Char) :
    matchCount (c :: l)
      = (if (tryEntryStart (c :: l)).isSome then 1 else 0) + matchCount l := by
  simp [matchCount, List.countP_cons]
  omega

theorem matchCount_append_noAt (x t : List Char) (hx : ∀ c ∈ x, c ≠ '@') :
    matchCount (x ++ t) = matchCount t := by
  induction x with
  | nil => rfl
  | cons c xs ih =>
    rw [List.cons_append, matchCount_cons,
      tryEntryStart_none_of_ne _ (hx c (by simp))]
    simpa using ih (fun d hd => hx d (by simp [hd]))

theorem tryEntryStart_eq_some {l w tail : List Char}
    (h : tryEntryStart l = some (w, tail)) :
    ∃ sp, l = '@' :: (w ++ sp ++ obr :: tail)
      ∧ w ≠ [] ∧ (∀ c ∈ w, isWordChar c) ∧ ∀ c ∈ sp, isSpaceChar c := by
  cases l with
  | nil => simp [tryEntryStart] at h
  | cons c rest =>
    by_cases hc : c = '@'
    · subst hc
      simp only [tryEntryStart] at h
      by_cases hw : rest.takeWhile isWordChar = []
      · simp [hw] at h
      · rw [if_neg hw] at h
        cases hm : (rest.dropWhile isWordChar).dropWhile isSpaceChar with
        | nil => rw [hm] at h; simp at h
        | cons d tl =>
          rw [hm] at h
          by_cases hd : d = obr
          · subst hd
            simp at h
            obtain ⟨rfl, rfl⟩ : rest.takeWhile isWordChar = w ∧ tl = tail := h
            refine ⟨(rest.dropWhile isWordChar).takeWhile isSpaceChar,
              ?_, hw, ?_, ?_⟩
            · have h1 : rest = rest.takeWhile isWordChar
                  ++ rest.dropWhile isWordChar :=
                (List.takeWhile_append_dropWhile isWordChar rest).symm
              have h2 : rest.dropWhile isWordChar
                  = (rest.dropWhile isWordChar).takeWhile isSpaceChar
                    ++ (rest.dropWhile isWordChar).dropWhile isSpaceChar :=
                (List.takeWhile_append_dropWhile isSpaceChar
                  (rest.dropWhile isWordChar)).symm
              rw [hm] at h2
              simp only [List.cons.injEq, List.append_assoc]
              rw [← h2, ← h1]
              exact ⟨trivial, rfl⟩
            · exact fun c hc => List.mem_takeWhile_imp hc
            · exact fun c hc => List.mem_takeWhile_imp hc
          · simp [hd] at h
    · rw [tryEntryStart_none_of_ne _ hc] at h
      simp at h

theorem wordChar_ne_at {c : Char} (h : isWordChar c = true) : c ≠ '@' := by
  intro hc
  subst hc
  simp [isWordChar] at h

theorem spaceChar_ne_at {c : Char} (h : isSpaceChar c = true) : c ≠ '@' := by
  intro hc
  subst hc
  simp [isSpaceChar] at h

theorem matchCount_of_start {l w tail : List Char}
    (h : tryEntryStart l = some (w, tail)) :
    matchCount l = 1 + matchCount tail ∧ tail.length + 2 ≤ l.length := by
  obtain ⟨sp, rfl, hw, hwall, hsall⟩ := tryEntryStart_eq_some h
  constructor
  · have e1 : matchCount (w ++ (sp ++ obr :: tail)) = matchCount tail := by
      rw [matchCount_append_noAt w _ (fun c hc => wordChar_ne_at (hwall c hc))]
      rw [matchCount_append_noAt sp _ (fun c hc => spaceChar_ne_at (hsall c hc))]
      rw [matchCount_cons, tryEntryStart_none_of_ne _ (by decide)]
      simp
    rw [matchCount_cons, h]
    rw [List.append_assoc, e1]
    simp
  · have : w.length ≥ 1 := by
      cases w with
      | nil => exact absurd rfl hw
      | cons _ _ => simp
    simp [List.length_append]
    omega

theorem finditerES_length : ∀ (fuel : Nat) (l : List Char),
    l.length ≤ fuel → (finditerES fuel l).length = matchCount l := by
  intro fuel
  induction fuel with
  | zero =>
    intro l hl
    obtain rfl : l = [] := List.length_eq_zero.mp (Nat.le_zero.mp hl)
    rfl
  | succ f ih =>
    intro l hl
    cases l with
    | nil => rfl
    | cons c rest =>
      simp only [finditerES]
      cases h : tryEntryStart (c :: rest) with
      | none =>
        rw [matchCount_cons, h]
        simpa using ih rest (by simpa using Nat.le_of_succ_le_succ hl)
      | some m =>
        obtain ⟨w, tail⟩ := m
        obtain ⟨hmc, hlen⟩ := matchCount_of_start h
        have hfuel : tail.length ≤ f := by
          simp [List.length_cons] at hl hlen
          omega
        simp [hmc, ih tail hfuel]
        omega

theorem extractEntries_length (s : List Char) :
    (extractEntries s).length = matchCount s := by
  simp [extractEntries, finditerES_length s.length s le_rfl]

/-- The two single-record errors cannot come out of `parseOne`. -/
def softErr (e : CiteError) : Prop :=
  e ≠ .noEntryFound ∧ e ≠ .multipleEntriesFound

theorem bind_error_elim {α β : Type} {P : CiteError → Prop}
    {x : Except CiteError α} {f : α → Except CiteError β}
    (hx : ∀ e, x = .error e → P e) (hf : ∀ a e, f a = .error e → P e) :
    ∀ e, (x >>= f) = .error e → P e := by
  intro e h
  cases x with
  | error e2 =>
    rw [ebind_err] at h
    injection h with h2
    subst h2
    exact hx _ rfl
  | ok a =>
    rw [ebind_ok] at h
    exact hf a e h

theorem requireField_soft (v : String) :
    ∀ e, requireField v = .error e → softErr e := by
  intro e h
  by_cases hv : v = "" <;> simp [requireField, hv] at h
  subst h
  exact ⟨by decide, by decide⟩

theorem requireAuthors_soft (l : List String) :
    ∀ e, requireNonEmptyAuthors l = .error e → softErr e := by
  intro e h
  by_cases hv : l = [] <;> simp [requireNonEmptyAuthors, hv] at h
  subst h
  exact ⟨by decide, by decide⟩

theorem ok_soft {α : Type} (a : α) :
    ∀ e, (Except.ok a : Except CiteError α) = .error e → softErr e := by
  intro e h
  simp at h

theorem initBase_soft (author : List String) (title : String) (year : Int)
    (doi url note key app : Option String) :
    ∀ e, initBase author title year doi url note key app = .error e
      → softErr e := by
  unfold initBase
  exact bind_error_elim (requireAuthors_soft author) (fun a => ok_soft _)

theorem reqArg_soft {α : Type} (o : Option α) :
    ∀ e, reqArg o = .error e → softErr e := by
  intro e h
  cases o <;> simp [reqArg] at h
  subst h
  exact ⟨by decide, by decide⟩

theorem intFieldOpt_soft (fields : List (List Char × List Char))
    (k : List Char) : ∀ e, intFieldOpt fields k = .error e → softErr e := by
  intro e h
  unfold intFieldOpt at h
  cases h1 : pyDictGetL fields k with
  | none => simp [h1] at h
  | some v =>
    cases h2 : pyIntOfChars v with
    | none =>
      simp [h1, h2] at h
      subst h
      exact ⟨by decide, by decide⟩
    | some n => simp [h1, h2] at h

theorem extractValue_soft (raw : List Char) :
    ∀ e, extractValue raw = .error e → softErr e := by
  intro e h
  unfold extractValue at h
  by_cases h1 : (pyStrip raw).head? = some obr
  · rw [if_pos h1] at h
    cases hb : bracedInnerAux ((pyStrip raw).drop 1) 1 <;> rw [hb] at h <;>
      simp at h
  · rw [if_neg h1] at h
    by_cases h2 : (pyStrip raw).head? = some '"'
    · rw [if_pos h2] at h
      cases hq : findQuote ((pyStrip raw).drop 1) with
      | none =>
        rw [hq] at h
        injection h with h3
        subst h3
        exact ⟨by decide, by decide⟩
      | some v => rw [hq] at h; simp at h
    · rw [if_neg h2] at h
      simp at h

theorem parseFieldsAux_soft (l : List (List Char × List Char)) :
    ∀ e, parseFieldsAux l = .error e → softErr e := by
  induction l with
  | nil => intro e h; simp [parseFieldsAux] at h
  | cons p rest ih =>
    simp only [parseFieldsAux]
    exact bind_error_elim (extractValue_soft p.2)
      (fun v => bind_error_elim ih (fun tail => ok_soft _))

theorem parseFields_soft (body : List Char) :
    ∀ e, parseFields body = .error e → softErr e :=
  parseFieldsAux_soft _

theorem commonKwargsOf_soft (fields : List (List Char × List Char))
    (citeKey : List Char) :
    ∀ e, commonKwargsOf fields citeKey = .error e → softErr e := by
  unfold commonKwargsOf
  exact bind_error_elim (intFieldOpt_soft fields _) (fun y => ok_soft _)

theorem mkArticle_soft (author : List String) (title : String) (year : Int)
    (journal : String) (volume : Int) (pages article_number : Option String)
    (number : Option Int) (doi url note key app : Option String) :
    ∀ e, mkArticle author title year journal volume pages article_number
      number doi url note key app = .error e → softErr e := by
  unfold mkArticle
  refine bind_error_elim (requireField_soft journal) (fun u e h => ?_)
  by_cases hc : pages = Option.none ∧ article_number = Option.none
  · rw [if_pos hc] at h
    injection h with h2
    subst h2
    exact ⟨by decide, by decide⟩
  · rw [if_neg hc] at h
    exact bind_error_elim (initBase_soft _ _ _ _ _ _ _ _)
      (fun base => ok_soft _) e h

theorem mkBook_soft (author : List String) (title : String) (year : Int)
    (publisher : String) (edition : Option String)
    (editor : Option (List String)) (doi url note key app : Option String) :
    ∀ e, mkBook author title year publisher edition editor doi url note key
      app = .error e → softErr e := by
  unfold mkBook
  exact bind_error_elim (requireField_soft publisher)
    (fun u => bind_error_elim (initBase_soft _ _ _ _ _ _ _ _)
      (fun base => ok_soft _))

theorem mkInProceedings_soft (author : List String) (title : String)
    (year : Int) (booktitle : String) (pages publisher : Option String)
    (editor : Option (List String)) (doi url note key app : Option String) :
    ∀ e, mkInProceedings author title year booktitle pages publisher editor
      doi url note key app = .error e → softErr e := by
  unfold mkInProceedings
  exact bind_error_elim (requireField_soft booktitle)
    (fun u => bind_error_elim (initBase_soft _ _ _ _ _ _ _ _)
      (fun base => ok_soft _))

theorem mkTechReport_soft (author : List String) (title : String)
    (year : Int) (institution : String) (number : Option String)
    (doi url note key app : Option String) :
    ∀ e, mkTechReport author title year institution number doi url note key
      app = .error e → softErr e := by
  unfold mkTechReport
  exact bind_error_elim (requireField_soft institution)
    (fun u => bind_error_elim (initBase_soft _ _ _ _ _ _ _ _)
      (fun base => ok_soft _))

theorem mkThesis_soft (author : List String) (title : String) (year : Int)
    (school thesis_type : String) (doi url note key app : Option String) :
    ∀ e, mkThesis author title year school thesis_type doi url note key app
      = .error e → softErr e := by
  unfold mkThesis
  refine bind_error_elim (requireField_soft school)
    (fun u => bind_error_elim (requireField_soft thesis_type)
      (fun u2 e h => ?_))
  by_cases hc : thesis_type ≠ "phd" ∧ thesis_type ≠ "masters"
  · rw [if_pos hc] at h
    injection h with h2
    subst h2
    exact ⟨by decide, by decide⟩
  · rw [if_neg hc] at h
    exact bind_error_elim (initBase_soft _ _ _ _ _ _ _ _)
      (fun base => ok_soft _) e h

theorem mkSoftware_soft (author : List String) (title : String) (year : Int)
    (publisher version license doi url note key app : Option String) :
    ∀ e, mkSoftware author title year publisher version license doi url note
      key app = .error e → softErr e := by
  unfold mkSoftware
  exact bind_error_elim (initBase_soft _ _ _ _ _ _ _ _)
    (fun base => ok_soft _)

theorem mkMisc_soft (author : List String) (title : String) (year : Int)
    (doi url note key app : Option String) :
    ∀ e, mkMisc author title year doi url note key app = .error e
      → softErr e := by
  unfold mkMisc
  exact bind_error_elim (initBase_soft _ _ _ _ _ _ _ _)
    (fun base => ok_soft _)

theorem parseOne_soft (t k b : List Char) :
    ∀ e, parseOne t k b = .error e → softErr e := by
  intro e h
  unfold parseOne at h
  cases htm : typeMap (lowerL t) with
  | none =>
    rw [htm] at h
    injection h with h2
    subst h2
    exact ⟨by decide, by decide⟩
  | some cls =>
    rw [htm] at h
    refine bind_error_elim (parseFields_soft b)
      (fun fields => bind_error_elim (commonKwargsOf_soft fields k)
        (fun c => ?_)) e h
    cases cls
    · exact bind_error_elim (intFieldOpt_soft _ _)
        (fun volume => bind_error_elim (intFieldOpt_soft _ _)
          (fun number => bind_error_elim (reqArg_soft _)
            (fun author => bind_error_elim (reqArg_soft _)
              (fun title => bind_error_elim (reqArg_soft _)
                (fun year => bind_error_elim (reqArg_soft _)
                  (fun journal => bind_error_elim (reqArg_soft _)
                    (fun volumeV => mkArticle_soft _ _ _ _ _ _ _ _ _ _ _ _ _)))))))
    · exact bind_error_elim (reqArg_soft _)
        (fun author => bind_error_elim (reqArg_soft _)
          (fun title => bind_error_elim (reqArg_soft _)
            (fun year => bind_error_elim (reqArg_soft _)
              (fun publisher => mkBook_soft _ _ _ _ _ _ _ _ _ _ _))))
    · exact bind_error_elim (reqArg_soft _)
        (fun author => bind_error_elim (reqArg_soft _)
          (fun title => bind_error_elim (reqArg_soft _)
            (fun year => bind_error_elim (reqArg_soft _)
              (fun booktitle => mkInProceedings_soft _ _ _ _ _ _ _ _ _ _ _ _))))
    · exact bind_error_elim (reqArg_soft _)
        (fun author => bind_error_elim (reqArg_soft _)
          (fun title => bind_error_elim (reqArg_soft _)
            (fun year => bind_error_elim (reqArg_soft _)
              (fun institution => mkTechReport_soft _ _ _ _ _ _ _ _ _ _))))
    · exact bind_error_elim (reqArg_soft _)
        (fun author => bind_error_elim (reqArg_soft _)
          (fun title => bind_error_elim (reqArg_soft _)
            (fun year => bind_error_elim (reqArg_soft _)
              (fun school => mkThesis_soft _ _ _ _ _ _ _ _ _ _))))
    · exact bind_error_elim (reqArg_soft _)
        (fun author => bind_error_elim (reqArg_soft _)
          (fun title => bind_error_elim (reqArg_soft _)
            (fun year => bind_error_elim (reqArg_soft _)
              (fun school => mkThesis_soft _ _ _ _ _ _ _ _ _ _))))
    · exact bind_error_elim (reqArg_soft _)
        (fun author => bind_error_elim (reqArg_soft _)
          (fun title => bind_error_elim (reqArg_soft _)
            (fun year => mkSoftware_soft _ _ _ _ _ _ _ _ _ _ _)))
    · exact bind_error_elim (reqArg_soft _)
        (fun author => bind_error_elim (reqArg_soft _)
          (fun title => bind_error_elim (reqArg_soft _)
            (fun year => mkMisc_soft _ _ _ _ _ _ _ _)))

/-- Claim C4: `from_bibtex_string` raises the `NoEntryFound`-kind error
exactly when the text has no entry-start match, the
`MultipleEntriesFound`-kind error exactly when it has two or more, and
neither when it has exactly one. -/
theorem C4_entry_count_errors : ∀ s : List Char,
    (fromBibtexChars s = .error .noEntryFound ↔ matchCount s = 0)
    ∧ (fromBibtexChars s = .error .multipleEntriesFound ↔ 2 ≤ matchCount s)
    ∧ (matchCount s = 1 →
        fromBibtexChars s ≠ .error .noEntryFound
        ∧ fromBibtexChars s ≠ .error .multipleEntriesFound) := by
  intro s
  have hlen := extractEntries_length s
  unfold fromBibtexChars
  cases hx : extractEntries s with
  | nil =>
    rw [hx] at hlen
    simp at hlen
    simp [← hlen]
  | cons a rest =>
    cases rest with
    | nil =>
      obtain ⟨t, k, b⟩ := a
      rw [hx] at hlen
      simp at hlen
      have hsoft : ∀ e, parseOne t k b = .error e → softErr e :=
        parseOne_soft t k b
      refine ⟨⟨fun h => absurd rfl (hsoft _ h).1, fun h => by omega⟩,
        ⟨fun h => absurd rfl (hsoft _ h).2, fun h => by omega⟩, fun _ => ?_⟩
      exact ⟨fun h => absurd rfl (hsoft _ h).1,
        fun h => absurd rfl (hsoft _ h).2⟩
    | cons a2 rest2 =>
      rw [hx] at hlen
      simp at hlen
      refine ⟨⟨fun h => by simp at h, fun h => by omega⟩,
        ⟨fun _ => by omega, fun _ => rfl⟩, fun h1 => by omega⟩

/-- Witness for C4: a text with exactly one entry-start match raises
neither single-record error. -/
theorem C4_entry_count_errors_witness :
    fromBibtexChars monoInput ≠ .error .noEntryFound
      ∧ fromBibtexChars monoInput ≠ .error .multipleEntriesFound :=
  (C4_entry_count_errors monoInput).2.2 (by decide)

/-! ## Claim C6 -/

theorem normaliseAuthor_eq_spec : ∀ n, normaliseAuthor n = normaliseSpec n := by
  intro n
  unfold normaliseAuthor normaliseSpec
  by_cases hc : ',' ∈ pyStrip n
  · simp [hc]
  · by_cases hl : (pySplitWs (pyStrip n)).length ≤ 1
    · have h2 : ¬ 2 ≤ (pySplitWs (pyStrip n)).length := by omega
      simp [hc, hl, h2]
    · have h2 : 2 ≤ (pySplitWs (pyStrip n)).length := by omega
      simp [hc, hl, h2]

/-- Counterexample to claim C6 as stated: the reader strips surrounding
whitespace, so the single-token name ` Plato` is not kept verbatim —
neither at the author-splitting helper nor through a full record parse. -/
theorem C6_author_normalisation_counterexample :
    parseAuthors " Plato".data = ["Plato".data]
    ∧ ["Plato".data] ≠ [" Plato".data]
    ∧ fromBibtexChars monoInput = .ok monoEntry
    ∧ monoEntry.author = ["Plato"] := by
  refine ⟨by decide, by decide, ?_, by decide⟩
  have h1 : extractEntries monoInput
      = [("misc".data, "Plato.2024".data, monoBody)] := by decide
  unfold fromBibtexChars
  rw [h1]
  decide

/-- Claim C6 (amended): an author/editor value is split on `" and "` and
each name normalised after stripping surrounding whitespace — then a name
with a comma is unchanged, two or more tokens become `last, rest`, and a
single token is kept as stripped; the claim's two examples hold. -/
theorem C6_author_normalisation :
    (∀ raw : List Char,
      parseAuthors raw = (splitSep " and ".data raw).map normaliseSpec)
    ∧ parseAuthors "John Smith and Jane Doe".data
        = ["Smith, John".data, "Doe, Jane".data]
    ∧ parseAuthors "Plato and Jane Smith".data
        = ["Plato".data, "Smith, Jane".data] := by
  refine ⟨fun raw => ?_, by decide, by decide⟩
  rw [parseAuthors, funext normaliseAuthor_eq_spec]

/-! ## Constructor evaluation lemmas -/

theorem initBase_ok (author : List String) (title : String) (year : Int)
    (doi url note key app : Option String) (ha : author ≠ []) :
    initBase author title year doi url note key app
      = .ok { author, title, year, doi, url, note,
              key := (match key with
                      | some k => k
                      | none => generateKey author year),
              app } := by
  simp [initBase, requireNonEmptyAuthors, ha, ebind_ok, epure]

theorem mkArticle_ok_eq (author : List String) (title : String) (year : Int)
    (journal : String) (volume : Int) (pages article_number : Option String)
    (number : Option Int) (doi url note key app : Option String)
    (hj : journal ≠ "")
    (hpa : ¬(pages = Option.none ∧ article_number = Option.none))
    (ha : author ≠ []) :
    mkArticle author title year journal volume pages article_number number
        doi url note key app
      = .ok (.article
          { author, title, year, doi, url, note,
            key := (match key with
                    | some k => k
                    | none => generateKey author year),
            app, journal, volume, pages, article_number, number }) := by
  simp [mkArticle, requireField, hj, hpa, initBase_ok _ _ _ _ _ _ _ _ ha,
    ebind_ok, ebind_err, epure]

theorem mkBook_ok_eq (author : List String) (title : String) (year : Int)
    (publisher : String) (edition : Option String)
    (editor : Option (List String)) (doi url note key app : Option String)
    (hp : publisher ≠ "") (ha : author ≠ []) :
    mkBook author title year publisher edition editor doi url note key app
      = .ok (.book
          { author, title, year, doi, url, note,
            key := (match key with
                    | some k => k
                    | none => generateKey author year),
            app, publisher, edition, editor }) := by
  simp [mkBook, requireField, hp, initBase_ok _ _ _ _ _ _ _ _ ha,
    ebind_ok, ebind_err, epure]

theorem mkInProceedings_ok_eq (author : List String) (title : String)
    (year : Int) (booktitle : String) (pages publisher : Option String)
    (editor : Option (List String)) (doi url note key app : Option String)
    (hb : booktitle ≠ "") (ha : author ≠ []) :
    mkInProceedings author title year booktitle pages publisher editor doi
        url note key app
      = .ok (.inProceedings
          { author, title, year, doi, url, note,
            key := (match key with
                    | some k => k
                    | none => generateKey author year),
            app, booktitle, pages, publisher, editor }) := by
  simp [mkInProceedings, requireField, hb, initBase_ok _ _ _ _ _ _ _ _ ha,
    ebind_ok, ebind_err, epure]

theorem mkTechReport_ok_eq (author : List String) (title : String)
    (year : Int) (institution : String) (number : Option String)
    (doi url note key app : Option String)
    (hi : institution ≠ "") (ha : author ≠ []) :
    mkTechReport author title year institution number doi url note key app
      = .ok (.techReport
          { author, title, year, doi, url, note,
            key := (match key with
                    | some k => k
                    | none => generateKey author year),
            app, institution, number }) := by
  simp [mkTechReport, requireField, hi, initBase_ok _ _ _ _ _ _ _ _ ha,
    ebind_ok, ebind_err, epure]

theorem mkThesis_ok_eq (author : List String) (title : String) (year : Int)
    (school thesis_type : String) (doi url note key app : Option String)
    (hs : school ≠ "") (ht : thesis_type ≠ "")
    (hpm : ¬(thesis_type ≠ "phd" ∧ thesis_type ≠ "masters"))
    (ha : author ≠ []) :
    mkThesis author title year school thesis_type doi url note key app
      = .ok (.thesis
          { author, title, year, doi, url, note,
            key := (match key with
                    | some k => k
                    | none => generateKey author year),
            app, school, thesis_type }) := by
  simp [mkThesis, requireField, hs, ht, hpm,
    initBase_ok _ _ _ _ _ _ _ _ ha, ebind_ok, ebind_err, epure]

theorem mkSoftware_ok_eq (author : List String) (title : String)
    (year : Int) (publisher version license : Option String)
    (doi url note key app : Option String) (ha : author ≠ []) :
    mkSoftware author title year publisher version license doi url note
        key app
      = .ok (.software
          { author, title, year, doi, url, note,
            key := (match key with
                    | some k => k
                    | none => generateKey author year),
            app, publisher, version, license }) := by
  simp [mkSoftware, initBase_ok _ _ _ _ _ _ _ _ ha, ebind_ok, epure]

theorem mkMisc_ok_eq (author : List String) (title : String) (year : Int)
    (doi url note key app : Option String) (ha : author ≠ []) :
    mkMisc author title year doi url note key app
      = .ok (.misc
          { author, title, year, doi, url, note,
            key := (match key with
                    | some k => k
                    | none => generateKey author year),
            app }) := by
  simp [mkMisc, initBase_ok _ _ _ _ _ _ _ _ ha, ebind_ok, epure]

/-! ## Claim C5 -/

theorem intFieldOpt_err {fields : List (List Char × List Char)}
    {k v : List Char} (hget : pyDictGetL fields k = some v)
    (hint : pyIntOfChars v = Option.none) :
    intFieldOpt fields k = .error .numericParse := by
  simp [intFieldOpt, hget, hint]

theorem intFieldOpt_error {fields : List (List Char × List Char)}
    {k : List Char} {e : CiteError} (h : intFieldOpt fields k = .error e) :
    e = .numericParse := by
  unfold intFieldOpt at h
  cases h1 : pyDictGetL fields k with
  | none => simp [h1] at h
  | some v =>
    cases h2 : pyIntOfChars v with
    | none =>
      simp [h1, h2] at h
      exact h.symm
    | some n => simp [h1, h2] at h

theorem commonKwargsOf_error {fields : List (List Char × List Char)}
    {k : List Char} {e : CiteError}
    (h : commonKwargsOf fields k = .error e) : e = .numericParse := by
  unfold commonKwargsOf at h
  cases h1 : intFieldOpt fields "year".data with
  | error e2 =>
    rw [h1, ebind_err] at h
    injection h with h2
    subst h2
    exact intFieldOpt_error h1
  | ok y =>
    rw [h1, ebind_ok] at h
    simp [epure] at h

theorem commonKwargsOf_ok {fields : List (List Char × List Char)}
    {k : List Char} {c : CommonKwargs}
    (h : commonKwargsOf fields k = .ok c) :
    intFieldOpt fields "year".data = .ok c.year
      ∧ c = { key := String.mk k,
              author := authorsFieldOpt fields "author".data,
              title := strFieldOpt fields "title".data,
              year := c.year,
              doi := strFieldOpt fields "doi".data,
              url := strFieldOpt fields "url".data,
              note := strFieldOpt fields "note".data } := by
  unfold commonKwargsOf at h
  cases h1 : intFieldOpt fields "year".data with
  | error e2 => rw [h1, ebind_err] at h; simp at h
  | ok y =>
    rw [h1, ebind_ok] at h
    simp [epure] at h
    subst h
    exact ⟨rfl, rfl⟩

/-- Counterexample to claim C5 as stated: a `@techreport` whose `number`
field is the non-numeric `TR-42` does not fail with a numeric-parse error;
it parses, and the number lands on the entry as text. -/
theorem C5_numeric_fields_counterexample :
    extractEntries trInput = [("techreport".data, "Turing.1936".data, trBody)]
    ∧ parseFields trBody = .ok
        [("author".data, "Turing, Alan".data),
         ("title".data, "On Computable Numbers".data),
         ("institution".data, "Cambridge".data),
         ("year".data, "1936".data),
         ("number".data, "TR-42".data)]
    ∧ pyIntOfChars "TR-42".data = Option.none
    ∧ fromBibtexChars trInput = .ok trEntry
    ∧ trEntry = .techReport
        { author := ["Turing, Alan"], title := "On Computable Numbers",
          year := 1936, doi := Option.none, url := Option.none,
          note := Option.none, key := "Turing.1936", app := Option.none,
          institution := "Cambridge", number := some "TR-42" } := by
  refine ⟨by decide, by decide, by decide, ?_, by decide⟩
  have h1 : extractEntries trInput
      = [("techreport".data, "Turing.1936".data, trBody)] := by decide
  unfold fromBibtexChars
  rw [h1]
  decide

/-- Claim C5 (amended): `year` is integer-converted for every supported
variant and a non-numeric `year` fails with the numeric-parse error;
`volume` and `number` are integer-converted for `Article` only (failing
likewise); `TechReport`'s `number` is passed through as text. -/
theorem C5_numeric_fields :
    (∀ (s t k b : List Char) (fields : List (List Char × List Char))
        (v : List Char),
      extractEntries s = [(t, k, b)] → (typeMap (lowerL t)).isSome
      → parseFields b = .ok fields
      → pyDictGetL fields "year".data = some v
      → pyIntOfChars v = Option.none
      → fromBibtexChars s = .error .numericParse)
    ∧ (∀ (s t k b : List Char) (fields : List (List Char × List Char))
          (v : List Char),
        extractEntries s = [(t, k, b)] → lowerL t = "article".data
        → parseFields b = .ok fields
        → pyDictGetL fields "volume".data = some v
        → pyIntOfChars v = Option.none
        → fromBibtexChars s = .error .numericParse)
    ∧ (∀ (s t k b : List Char) (fields : List (List Char × List Char))
          (v : List Char),
        extractEntries s = [(t, k, b)] → lowerL t = "article".data
        → parseFields b = .ok fields
        → pyDictGetL fields "number".data = some v
        → pyIntOfChars v = Option.none
        → fromBibtexChars s = .error .numericParse)
    ∧ (∀ (s t k b : List Char) (fields : List (List Char × List Char))
          (e : Entry),
        extractEntries s = [(t, k, b)] → lowerL t = "article".data
        → parseFields b = .ok fields
        → fromBibtexChars s = .ok e
        → ∃ a, e = .article a
          ∧ (∀ v, pyDictGetL fields "year".data = some v
              → pyIntOfChars v = some a.year)
          ∧ (∀ v, pyDictGetL fields "volume".data = some v
              → pyIntOfChars v = some a.volume)
          ∧ (∀ v, pyDictGetL fields "number".data = some v
              → ∃ n, pyIntOfChars v = some n ∧ a.number = some n))
    ∧ (∀ (s t k b : List Char) (fields : List (List Char × List Char))
          (e : Entry),
        extractEntries s = [(t, k, b)] → lowerL t = "techreport".data
        → parseFields b = .ok fields
        → fromBibtexChars s = .ok e
        → ∃ a, e = .techReport a
          ∧ a.number = (pyDictGetL fields "number".data).map String.mk) := by
  refine ⟨?_, ?_, ?_, ?_, ?_⟩
  · intro s t k b fields v hx htm hpf hget hint
    obtain ⟨cls, hcls⟩ := Option.isSome_iff_exists.mp htm
    unfold fromBibtexChars
    rw [hx]
    simp only [parseOne, hcls, hpf, ebind_ok]
    rw [show commonKwargsOf fields k = .error .numericParse by
          unfold commonKwargsOf
          rw [intFieldOpt_err hget hint, ebind_err],
        ebind_err]
  · intro s t k b fields v hx hlt hpf hget hint
    have hcls : typeMap (lowerL t) = some .articleC := by
      rw [hlt]; decide
    unfold fromBibtexChars
    rw [hx]
    simp only [parseOne, hcls, hpf, ebind_ok]
    cases hck : commonKwargsOf fields k with
    | error e2 =>
      rw [ebind_err, commonKwargsOf_error hck]
    | ok c =>
      rw [ebind_ok]
      rw [intFieldOpt_err hget hint, ebind_err]
  · intro s t k b fields v hx hlt hpf hget hint
    have hcls : typeMap (lowerL t) = some .articleC := by
      rw [hlt]; decide
    unfold fromBibtexChars
    rw [hx]
    simp only [parseOne, hcls, hpf, ebind_ok]
    cases hck : commonKwargsOf fields k with
    | error e2 =>
      rw [ebind_err, commonKwargsOf_error hck]
    | ok c =>
      rw [ebind_ok]
      cases hvol : intFieldOpt fields "volume".data with
      | error e2 =>
        rw [ebind_err, intFieldOpt_error hvol]
      | ok vol =>
        rw [ebind_ok, intFieldOpt_err hget hint, ebind_err]
  · intro s t k b fields e hx hlt hpf hok
    have hcls : typeMap (lowerL t) = some .articleC := by
      rw [hlt]; decide
    unfold fromBibtexChars at hok
    rw [hx] at hok
    simp only [parseOne, hcls, hpf, ebind_ok] at hok
    cases hck : commonKwargsOf fields k with
    | error e2 => rw [hck, ebind_err] at hok; simp at hok
    | ok c =>
      rw [hck, ebind_ok] at hok
      cases hvol : intFieldOpt fields "volume".data with
      | error e2 => rw [hvol, ebind_err] at hok; simp at hok
      | ok vol =>
        rw [hvol, ebind_ok] at hok
        cases hnum : intFieldOpt fields "number".data with
        | error e2 => rw [hnum, ebind_err] at hok; simp at hok
        | ok num =>
          rw [hnum, ebind_ok] at hok
          cases hau : c.author with
          | none => rw [hau] at hok; simp [reqArg, ebind_err] at hok
          | some au =>
            rw [hau] at hok
            simp only [reqArg, ebind_ok] at hok
            cases hti : c.title with
            | none => rw [hti] at hok; simp [reqArg, ebind_err] at hok
            | some ti =>
              rw [hti] at hok
              simp only [reqArg, ebind_ok] at hok
              cases hye : c.year with
              | none => rw [hye] at hok; simp [reqArg, ebind_err] at hok
              | some ye =>
                rw [hye] at hok
                simp only [reqArg, ebind_ok] at hok
                cases hjo : strFieldOpt fields "journal".data with
                | none => rw [hjo] at hok; simp [reqArg, ebind_err] at hok
                | some jo =>
                  rw [hjo] at hok
                  simp only [reqArg, ebind_ok] at hok
                  cases hvv : vol with
                  | none => rw [hvv] at hok; simp [reqArg, ebind_err] at hok
                  | some vv =>
                    rw [hvv] at hok
                    simp only [reqArg, ebind_ok] at hok
                    have hpre := (mkArticle_cases au ti ye jo vv
                      (strFieldOpt fields "pages".data)
                      (strFieldOpt fields "article_number".data) num
                      c.doi c.url c.note (some c.key) Option.none).1.mp
                      ⟨e, hok⟩
                    obtain ⟨h1, h2, h3⟩ := hpre
                    rw [mkArticle_ok_eq au ti ye jo vv _ _ num c.doi c.url
                      c.note (some c.key) Option.none h1
                      (by rcases h2 with h | h <;> intro hc <;>
                        [exact h hc.1; exact h hc.2]) h3] at hok
                    injection hok with hok2
                    refine ⟨_, hok2.symm, ?_, ?_, ?_⟩
                    · intro v hv
                      have hYf := (commonKwargsOf_ok hck).1
                      rw [hye] at hYf
                      unfold intFieldOpt at hYf
                      rw [hv] at hYf
                      cases h2i : pyIntOfChars v with
                      | none => simp [h2i] at hYf
                      | some n =>
                        simp [h2i] at hYf
                        subst hYf
                        rfl
                    · intro v hv
                      rw [hvv] at hvol
                      unfold intFieldOpt at hvol
                      rw [hv] at hvol
                      cases h2i : pyIntOfChars v with
                      | none => simp [h2i] at hvol
                      | some n =>
                        simp [h2i] at hvol
                        subst hvol
                        rfl
                    · intro v hv
                      unfold intFieldOpt at hnum
                      rw [hv] at hnum
                      cases h2i : pyIntOfChars v with
                      | none => simp [h2i] at hnum
                      | some n =>
                        simp [h2i] at hnum
                        first
                        | exact ⟨n, rfl, hnum⟩
                        | exact ⟨n, rfl, hnum.symm⟩
  · intro s t k b fields e hx hlt hpf hok
    have hcls : typeMap (lowerL t) = some .techReportC := by
      rw [hlt]; decide
    unfold fromBibtexChars at hok
    rw [hx] at hok
    simp only [parseOne, hcls, hpf, ebind_ok] at hok
    cases hck : commonKwargsOf fields k with
    | error e2 => rw [hck, ebind_err] at hok; simp at hok
    | ok c =>
      rw [hck, ebind_ok] at hok
      cases hau : c.author with
      | none => rw [hau] at hok; simp [reqArg, ebind_err] at hok
      | some au =>
        rw [hau] at hok
        simp only [reqArg, ebind_ok] at hok
        cases hti : c.title with
        | none => rw [hti] at hok; simp [reqArg, ebind_err] at hok
        | some ti =>
          rw [hti] at hok
          simp only [reqArg, ebind_ok] at hok
          cases hye : c.year with
          | none => rw [hye] at hok; simp [reqArg, ebind_err] at hok
          | some ye =>
            rw [hye] at hok
            simp only [reqArg, ebind_ok] at hok
            cases hin : strFieldOpt fields "institution".data with
            | none => rw [hin] at hok; simp [reqArg, ebind_err] at hok
            | some inst =>
              rw [hin] at hok
              simp only [reqArg, ebind_ok] at hok
              have hpre := (mkTechReport_cases au ti ye inst
                (strFieldOpt fields "number".data)
                c.doi c.url c.note (some c.key) Option.none).1.mp ⟨e, hok⟩
              rw [mkTechReport_ok_eq au ti ye inst _ c.doi c.url c.note
                (some c.key) Option.none hpre.1 hpre.2] at hok
              injection hok with hok2
              exact ⟨_, hok2.symm, rfl⟩

/-- Witness for C5: the year-conversion error conjunct at a concrete
record whose `year` is not numeric. -/
theorem C5_numeric_fields_witness :
    fromBibtexChars badYearInput = .error .numericParse :=
  C5_numeric_fields.1 badYearInput "misc".data "k".data badYearBody
    [("author".data, "A, B".data), ("title".data, "T".data),
     ("year".data, "MMXXIV".data)]
    "MMXXIV".data (by decide) (by decide) (by decide) (by decide) (by decide)

/-! ## Integer rendering and reading lemmas -/

theorem digitVal_digitChar {n : Nat} (h : n < 10) :
    digitVal (digitChar n) = some n := by
  interval_cases n <;> decide

theorem digitChar_toNat {n : Nat} (h : n < 10) :
    (digitChar n).toNat - 48 = n := by
  interval_cases n <;> decide

theorem digitChar_facts (n : Nat) :
    digitChar n ≠ '-' ∧ digitChar n ≠ '+' ∧ digitChar n ≠ '_'
      ∧ isSpaceChar (digitChar n) = false ∧ safeChar (digitChar n) = true := by
  unfold digitChar
  split <;> decide

theorem digitsValAcc_append (acc : Nat) (xs ys : List Char) :
    digitsValAcc acc (xs ++ ys) = digitsValAcc (digitsValAcc acc xs) ys := by
  simp [digitsValAcc, List.foldl_append]

theorem natDecimalAux_spec : ∀ (fuel n : Nat), n < fuel →
    natDecimalAux fuel n ≠ []
    ∧ (∀ c ∈ natDecimalAux fuel n, ∃ d, d < 10 ∧ c = digitChar d)
    ∧ ∀ acc, digitsValAcc acc (natDecimalAux fuel n)
        = acc * 10 ^ (natDecimalAux fuel n).length + n := by
  intro fuel
  induction fuel with
  | zero => intro n h; omega
  | succ f ih =>
    intro n h
    by_cases h10 : n < 10
    · refine ⟨by simp [natDecimalAux, h10], ?_, ?_⟩
      · intro c hc
        simp [natDecimalAux, h10] at hc
        exact ⟨n, h10, hc⟩
      · intro acc
        simp [natDecimalAux, h10, digitsValAcc, digitChar_toNat h10]
    · have hlt : n / 10 < f := by omega
      obtain ⟨hne, hmem, hval⟩ := ih (n / 10) hlt
      have hmod : n % 10 < 10 := Nat.mod_lt _ (by norm_num)
      refine ⟨by simp [natDecimalAux, h10], ?_, ?_⟩
      · intro c hc
        simp only [natDecimalAux, if_neg h10, List.mem_append,
          List.mem_singleton] at hc
        rcases hc with hc | hc
        · exact hmem c hc
        · exact ⟨n % 10, hmod, hc⟩
      · intro acc
        simp only [natDecimalAux, if_neg h10]
        rw [digitsValAcc_append, hval acc]
        simp only [digitsValAcc, List.foldl_cons, List.foldl_nil,
          List.length_append, List.length_singleton]
        rw [digitChar_toNat hmod, pow_succ, ← mul_assoc]
        set Q := acc * 10 ^ (natDecimalAux f (n / 10)).length with hQ
        omega

theorem pyDigitsAux_digits : ∀ (l : List Char) (acc : Nat),
    (∀ c ∈ l, ∃ d, d < 10 ∧ c = digitChar d) →
    pyDigitsAux acc l = some (digitsValAcc acc l) := by
  intro l
  induction l with
  | nil => intro acc _; rfl
  | cons c rest ih =>
    intro acc h
    obtain ⟨d, hd, rfl⟩ := h c (by simp)
    rw [pyDigitsAux.eq_def]
    dsimp only
    rw [if_neg (digitChar_facts d).2.2.1, digitVal_digitChar hd]
    dsimp only
    rw [ih _ (fun c2 hc2 => h c2 (by simp [hc2]))]
    simp [digitsValAcc, digitChar_toNat hd]

theorem pyDigits_natDecimal (n : Nat) : pyDigits (natDecimal n) = some n := by
  obtain ⟨hne, hmem, hval⟩ := natDecimalAux_spec (n + 1) n (by omega)
  unfold natDecimal
  cases hL : natDecimalAux (n + 1) n with
  | nil => exact absurd hL hne
  | cons c rest =>
    obtain ⟨d, hd, hc⟩ := hmem c (by rw [hL]; simp)
    subst hc
    have hrest : ∀ c2 ∈ rest, ∃ d2, d2 < 10 ∧ c2 = digitChar d2 := by
      intro c2 hc2
      exact hmem c2 (by rw [hL]; simp [hc2])
    simp only [pyDigits]
    rw [digitVal_digitChar hd]
    simp only []
    rw [pyDigitsAux_digits rest _ hrest]
    have := hval 0
    rw [hL] at this
    simp only [digitsValAcc, List.foldl_cons, digitChar_toNat hd,
      Nat.zero_mul, Nat.zero_add] at this
    simp only [digitsValAcc] at this ⊢
    rw [this]

theorem natDecimal_no_space (n : Nat) :
    ∀ c ∈ natDecimal n, isSpaceChar c = false := by
  intro c hc
  obtain ⟨d, _, rfl⟩ :=
    (natDecimalAux_spec (n + 1) n (by omega)).2.1 c hc
  exact (digitChar_facts d).2.2.2.1

theorem dropWhile_eq_self_of_none {p : Char → Bool} {l : List Char}
    (h : ∀ c ∈ l, p c = false) : l.dropWhile p = l := by
  cases l with
  | nil => rfl
  | cons c rest => simp [List.dropWhile_cons, h c (by simp)]

theorem pyStrip_of_no_space {l : List Char}
    (h : ∀ c ∈ l, isSpaceChar c = false) : pyStrip l = l := by
  unfold pyStrip
  rw [dropWhile_eq_self_of_none h,
    dropWhile_eq_self_of_none (fun c hc => h c (List.mem_reverse.mp hc)),
    List.reverse_reverse]

theorem intDecimal_no_space (i : Int) :
    ∀ c ∈ intDecimal i, isSpaceChar c = false := by
  intro c hc
  unfold intDecimal at hc
  by_cases hi : i < 0
  · rw [if_pos hi] at hc
    rcases List.mem_cons.mp hc with rfl | hc2
    · decide
    · exact natDecimal_no_space _ c hc2
  · rw [if_neg hi] at hc
    exact natDecimal_no_space _ c hc

theorem pyIntOfChars_intDecimal (i : Int) :
    pyIntOfChars (intDecimal i) = some i := by
  unfold pyIntOfChars
  rw [pyStrip_of_no_space (intDecimal_no_space i)]
  unfold intDecimal
  by_cases hi : i < 0
  · rw [if_pos hi]
    show (pyDigits (natDecimal i.natAbs)).map (fun n => -(n : Int)) = some i
    rw [pyDigits_natDecimal]
    have h2 : -(i.natAbs : Int) = i := by omega
    conv_rhs => rw [← h2]
    rfl
  · rw [if_neg hi]
    have hhead : ∀ c ∈ natDecimal i.toNat, ∃ d, d < 10 ∧ c = digitChar d :=
      (natDecimalAux_spec (i.toNat + 1) i.toNat (by omega)).2.1
    split
    · rename_i tail heq
      obtain ⟨d, _, hcontra⟩ := hhead '-' (by rw [heq]; simp)
      exact absurd hcontra.symm (digitChar_facts d).1
    · rename_i tail heq
      obtain ⟨d, _, hcontra⟩ := hhead '+' (by rw [heq]; simp)
      exact absurd hcontra.symm (digitChar_facts d).2.1
    · rw [pyDigits_natDecimal]
      have h2 : ((i.toNat : Int)) = i := by omega
      conv_rhs => rw [← h2]
      rfl

/-! ## C2 groundwork: scanning utilities -/

theorem dropWhile_append_all {p : Char → Bool} :
    ∀ (x y : List Char), (∀ c ∈ x, p c = true) →
    (x ++ y).dropWhile p = y.dropWhile p := by
  intro x
  induction x with
  | nil => intro y _; rfl
  | cons c rest ih =>
    intro y h
    simp only [List.cons_append, List.dropWhile_cons, h c (by simp)]
    exact ih y (fun a ha => h a (by simp [ha]))

theorem takeWhile_append_stop {p : Char → Bool} :
    ∀ (x : List Char) (c : Char) (y : List Char),
    (∀ a ∈ x, p a = true) → p c = false →
    (x ++ c :: y).takeWhile p = x := by
  intro x
  induction x with
  | nil => intro c y _ hc; simp [List.takeWhile_cons, hc]
  | cons a rest ih =>
    intro c y h hc
    simp only [List.cons_append, List.takeWhile_cons, h a (by simp)]
    simp [ih c y (fun b hb => h b (by simp [hb])) hc]

theorem dropWhile_append_stop {p : Char → Bool} :
    ∀ (x : List Char) (c : Char) (y : List Char),
    (∀ a ∈ x, p a = true) → p c = false →
    (x ++ c :: y).dropWhile p = c :: y := by
  intro x
  induction x with
  | nil => intro c y _ hc; simp [List.dropWhile_cons, hc]
  | cons a rest ih =>
    intro c y h hc
    simp only [List.cons_append, List.dropWhile_cons, h a (by simp)]
    simp [ih c y (fun b hb => h b (by simp [hb])) hc]

theorem word_not_space {c : Char} (h : isWordChar c = true) :
    isSpaceChar c = false := by
  cases hs : isSpaceChar c
  · rfl
  · exfalso
    have hs2 := hs
    simp [isSpaceChar] at hs2
    rcases hs2 with ((((rfl | rfl) | rfl) | rfl) | rfl) | rfl <;>
      exact absurd h (by decide)

theorem word_not_brace {c : Char} (h : isWordChar c = true) :
    c ≠ obr ∧ c ≠ cbr := by
  constructor <;> rintro rfl <;> exact absurd h (by decide)

/-! ## Goodness facts from the safety predicates -/

theorem safeChar_spec {c : Char} (h : safeChar c = true) :
    c ≠ obr ∧ c ≠ cbr ∧ c ≠ '\n' ∧ c ≠ '@' := by
  simp [safeChar] at h
  obtain ⟨⟨⟨h1, h2⟩, h3⟩, h4⟩ := h
  exact ⟨h1, h2, h4, h3⟩

theorem goodVal_of_safe {s : String} (h : safeStr s = true) :
    goodVal s.data := by
  intro c hc
  simp [safeStr, List.all_eq_true] at h
  exact safeChar_spec (h c hc)

theorem intDecimal_safe (i : Int) : ∀ c ∈ intDecimal i, safeChar c = true := by
  intro c hc
  unfold intDecimal at hc
  by_cases hi : i < 0
  · rw [if_pos hi] at hc
    rcases List.mem_cons.mp hc with rfl | hc2
    · decide
    · simp only [natDecimal] at hc2
      obtain ⟨d, _, rfl⟩ := (natDecimalAux_spec _ _ (by omega)).2.1 c hc2
      exact (digitChar_facts d).2.2.2.2
  · rw [if_neg hi] at hc
    simp only [natDecimal] at hc
    obtain ⟨d, _, rfl⟩ := (natDecimalAux_spec _ _ (by omega)).2.1 c hc
    exact (digitChar_facts d).2.2.2.2

theorem goodVal_intDecimal (i : Int) : goodVal (intDecimal i) :=
  fun c hc => safeChar_spec (intDecimal_safe i c hc)

theorem joinSep_cons₂ (sep x y : List Char) (ys : List (List Char)) :
    joinSep sep (x :: y :: ys) = x ++ sep ++ joinSep sep (y :: ys) := rfl

theorem joinSep_goodVal {sep : List Char} (hsep : goodVal sep) :
    ∀ (xs : List (List Char)), (∀ x ∈ xs, goodVal x) →
    goodVal (joinSep sep xs) := by
  intro xs
  induction xs with
  | nil => intro _ c hc; simp [joinSep] at hc
  | cons x xs ih =>
    intro h c hc
    cases xs with
    | nil => exact h x (by simp) c (by simpa [joinSep] using hc)
    | cons y ys =>
      rw [joinSep_cons₂] at hc
      simp only [List.mem_append] at hc
      rcases hc with (hc | hc) | hc
      · exact h x (by simp) c hc
      · exact hsep c hc
      · exact ih (fun z hz => h z (by simp [hz])) c hc

theorem safeAuthorList_strs {l : List String} (h : safeAuthorList l = true) :
    ∀ s ∈ l, safeStr s = true ∧ normaliseAuthor s.data = s.data := by
  intro s hs
  simp [safeAuthorList, List.all_eq_true] at h
  exact h.1 s hs

theorem safeAuthorList_split {l : List String} (h : safeAuthorList l = true) :
    splitSep " and ".data (joinSep " and ".data (l.map String.data))
      = l.map String.data := by
  simp [safeAuthorList] at h
  exact h.2

theorem authorStr_goodVal {l : List String}
    (h : ∀ s ∈ l, safeStr s = true) : goodVal (authorStr l) := by
  unfold authorStr
  refine joinSep_goodVal (by unfold goodVal; decide) _ ?_
  intro x hx
  obtain ⟨s, hs, rfl⟩ := List.mem_map.mp hx
  exact goodVal_of_safe (h s hs)

theorem parseAuthors_safe {l : List String} (h : safeAuthorList l = true) :
    (parseAuthors (authorStr l)).map String.mk = l := by
  unfold parseAuthors authorStr
  rw [safeAuthorList_split h, List.map_map, List.map_map]
  have hcong : ∀ s ∈ l, ((String.mk ∘ normaliseAuthor) ∘ String.data) s = id s := by
    intro s hs
    simp [Function.comp, (safeAuthorList_strs h s hs).2, stringMk_data]
  rw [List.map_congr_left hcong, List.map_id]

theorem safeKey_spec {k : String} (h : safeKey k = true) :
    (∀ c ∈ k.data, c ≠ obr ∧ c ≠ cbr ∧ c ≠ '\n' ∧ c ≠ '@' ∧ c ≠ ',')
      ∧ pyStrip k.data = k.data := by
  simp [safeKey, List.all_eq_true] at h
  refine ⟨?_, h.2⟩
  intro c hc
  obtain ⟨h1, h2⟩ := h.1 c hc
  obtain ⟨a, b, d, e⟩ := safeChar_spec h1
  exact ⟨a, b, d, e, h2⟩

/-! ## Lines of the rendered body -/

theorem mem_lineOf {c : Char} {p : List Char × List Char}
    (hc : c ∈ lineOf p) :
    c = ' ' ∨ c ∈ p.1 ∨ c = '=' ∨ c = obr ∨ c ∈ p.2 ∨ c = cbr ∨ c = ','
      ∨ c = '\n' := by
  have e1 : ("  ".data : List Char) = [' ', ' '] := rfl
  have e2 : ("= ".data : List Char) = ['=', ' '] := rfl
  simp only [lineOf, formatBibtexField, pyLJust, e1, e2, List.append_assoc,
    List.cons_append, List.mem_append, List.mem_cons, List.mem_singleton,
    List.mem_replicate, List.not_mem_nil, or_false, false_or] at hc
  tauto

theorem lineOf_noAt {p : List Char × List Char} (hp : goodPair p) :
    ∀ c ∈ lineOf p, c ≠ '@' := by
  intro c hc
  rcases mem_lineOf hc with rfl | hc | rfl | rfl | hc | rfl | rfl | rfl
  · decide
  · exact wordChar_ne_at (hp.1.2 c hc)
  · decide
  · decide
  · exact (hp.2 c hc).2.2.2
  · decide
  · decide
  · decide

theorem catLines_noAt {ps : List (List Char × List Char)}
    (hps : goodPairs ps) : ∀ c ∈ catLines ps, c ≠ '@' := by
  induction ps with
  | nil => intro c hc; simp [catLines] at hc
  | cons p ps ih =>
    intro c hc
    rw [catLines] at hc
    rcases List.mem_append.mp hc with hc | hc
    · exact lineOf_noAt (hps p (by simp)) c hc
    · exact ih (fun q hq => hps q (by simp [hq])) c hc

theorem catLines_length (ps : List (List Char × List Char)) :
    ps.length ≤ (catLines ps).length := by
  induction ps with
  | nil => simp [catLines]
  | cons p ps ih =>
    simp only [catLines, lineOf, List.length_append, List.length_cons,
      List.length_singleton]
    omega

/-! ## Shape of the rendered entry -/

theorem joinNL_cons₂ (l m : List Char) (ls : List (List Char)) :
    joinNL (l :: m :: ls) = l ++ '\n' :: joinNL (m :: ls) := rfl

theorem append_singleton_cons {α : Type} (l : List α) (x : α) :
    ∃ m rest, l ++ [x] = m :: rest := by
  cases l with
  | nil => exact ⟨x, [], rfl⟩
  | cons a t => exact ⟨a, t ++ [x], rfl⟩

theorem joinNL_lines : ∀ ps : List (List Char × List Char),
    joinNL ((ps.map fun p => formatBibtexField p.1 p.2) ++ [[cbr]])
      = catLines ps ++ [cbr] := by
  intro ps
  induction ps with
  | nil => rfl
  | cons p ps ih =>
    rw [List.map_cons, List.cons_append]
    obtain ⟨m, rest, hps⟩ :=
      append_singleton_cons (ps.map fun q => formatBibtexField q.1 q.2) [cbr]
    rw [hps, joinNL_cons₂, ← hps, ih]
    simp [catLines, lineOf]

theorem renderEntry_shape (e : Entry) :
    renderEntry e
      = '@' :: (e.bibType
          ++ obr :: (e.key.data
          ++ ',' :: (('\n' :: catLines e.fieldList) ++ [cbr]))) := by
  unfold renderEntry
  rw [List.cons_append]
  obtain ⟨m, rest, hls⟩ :=
    append_singleton_cons (e.fieldList.map fun p => formatBibtexField p.1 p.2)
      [cbr]
  rw [hls, joinNL_cons₂, ← hls, joinNL_lines]
  simp

/-! ## Brace scanning over the rendered body -/

theorem braceScan_noBrace :
    ∀ (x rest : List Char) (d : Nat),
    (∀ c ∈ x, c ≠ obr ∧ c ≠ cbr) → d ≠ 0 →
    braceScan (x ++ rest) d = x ++ braceScan rest d := by
  intro x
  induction x with
  | nil => intro rest d _ _; rfl
  | cons c t ih =>
    intro rest d h hd
    obtain ⟨h1, h2⟩ := h c (by simp)
    simp only [List.cons_append, braceScan, List.append_eq]
    rw [if_neg h1, if_neg h2, if_neg hd,
      ih rest d (fun a ha => h a (by simp [ha])) hd]

theorem braceScan_obr (rest : List Char) (d : Nat) :
    braceScan (obr :: rest) d = obr :: braceScan rest (d + 1) := by
  simp [braceScan, obr, cbr]

theorem braceScan_cbr_deep (rest : List Char) (d : Nat) (h : 1 < d) :
    braceScan (cbr :: rest) d = cbr :: braceScan rest (d - 1) := by
  have h2 : d - 1 ≠ 0 := by omega
  have h3 : ¬(1 < d ∧ d = 1) := by omega
  simp [braceScan, obr, cbr, h2]

theorem braceScan_close (rest : List Char) :
    braceScan (cbr :: rest) 1 = [cbr] := by
  simp [braceScan, obr, cbr]

theorem braceScan_line (p : List Char × List Char) (rest : List Char)
    (hp : goodPair p) :
    braceScan (lineOf p ++ rest) 1 = lineOf p ++ braceScan rest 1 := by
  obtain ⟨⟨hn1, hn2⟩, hv⟩ := hp
  have hsh : ∀ r : List Char, lineOf p ++ r
      = (' ' :: ' ' :: (p.1 ++ (List.replicate (10 - p.1.length) ' '
          ++ ['=', ' '])))
        ++ (obr :: (p.2 ++ (cbr :: (',' :: ('\n' :: r))))) := by
    intro r
    simp [lineOf, formatBibtexField, pyLJust]
  have hpre : ∀ c ∈ (' ' :: ' ' :: (p.1 ++ (List.replicate (10 - p.1.length) ' '
      ++ ['=', ' ']))), c ≠ obr ∧ c ≠ cbr := by
    intro c hc
    rcases List.mem_cons.mp hc with rfl | hc
    · decide
    rcases List.mem_cons.mp hc with rfl | hc
    · decide
    rcases List.mem_append.mp hc with hc | hc
    · exact word_not_brace (hn2 c hc)
    rcases List.mem_append.mp hc with hc | hc
    · rw [List.eq_of_mem_replicate hc]; decide
    rcases List.mem_cons.mp hc with rfl | hc
    · decide
    rcases List.mem_cons.mp hc with rfl | hc
    · decide
    · simp at hc
  have hval : ∀ c ∈ p.2, c ≠ obr ∧ c ≠ cbr :=
    fun c hc => ⟨(hv c hc).1, (hv c hc).2.1⟩
  have htwo : ∀ r : List Char,
      braceScan (',' :: '\n' :: r) 1 = ',' :: '\n' :: braceScan r 1 := by
    intro r
    simp [braceScan, obr, cbr]
  rw [hsh rest, braceScan_noBrace _ _ 1 hpre (by omega), braceScan_obr,
    braceScan_noBrace _ _ 2 hval (by omega), braceScan_cbr_deep _ 2 (by omega)]
  rw [show (2 : Nat) - 1 = 1 from rfl, htwo, hsh (braceScan rest 1)]

theorem braceScan_catLines :
    ∀ ps : List (List Char × List Char), goodPairs ps →
    braceScan (catLines ps ++ [cbr]) 1 = catLines ps ++ [cbr] := by
  intro ps
  induction ps with
  | nil =>
    intro _
    simp only [catLines, List.nil_append]
    exact braceScan_close []
  | cons p ps ih =>
    intro h
    rw [catLines, List.append_assoc, braceScan_line p _ (h p (by simp)),
      ih (fun q hq => h q (by simp [hq]))]

/-! ## Entry extraction on the rendered text -/

theorem finditerES_nil_noAt :
    ∀ (fuel : Nat) (l : List Char), (∀ c ∈ l, c ≠ '@') →
    finditerES fuel l = [] := by
  intro fuel
  induction fuel with
  | zero => intro l _; cases l <;> rfl
  | succ f ih =>
    intro l h
    cases l with
    | nil => rfl
    | cons c rest =>
      simp only [finditerES, tryEntryStart_none_of_ne rest (h c (by simp))]
      exact ih rest (fun a ha => h a (by simp [ha]))

theorem tryEntryStart_render (bt rest : List Char)
    (h1 : bt ≠ []) (h2 : ∀ c ∈ bt, isWordChar c = true) :
    tryEntryStart ('@' :: (bt ++ obr :: rest)) = some (bt, rest) := by
  have hstep : tryEntryStart ('@' :: (bt ++ obr :: rest))
      = (let w := (bt ++ obr :: rest).takeWhile isWordChar
         if w = [] then Option.none
         else
           match ((bt ++ obr :: rest).dropWhile isWordChar).dropWhile
               isSpaceChar with
           | c :: tail => if c = obr then some (w, tail) else Option.none
           | [] => Option.none) := rfl
  rw [hstep]
  simp only [takeWhile_append_stop bt obr rest h2 (by decide),
    dropWhile_append_stop bt obr rest h2 (by decide)]
  rw [if_neg h1]
  have hsp : isSpaceChar obr = false := by decide
  simp [List.dropWhile_cons, hsp]

theorem extractEntries_entry (bt key fb : List Char)
    (hbt1 : bt ≠ []) (hbt2 : ∀ c ∈ bt, isWordChar c = true)
    (hkey : ∀ c ∈ key, c ≠ obr ∧ c ≠ cbr ∧ c ≠ '@' ∧ c ≠ ',')
    (hkstrip : pyStrip key = key)
    (hfbAt : ∀ c ∈ fb, c ≠ '@')
    (hscan : braceScan (fb ++ [cbr]) 1 = fb ++ [cbr]) :
    extractEntries ('@' :: (bt ++ obr :: (key ++ ',' :: (fb ++ [cbr]))))
      = [(bt, key, fb)] := by
  set rest := key ++ ',' :: (fb ++ [cbr]) with hrest
  have hne : ∀ c ∈ rest, c ≠ '@' := by
    intro c hc
    rw [hrest] at hc
    rcases List.mem_append.mp hc with hc | hc
    · exact (hkey c hc).2.2.1
    rcases List.mem_cons.mp hc with rfl | hc
    · decide
    rcases List.mem_append.mp hc with hc | hc
    · exact hfbAt c hc
    · rw [List.mem_singleton.mp hc]; decide
  have hfind : finditerES ('@' :: (bt ++ obr :: rest)).length
      ('@' :: (bt ++ obr :: rest)) = [(bt, rest)] := by
    rw [show ('@' :: (bt ++ obr :: rest)).length
        = (bt ++ obr :: rest).length + 1 from rfl]
    simp only [finditerES, tryEntryStart_render bt rest hbt1 hbt2]
    rw [finditerES_nil_noAt _ rest hne]
  have hb : braceScan rest 1 = rest := by
    rw [hrest, braceScan_noBrace key _ 1
      (fun c hc => ⟨(hkey c hc).1, (hkey c hc).2.1⟩) (by omega)]
    have hcomma : braceScan (',' :: (fb ++ [cbr])) 1
        = ',' :: braceScan (fb ++ [cbr]) 1 := by
      simp [braceScan, obr, cbr]
    rw [hcomma, hscan]
  have hdrop : rest.dropLast = key ++ ',' :: fb := by
    rw [hrest, show key ++ ',' :: (fb ++ [cbr]) = (key ++ ',' :: fb) ++ [cbr]
      by simp]
    rw [List.dropLast_concat]
  have hsplit : splitKeyFields (key ++ ',' :: fb) = (key, fb) := by
    unfold splitKeyFields
    rw [if_pos (by simp)]
    rw [takeWhile_append_stop key ',' fb
        (fun a ha => decide_eq_true (hkey a ha).2.2.2) (by decide),
      dropWhile_append_stop key ',' fb
        (fun a ha => decide_eq_true (hkey a ha).2.2.2) (by decide),
      hkstrip]
    simp
  unfold extractEntries
  rw [hfind]
  simp only [List.map_cons, List.map_nil]
  rw [hb, hdrop, hsplit]

/-! ## Field tokenization on the rendered body -/

theorem takeWhile_append_not {p : Char → Bool} :
    ∀ (x y : List Char), (∀ a ∈ x, p a = true) →
    (∀ c, y.head? = some c → p c = false) →
    (x ++ y).takeWhile p = x ∧ (x ++ y).dropWhile p = y := by
  intro x
  induction x with
  | nil =>
    intro y _ hy
    cases y with
    | nil => simp
    | cons c t =>
      have hc := hy c rfl
      simp [List.takeWhile_cons, List.dropWhile_cons, hc]
  | cons a t ih =>
    intro y h hy
    obtain ⟨ht, hd⟩ := ih y (fun b hb => h b (by simp [hb])) hy
    simp [List.takeWhile_cons, List.dropWhile_cons, h a (by simp), ht, hd]

theorem tryFieldStart_shape (sp n pad rest : List Char)
    (hsp : ∀ c ∈ sp, isSpaceChar c = true)
    (hn1 : n ≠ []) (hn2 : ∀ c ∈ n, isWordChar c = true)
    (hpad : ∀ c ∈ pad, c = ' ') :
    tryFieldStart (sp ++ (n ++ (pad ++ ('=' :: ' ' :: obr :: rest))))
      = some (n, obr :: rest, false) := by
  have hhead : ∀ c, (pad ++ ('=' :: ' ' :: obr :: rest)).head? = some c →
      isWordChar c = false := by
    cases pad with
    | nil =>
      intro c hc
      simp at hc
      rw [← hc]
      decide
    | cons q qs =>
      intro c hc
      simp at hc
      rw [← hc, hpad q (by simp)]
      decide
  obtain ⟨c0, n2, rfl⟩ : ∃ c0 n2, n = c0 :: n2 := by
    cases n with
    | nil => exact absurd rfl hn1
    | cons a b => exact ⟨a, b, rfl⟩
  have hnsp : isSpaceChar c0 = false := word_not_space (hn2 c0 (by simp))
  have hr1 : (sp ++ ((c0 :: n2) ++ (pad ++ ('=' :: ' ' :: obr
      :: rest)))).dropWhile isSpaceChar
      = (c0 :: n2) ++ (pad ++ ('=' :: ' ' :: obr :: rest)) := by
    rw [dropWhile_append_all sp _ hsp]
    rw [show ((c0 :: n2) ++ (pad ++ ('=' :: ' ' :: obr :: rest)))
        = c0 :: (n2 ++ (pad ++ ('=' :: ' ' :: obr :: rest))) from rfl]
    rw [List.dropWhile_cons, if_neg (by simp [hnsp])]
  obtain ⟨htk, hdr⟩ := takeWhile_append_not (c0 :: n2)
    (pad ++ ('=' :: ' ' :: obr :: rest)) hn2 hhead
  have hpadsp : ∀ a ∈ pad, isSpaceChar a = true := by
    intro a ha
    rw [hpad a ha]
    decide
  have hds : (pad ++ ('=' :: ' ' :: obr :: rest)).dropWhile isSpaceChar
      = '=' :: ' ' :: obr :: rest :=
    dropWhile_append_stop pad '=' (' ' :: obr :: rest) hpadsp (by decide)
  unfold tryFieldStart
  dsimp only
  rw [hr1, htk, hdr, hds, if_neg hn1]
  have hsp2 : isSpaceChar obr = false := by decide
  have hsp3 : isSpaceChar ' ' = true := by decide
  simp [List.takeWhile_cons, List.dropWhile_cons, hsp2, hsp3]

theorem seekField_noNL :
    ∀ (x rest : List Char), (∀ c ∈ x, c ≠ '\n') →
    seekField (x ++ '\n' :: rest) false
      = (x ++ '\n' :: (seekField rest true).1, (seekField rest true).2) := by
  intro x
  induction x with
  | nil =>
    intro rest _
    have hd : (decide ('\n' = '\n')) = true := rfl
    cases hsm : seekField rest true with
    | mk sk m => simp [seekField, hd, hsm]
  | cons c t ih =>
    intro rest h
    have hc : c ≠ '\n' := h c (by simp)
    have hd : (decide (c = '\n')) = false := by simp [hc]
    rw [List.cons_append]
    simp only [seekField, hd, ih rest (fun a ha => h a (by simp [ha]))]
    simp

theorem seekField_lines :
    ∀ ps : List (List Char × List Char), goodPairs ps →
    seekField (catLines ps) true
      = ([], match ps with
             | [] => Option.none
             | (n, v) :: ps2 =>
               some (n, obr :: (v ++ cbr :: ',' :: '\n' :: catLines ps2),
                 false)) := by
  intro ps hps
  cases ps with
  | nil => rfl
  | cons p ps2 =>
    obtain ⟨n, v⟩ := p
    have hgood := hps (n, v) (by simp)
    have hsh : catLines ((n, v) :: ps2)
        = ' ' :: ' ' :: (n ++ (List.replicate (10 - n.length) ' '
            ++ ('=' :: ' ' :: obr :: (v ++ cbr :: ',' :: '\n'
              :: catLines ps2)))) := by
      simp [catLines, lineOf, formatBibtexField, pyLJust, List.append_assoc]
    have hty : tryFieldStart (' ' :: ' ' :: (n
        ++ (List.replicate (10 - n.length) ' '
          ++ ('=' :: ' ' :: obr :: (v ++ cbr :: ',' :: '\n'
            :: catLines ps2)))))
        = some (n, obr :: (v ++ cbr :: ',' :: '\n' :: catLines ps2),
            false) := by
      have h2 := tryFieldStart_shape [' ', ' '] n
        (List.replicate (10 - n.length) ' ')
        (v ++ cbr :: ',' :: '\n' :: catLines ps2) (by decide)
        hgood.1.1 hgood.1.2 (fun c hc => List.eq_of_mem_replicate hc)
      simpa using h2
    rw [hsh]
    simp [seekField, hty]

theorem fieldPairsF_stream :
    ∀ (ps : List (List Char × List Char)) (fuel : Nat) (n v : List Char),
    ps.length ≤ fuel → (∀ c ∈ v, c ≠ '\n') → goodPairs ps →
    fieldPairsF fuel n (obr :: (v ++ cbr :: ',' :: '\n' :: catLines ps)) false
      = (n, obr :: (v ++ [cbr, ',', '\n']))
        :: ps.map (fun p => (p.1, obr :: (p.2 ++ [cbr, ',', '\n']))) := by
  intro ps
  induction ps with
  | nil =>
    intro fuel n v _ hv _
    have hx : ∀ c ∈ obr :: (v ++ [cbr, ',']), c ≠ '\n' := by
      intro c hc
      rcases List.mem_cons.mp hc with rfl | hc
      · decide
      rcases List.mem_append.mp hc with hc | hc
      · exact hv c hc
      · rcases List.mem_cons.mp hc with rfl | hc
        · decide
        rcases List.mem_cons.mp hc with rfl | hc
        · decide
        · simp at hc
    have h1 : seekField (obr :: (v ++ cbr :: ',' :: '\n' :: catLines []))
        false = (obr :: (v ++ [cbr, ',', '\n']), Option.none) := by
      rw [show obr :: (v ++ cbr :: ',' :: '\n' :: catLines [])
          = (obr :: (v ++ [cbr, ','])) ++ '\n' :: [] by simp [catLines]]
      rw [seekField_noNL _ _ hx,
        show seekField [] true = ([], Option.none) from rfl]
      simp
    cases fuel with
    | zero => simp [fieldPairsF, h1]
    | succ f => simp [fieldPairsF, h1]
  | cons p ps2 ih =>
    intro fuel n v hf hv hps
    obtain ⟨n2, v2⟩ := p
    have hx : ∀ c ∈ obr :: (v ++ [cbr, ',']), c ≠ '\n' := by
      intro c hc
      rcases List.mem_cons.mp hc with rfl | hc
      · decide
      rcases List.mem_append.mp hc with hc | hc
      · exact hv c hc
      · rcases List.mem_cons.mp hc with rfl | hc
        · decide
        rcases List.mem_cons.mp hc with rfl | hc
        · decide
        · simp at hc
    have h1 : seekField (obr :: (v ++ cbr :: ',' :: '\n'
        :: catLines ((n2, v2) :: ps2))) false
        = (obr :: (v ++ [cbr, ',', '\n']),
           some (n2, obr :: (v2 ++ cbr :: ',' :: '\n' :: catLines ps2),
             false)) := by
      rw [show obr :: (v ++ cbr :: ',' :: '\n' :: catLines ((n2, v2) :: ps2))
          = (obr :: (v ++ [cbr, ','])) ++ '\n' :: catLines ((n2, v2) :: ps2)
          by simp]
      rw [seekField_noNL _ _ hx, seekField_lines ((n2, v2) :: ps2) hps]
      simp
    cases fuel with
    | zero => simp at hf
    | succ f =>
      have hgood2 := hps (n2, v2) (by simp)
      simp only [fieldPairsF, h1]
      rw [ih f n2 v2 (by simp at hf; omega)
        (fun c hc => (hgood2.2 c hc).2.2.1)
        (fun q hq => hps q (by simp [hq]))]
      simp

/-! ## Value decoding of rendered spans -/

theorem bracedInnerAux_noBrace :
    ∀ (v rest : List Char), (∀ c ∈ v, c ≠ obr ∧ c ≠ cbr) →
    bracedInnerAux (v ++ cbr :: rest) 1 = some v := by
  intro v
  induction v with
  | nil =>
    intro rest _
    simp [bracedInnerAux, obr, cbr]
  | cons c t ih =>
    intro rest h
    obtain ⟨h1, h2⟩ := h c (by simp)
    simp only [List.cons_append, bracedInnerAux, List.append_eq]
    rw [if_neg h1, if_neg h2, ih rest (fun a ha => h a (by simp [ha]))]
    rfl

theorem extractValue_span (v : List Char)
    (hv : ∀ c ∈ v, c ≠ obr ∧ c ≠ cbr) :
    extractValue (obr :: (v ++ [cbr, ',', '\n'])) = .ok v := by
  have hstrip : pyStrip (obr :: (v ++ [cbr, ',', '\n']))
      = obr :: (v ++ [cbr, ',']) := by
    unfold pyStrip
    rw [List.dropWhile_cons, if_neg (by decide)]
    rw [show (obr :: (v ++ [cbr, ',', '\n'])).reverse
        = '\n' :: ',' :: cbr :: (v.reverse ++ [obr]) by simp]
    rw [List.dropWhile_cons, if_pos (by decide),
      List.dropWhile_cons, if_neg (by decide)]
    simp
  unfold extractValue
  rw [hstrip]
  simp only [List.head?_cons]
  simp only [if_true]
  simp only [List.drop_succ_cons, List.drop_zero]
  rw [show v ++ [cbr, ','] = v ++ cbr :: [','] from rfl,
    bracedInnerAux_noBrace v [','] hv]

theorem parseFieldsAux_spans :
    ∀ ps : List (List Char × List Char),
    (∀ p ∈ ps, ∀ c ∈ p.2, c ≠ obr ∧ c ≠ cbr) →
    parseFieldsAux (ps.map (fun p => (p.1, obr :: (p.2 ++ [cbr, ',', '\n']))))
      = .ok (ps.map (fun p => (lowerL p.1, p.2))) := by
  intro ps
  induction ps with
  | nil => intro _; rfl
  | cons p ps ih =>
    intro h
    simp only [List.map_cons, parseFieldsAux]
    rw [extractValue_span p.2 (h p (by simp)), ebind_ok,
      ih (fun q hq => h q (by simp [hq])), ebind_ok]

theorem parseFieldPairs_lines (p0 : List Char × List Char)
    (ps : List (List Char × List Char)) (hps : goodPairs (p0 :: ps)) :
    parseFieldPairs ('\n' :: catLines (p0 :: ps))
      = (p0 :: ps).map (fun p => (p.1, obr :: (p.2 ++ [cbr, ',', '\n']))) := by
  obtain ⟨n, v⟩ := p0
  have hgood := hps (n, v) (by simp)
  have hsh : catLines ((n, v) :: ps)
      = ' ' :: ' ' :: (n ++ (List.replicate (10 - n.length) ' '
          ++ ('=' :: ' ' :: obr :: (v ++ cbr :: ',' :: '\n'
            :: catLines ps)))) := by
    simp [catLines, lineOf, formatBibtexField, pyLJust, List.append_assoc]
  have hty : tryFieldStart ('\n' :: ' ' :: ' ' :: (n
      ++ (List.replicate (10 - n.length) ' '
        ++ ('=' :: ' ' :: obr :: (v ++ cbr :: ',' :: '\n' :: catLines ps)))))
      = some (n, obr :: (v ++ cbr :: ',' :: '\n' :: catLines ps),
          false) := by
    have h2 := tryFieldStart_shape ['\n', ' ', ' '] n
      (List.replicate (10 - n.length) ' ')
      (v ++ cbr :: ',' :: '\n' :: catLines ps) (by decide)
      hgood.1.1 hgood.1.2 (fun c hc => List.eq_of_mem_replicate hc)
    simpa using h2
  have hsf : seekField ('\n' :: ' ' :: ' ' :: (n
      ++ (List.replicate (10 - n.length) ' '
        ++ ('=' :: ' ' :: obr :: (v ++ cbr :: ',' :: '\n' :: catLines ps)))))
      true
      = ([], some (n, obr :: (v ++ cbr :: ',' :: '\n' :: catLines ps),
          false)) := by
    simp [seekField, hty]
  unfold parseFieldPairs
  rw [hsh, hsf]
  dsimp only
  have hlen : ps.length ≤ ('\n' :: ' ' :: ' ' :: (n
      ++ (List.replicate (10 - n.length) ' '
        ++ ('=' :: ' ' :: obr :: (v ++ cbr :: ',' :: '\n'
          :: catLines ps))))).length := by
    have h3 := catLines_length ps
    simp [List.length_append]
    omega
  rw [fieldPairsF_stream ps _ n v hlen (fun c hc => (hgood.2 c hc).2.2.1)
    (fun q hq => hps q (by simp [hq]))]
  simp

theorem parseFields_lines (ps : List (List Char × List Char))
    (hps : goodPairs ps) (hne : ps ≠ []) :
    parseFields ('\n' :: catLines ps)
      = .ok (ps.map (fun p => (lowerL p.1, p.2))) := by
  cases ps with
  | nil => exact absurd rfl hne
  | cons p0 ps2 =>
    unfold parseFields
    rw [parseFieldPairs_lines p0 ps2 hps,
      parseFieldsAux_spans _ (fun q hq c hc =>
        ⟨((hps q hq).2 c hc).1, ((hps q hq).2 c hc).2.1⟩)]

/-! ## Lookup helpers on the parsed field dictionary -/

theorem reqArg_some {α : Type} (x : α) : reqArg (some x) = .ok x := rfl

theorem map_data_mk (o : Option String) :
    (o.map String.data).map String.mk = o := by
  cases o <;> simp [stringMk_data]

theorem intFieldOpt_of_map {flds : List (List Char × List Char)}
    {k : List Char} {o : Option Int}
    (h : pyDictGetL flds k = o.map intDecimal) :
    intFieldOpt flds k = .ok o := by
  cases o with
  | none => simp [intFieldOpt, h]
  | some n => simp [intFieldOpt, h, pyIntOfChars_intDecimal]

theorem strFieldOpt_of_map {flds : List (List Char × List Char)}
    {k : List Char} {o : Option String}
    (h : pyDictGetL flds k = o.map String.data) :
    strFieldOpt flds k = o := by
  unfold strFieldOpt
  rw [h, map_data_mk]

theorem strFieldOpt_of_some {flds : List (List Char × List Char)}
    {k : List Char} {s : String}
    (h : pyDictGetL flds k = some s.data) :
    strFieldOpt flds k = some s := by
  unfold strFieldOpt
  rw [h]
  simp [stringMk_data]

theorem authorsFieldOpt_of_some {flds : List (List Char × List Char)}
    {k : List Char} {l : List String}
    (hg : pyDictGetL flds k = some (authorStr l))
    (hs : safeAuthorList l = true) :
    authorsFieldOpt flds k = some l := by
  simp [authorsFieldOpt, hg]
  exact parseAuthors_safe hs

theorem authorsFieldOpt_of_map {flds : List (List Char × List Char)}
    {k : List Char} {o : Option (List String)}
    (hg : pyDictGetL flds k = o.map authorStr)
    (hs : safeOptAuthorList o = true) :
    authorsFieldOpt flds k = o := by
  cases o with
  | none => simp [authorsFieldOpt, hg]
  | some ed =>
    simp [authorsFieldOpt, hg]
    exact parseAuthors_safe hs

/-! ## Goodness of the rendered field lists -/

theorem goodPairs_nil : goodPairs ([] : List (List Char × List Char)) := by
  intro p hp
  simp at hp

theorem goodPairs_cons {p : List Char × List Char}
    {ps : List (List Char × List Char)}
    (h1 : goodPair p) (h2 : goodPairs ps) : goodPairs (p :: ps) := by
  intro q hq
  rcases List.mem_cons.mp hq with rfl | hq
  · exact h1
  · exact h2 q hq

theorem goodPairs_append {xs ys : List (List Char × List Char)}
    (h1 : goodPairs xs) (h2 : goodPairs ys) : goodPairs (xs ++ ys) := by
  intro q hq
  rcases List.mem_append.mp hq with hq | hq
  · exact h1 q hq
  · exact h2 q hq

theorem goodPairs_optPair (n : List Char) {v : Option String}
    (h1 : goodName n) (h2 : safeOptStr v = true) :
    goodPairs (optPair n v) := by
  cases v with
  | none => exact goodPairs_nil
  | some s => exact goodPairs_cons ⟨h1, goodVal_of_safe h2⟩ goodPairs_nil

theorem goodPairs_intSeg (n : List Char) {v : Option Int} (h1 : goodName n) :
    goodPairs (match v with
      | some i => [(n, intDecimal i)]
      | Option.none => []) := by
  cases v with
  | none => exact goodPairs_nil
  | some i => exact goodPairs_cons ⟨h1, goodVal_intDecimal i⟩ goodPairs_nil

theorem goodPairs_edSeg (n : List Char) (v : Option (List String))
    (h1 : goodName n) :
    safeOptAuthorList v = true →
    goodPairs (match v with
      | some ed => [(n, authorStr ed)]
      | Option.none => []) := by
  intro h2
  cases v with
  | none => exact goodPairs_nil
  | some ed =>
    exact goodPairs_cons
      ⟨h1, authorStr_goodVal (fun s hs => (safeAuthorList_strs h2 s hs).1)⟩
      goodPairs_nil

theorem goodPairs_common {doi url note : Option String}
    (h1 : safeOptStr doi = true) (h2 : safeOptStr url = true)
    (h3 : safeOptStr note = true) :
    goodPairs (commonPairs doi url note) := by
  unfold commonPairs
  exact goodPairs_append
    (goodPairs_append (goodPairs_optPair "doi".data (by decide) h1)
      (goodPairs_optPair "url".data (by decide) h2))
    (goodPairs_optPair "note".data (by decide) h3)

theorem goodPairs_article (a : ArticleData)
    (hau : safeAuthorList a.author = true) (hti : safeStr a.title = true)
    (hjo : safeStr a.journal = true) (hpg : safeOptStr a.pages = true)
    (han : safeOptStr a.article_number = true)
    (hdoi : safeOptStr a.doi = true) (hurl : safeOptStr a.url = true)
    (hnote : safeOptStr a.note = true) :
    goodPairs (articleFieldList a) := by
  unfold articleFieldList
  refine goodPairs_append (goodPairs_append (goodPairs_append
    (goodPairs_append ?_ (goodPairs_intSeg "number".data (by decide)))
    (goodPairs_optPair "pages".data (by decide) hpg))
    (goodPairs_optPair "article_number".data (by decide) han))
    (goodPairs_common hdoi hurl hnote)
  exact goodPairs_cons
    ⟨(by decide : goodName "author".data),
      authorStr_goodVal (fun s hs => (safeAuthorList_strs hau s hs).1)⟩
    (goodPairs_cons ⟨(by decide : goodName "title".data), goodVal_of_safe hti⟩
      (goodPairs_cons ⟨(by decide : goodName "journal".data), goodVal_of_safe hjo⟩
        (goodPairs_cons ⟨(by decide : goodName "year".data),
            goodVal_intDecimal _⟩
          (goodPairs_cons ⟨(by decide : goodName "volume".data),
              goodVal_intDecimal _⟩
            goodPairs_nil))))

theorem goodPairs_book (a : BookData)
    (hau : safeAuthorList a.author = true) (hti : safeStr a.title = true)
    (hpu : safeStr a.publisher = true) (hed : safeOptStr a.edition = true)
    (hedr : safeOptAuthorList a.editor = true)
    (hdoi : safeOptStr a.doi = true) (hurl : safeOptStr a.url = true)
    (hnote : safeOptStr a.note = true) :
    goodPairs (bookFieldList a) := by
  unfold bookFieldList
  refine goodPairs_append (goodPairs_append (goodPairs_append ?_
    (goodPairs_optPair "edition".data (by decide) hed))
    (goodPairs_edSeg "editor".data a.editor (by decide) hedr))
    (goodPairs_common hdoi hurl hnote)
  exact goodPairs_cons
    ⟨(by decide : goodName "author".data),
      authorStr_goodVal (fun s hs => (safeAuthorList_strs hau s hs).1)⟩
    (goodPairs_cons ⟨(by decide : goodName "title".data), goodVal_of_safe hti⟩
      (goodPairs_cons ⟨(by decide : goodName "publisher".data), goodVal_of_safe hpu⟩
        (goodPairs_cons ⟨(by decide : goodName "year".data),
            goodVal_intDecimal _⟩
          goodPairs_nil)))

theorem goodPairs_inProceedings (a : InProceedingsData)
    (hau : safeAuthorList a.author = true) (hti : safeStr a.title = true)
    (hbo : safeStr a.booktitle = true) (hpg : safeOptStr a.pages = true)
    (hpu : safeOptStr a.publisher = true)
    (hedr : safeOptAuthorList a.editor = true)
    (hdoi : safeOptStr a.doi = true) (hurl : safeOptStr a.url = true)
    (hnote : safeOptStr a.note = true) :
    goodPairs (inProceedingsFieldList a) := by
  unfold inProceedingsFieldList
  refine goodPairs_append (goodPairs_append (goodPairs_append
    (goodPairs_append ?_ (goodPairs_optPair "pages".data (by decide) hpg))
    (goodPairs_optPair "publisher".data (by decide) hpu))
    (goodPairs_edSeg "editor".data a.editor (by decide) hedr))
    (goodPairs_common hdoi hurl hnote)
  exact goodPairs_cons
    ⟨(by decide : goodName "author".data),
      authorStr_goodVal (fun s hs => (safeAuthorList_strs hau s hs).1)⟩
    (goodPairs_cons ⟨(by decide : goodName "title".data), goodVal_of_safe hti⟩
      (goodPairs_cons ⟨(by decide : goodName "booktitle".data), goodVal_of_safe hbo⟩
        (goodPairs_cons ⟨(by decide : goodName "year".data),
            goodVal_intDecimal _⟩
          goodPairs_nil)))

theorem goodPairs_techReport (a : TechReportData)
    (hau : safeAuthorList a.author = true) (hti : safeStr a.title = true)
    (hin : safeStr a.institution = true) (hnu : safeOptStr a.number = true)
    (hdoi : safeOptStr a.doi = true) (hurl : safeOptStr a.url = true)
    (hnote : safeOptStr a.note = true) :
    goodPairs (techReportFieldList a) := by
  unfold techReportFieldList
  refine goodPairs_append (goodPairs_append ?_
    (goodPairs_optPair "number".data (by decide) hnu))
    (goodPairs_common hdoi hurl hnote)
  exact goodPairs_cons
    ⟨(by decide : goodName "author".data),
      authorStr_goodVal (fun s hs => (safeAuthorList_strs hau s hs).1)⟩
    (goodPairs_cons ⟨(by decide : goodName "title".data), goodVal_of_safe hti⟩
      (goodPairs_cons ⟨(by decide : goodName "institution".data), goodVal_of_safe hin⟩
        (goodPairs_cons ⟨(by decide : goodName "year".data),
            goodVal_intDecimal _⟩
          goodPairs_nil)))

theorem goodPairs_thesis (a : ThesisData)
    (hau : safeAuthorList a.author = true) (hti : safeStr a.title = true)
    (hsc : safeStr a.school = true)
    (hdoi : safeOptStr a.doi = true) (hurl : safeOptStr a.url = true)
    (hnote : safeOptStr a.note = true) :
    goodPairs (thesisFieldList a) := by
  unfold thesisFieldList
  refine goodPairs_append ?_ (goodPairs_common hdoi hurl hnote)
  exact goodPairs_cons
    ⟨(by decide : goodName "author".data),
      authorStr_goodVal (fun s hs => (safeAuthorList_strs hau s hs).1)⟩
    (goodPairs_cons ⟨(by decide : goodName "title".data), goodVal_of_safe hti⟩
      (goodPairs_cons ⟨(by decide : goodName "school".data), goodVal_of_safe hsc⟩
        (goodPairs_cons ⟨(by decide : goodName "year".data),
            goodVal_intDecimal _⟩
          goodPairs_nil)))

theorem goodPairs_software (a : SoftwareData)
    (hau : safeAuthorList a.author = true) (hti : safeStr a.title = true)
    (hpu : safeOptStr a.publisher = true) (hve : safeOptStr a.version = true)
    (hli : safeOptStr a.license = true)
    (hdoi : safeOptStr a.doi = true) (hurl : safeOptStr a.url = true)
    (hnote : safeOptStr a.note = true) :
    goodPairs (softwareFieldList a) := by
  unfold softwareFieldList
  refine goodPairs_append (goodPairs_append (goodPairs_append
    (goodPairs_append ?_ (goodPairs_optPair "publisher".data (by decide) hpu))
    (goodPairs_optPair "version".data (by decide) hve))
    (goodPairs_optPair "license".data (by decide) hli))
    (goodPairs_common hdoi hurl hnote)
  exact goodPairs_cons
    ⟨(by decide : goodName "author".data),
      authorStr_goodVal (fun s hs => (safeAuthorList_strs hau s hs).1)⟩
    (goodPairs_cons ⟨(by decide : goodName "title".data), goodVal_of_safe hti⟩
      (goodPairs_cons ⟨(by decide : goodName "year".data),
          goodVal_intDecimal _⟩
        goodPairs_nil))

theorem goodPairs_misc (a : MiscData)
    (hau : safeAuthorList a.author = true) (hti : safeStr a.title = true)
    (hdoi : safeOptStr a.doi = true) (hurl : safeOptStr a.url = true)
    (hnote : safeOptStr a.note = true) :
    goodPairs (miscFieldList a) := by
  unfold miscFieldList
  refine goodPairs_append ?_ (goodPairs_common hdoi hurl hnote)
  exact goodPairs_cons
    ⟨(by decide : goodName "author".data),
      authorStr_goodVal (fun s hs => (safeAuthorList_strs hau s hs).1)⟩
    (goodPairs_cons ⟨(by decide : goodName "title".data), goodVal_of_safe hti⟩
      (goodPairs_cons ⟨(by decide : goodName "year".data),
          goodVal_intDecimal _⟩
        goodPairs_nil))

/-! ## Field lookups on the parsed dictionaries of rendered entries -/

set_option maxHeartbeats 3200000 in
theorem getL_article (a : ArticleData) :
    pyDictGetL ((articleFieldList a).map (fun p => (lowerL p.1, p.2)))
        "author".data = some (authorStr a.author)
    ∧ pyDictGetL ((articleFieldList a).map (fun p => (lowerL p.1, p.2)))
        "title".data = some a.title.data
    ∧ pyDictGetL ((articleFieldList a).map (fun p => (lowerL p.1, p.2)))
        "journal".data = some a.journal.data
    ∧ pyDictGetL ((articleFieldList a).map (fun p => (lowerL p.1, p.2)))
        "year".data = some (intDecimal a.year)
    ∧ pyDictGetL ((articleFieldList a).map (fun p => (lowerL p.1, p.2)))
        "volume".data = some (intDecimal a.volume)
    ∧ pyDictGetL ((articleFieldList a).map (fun p => (lowerL p.1, p.2)))
        "number".data = a.number.map intDecimal
    ∧ pyDictGetL ((articleFieldList a).map (fun p => (lowerL p.1, p.2)))
        "pages".data = a.pages.map String.data
    ∧ pyDictGetL ((articleFieldList a).map (fun p => (lowerL p.1, p.2)))
        "article_number".data = a.article_number.map String.data
    ∧ pyDictGetL ((articleFieldList a).map (fun p => (lowerL p.1, p.2)))
        "doi".data = a.doi.map String.data
    ∧ pyDictGetL ((articleFieldList a).map (fun p => (lowerL p.1, p.2)))
        "url".data = a.url.map String.data
    ∧ pyDictGetL ((articleFieldList a).map (fun p => (lowerL p.1, p.2)))
        "note".data = a.note.map String.data := by
  obtain ⟨au, ti, ye, doi, url, note, key, app, jo, vo, pg, an, num⟩ := a
  rcases num with _ | n <;> rcases pg with _ | p <;> rcases an with _ | q <;>
    rcases doi with _ | d <;> rcases url with _ | u <;>
    rcases note with _ | t <;>
    exact ⟨rfl, rfl, rfl, rfl, rfl, rfl, rfl, rfl, rfl, rfl, rfl⟩

set_option maxHeartbeats 3200000 in
theorem getL_book (a : BookData) :
    pyDictGetL ((bookFieldList a).map (fun p => (lowerL p.1, p.2)))
        "author".data = some (authorStr a.author)
    ∧ pyDictGetL ((bookFieldList a).map (fun p => (lowerL p.1, p.2)))
        "title".data = some a.title.data
    ∧ pyDictGetL ((bookFieldList a).map (fun p => (lowerL p.1, p.2)))
        "publisher".data = some a.publisher.data
    ∧ pyDictGetL ((bookFieldList a).map (fun p => (lowerL p.1, p.2)))
        "year".data = some (intDecimal a.year)
    ∧ pyDictGetL ((bookFieldList a).map (fun p => (lowerL p.1, p.2)))
        "edition".data = a.edition.map String.data
    ∧ pyDictGetL ((bookFieldList a).map (fun p => (lowerL p.1, p.2)))
        "editor".data = a.editor.map authorStr
    ∧ pyDictGetL ((bookFieldList a).map (fun p => (lowerL p.1, p.2)))
        "doi".data = a.doi.map String.data
    ∧ pyDictGetL ((bookFieldList a).map (fun p => (lowerL p.1, p.2)))
        "url".data = a.url.map String.data
    ∧ pyDictGetL ((bookFieldList a).map (fun p => (lowerL p.1, p.2)))
        "note".data = a.note.map String.data := by
  obtain ⟨au, ti, ye, doi, url, note, key, app, pu, ed, edr⟩ := a
  rcases ed with _ | e <;> rcases edr with _ | r <;>
    rcases doi with _ | d <;> rcases url with _ | u <;>
    rcases note with _ | t <;>
    exact ⟨rfl, rfl, rfl, rfl, rfl, rfl, rfl, rfl, rfl⟩

set_option maxHeartbeats 3200000 in
theorem getL_inProceedings (a : InProceedingsData) :
    pyDictGetL ((inProceedingsFieldList a).map (fun p => (lowerL p.1, p.2)))
        "author".data = some (authorStr a.author)
    ∧ pyDictGetL ((inProceedingsFieldList a).map (fun p => (lowerL p.1, p.2)))
        "title".data = some a.title.data
    ∧ pyDictGetL ((inProceedingsFieldList a).map (fun p => (lowerL p.1, p.2)))
        "booktitle".data = some a.booktitle.data
    ∧ pyDictGetL ((inProceedingsFieldList a).map (fun p => (lowerL p.1, p.2)))
        "year".data = some (intDecimal a.year)
    ∧ pyDictGetL ((inProceedingsFieldList a).map (fun p => (lowerL p.1, p.2)))
        "pages".data = a.pages.map String.data
    ∧ pyDictGetL ((inProceedingsFieldList a).map (fun p => (lowerL p.1, p.2)))
        "publisher".data = a.publisher.map String.data
    ∧ pyDictGetL ((inProceedingsFieldList a).map (fun p => (lowerL p.1, p.2)))
        "editor".data = a.editor.map authorStr
    ∧ pyDictGetL ((inProceedingsFieldList a).map (fun p => (lowerL p.1, p.2)))
        "doi".data = a.doi.map String.data
    ∧ pyDictGetL ((inProceedingsFieldList a).map (fun p => (lowerL p.1, p.2)))
        "url".data = a.url.map String.data
    ∧ pyDictGetL ((inProceedingsFieldList a).map (fun p => (lowerL p.1, p.2)))
        "note".data = a.note.map String.data := by
  obtain ⟨au, ti, ye, doi, url, note, key, app, bo, pg, pu, edr⟩ := a
  rcases pg with _ | p <;> rcases pu with _ | b <;> rcases edr with _ | r <;>
    rcases doi with _ | d <;> rcases url with _ | u <;>
    rcases note with _ | t <;>
    exact ⟨rfl, rfl, rfl, rfl, rfl, rfl, rfl, rfl, rfl, rfl⟩

set_option maxHeartbeats 3200000 in
theorem getL_techReport (a : TechReportData) :
    pyDictGetL ((techReportFieldList a).map (fun p => (lowerL p.1, p.2)))
        "author".data = some (authorStr a.author)
    ∧ pyDictGetL ((techReportFieldList a).map (fun p => (lowerL p.1, p.2)))
        "title".data = some a.title.data
    ∧ pyDictGetL ((techReportFieldList a).map (fun p => (lowerL p.1, p.2)))
        "institution".data = some a.institution.data
    ∧ pyDictGetL ((techReportFieldList a).map (fun p => (lowerL p.1, p.2)))
        "year".data = some (intDecimal a.year)
    ∧ pyDictGetL ((techReportFieldList a).map (fun p => (lowerL p.1, p.2)))
        "number".data = a.number.map String.data
    ∧ pyDictGetL ((techReportFieldList a).map (fun p => (lowerL p.1, p.2)))
        "doi".data = a.doi.map String.data
    ∧ pyDictGetL ((techReportFieldList a).map (fun p => (lowerL p.1, p.2)))
        "url".data = a.url.map String.data
    ∧ pyDictGetL ((techReportFieldList a).map (fun p => (lowerL p.1, p.2)))
        "note".data = a.note.map String.data := by
  obtain ⟨au, ti, ye, doi, url, note, key, app, ins, num⟩ := a
  rcases num with _ | n <;>
    rcases doi with _ | d <;> rcases url with _ | u <;>
    rcases note with _ | t <;>
    exact ⟨rfl, rfl, rfl, rfl, rfl, rfl, rfl, rfl⟩

set_option maxHeartbeats 3200000 in
theorem getL_thesis (a : ThesisData) :
    pyDictGetL ((thesisFieldList a).map (fun p => (lowerL p.1, p.2)))
        "author".data = some (authorStr a.author)
    ∧ pyDictGetL ((thesisFieldList a).map (fun p => (lowerL p.1, p.2)))
        "title".data = some a.title.data
    ∧ pyDictGetL ((thesisFieldList a).map (fun p => (lowerL p.1, p.2)))
        "school".data = some a.school.data
    ∧ pyDictGetL ((thesisFieldList a).map (fun p => (lowerL p.1, p.2)))
        "year".data = some (intDecimal a.year)
    ∧ pyDictGetL ((thesisFieldList a).map (fun p => (lowerL p.1, p.2)))
        "doi".data = a.doi.map String.data
    ∧ pyDictGetL ((thesisFieldList a).map (fun p => (lowerL p.1, p.2)))
        "url".data = a.url.map String.data
    ∧ pyDictGetL ((thesisFieldList a).map (fun p => (lowerL p.1, p.2)))
        "note".data = a.note.map String.data := by
  obtain ⟨au, ti, ye, doi, url, note, key, app, sc, tt⟩ := a
  rcases doi with _ | d <;> rcases url with _ | u <;>
    rcases note with _ | t <;>
    exact ⟨rfl, rfl, rfl, rfl, rfl, rfl, rfl⟩

set_option maxHeartbeats 3200000 in
theorem getL_software (a : SoftwareData) :
    pyDictGetL ((softwareFieldList a).map (fun p => (lowerL p.1, p.2)))
        "author".data = some (authorStr a.author)
    ∧ pyDictGetL ((softwareFieldList a).map (fun p => (lowerL p.1, p.2)))
        "title".data = some a.title.data
    ∧ pyDictGetL ((softwareFieldList a).map (fun p => (lowerL p.1, p.2)))
        "year".data = some (intDecimal a.year)
    ∧ pyDictGetL ((softwareFieldList a).map (fun p => (lowerL p.1, p.2)))
        "publisher".data = a.publisher.map String.data
    ∧ pyDictGetL ((softwareFieldList a).map (fun p => (lowerL p.1, p.2)))
        "version".data = a.version.map String.data
    ∧ pyDictGetL ((softwareFieldList a).map (fun p => (lowerL p.1, p.2)))
        "license".data = a.license.map String.data
    ∧ pyDictGetL ((softwareFieldList a).map (fun p => (lowerL p.1, p.2)))
        "doi".data = a.doi.map String.data
    ∧ pyDictGetL ((softwareFieldList a).map (fun p => (lowerL p.1, p.2)))
        "url".data = a.url.map String.data
    ∧ pyDictGetL ((softwareFieldList a).map (fun p => (lowerL p.1, p.2)))
        "note".data = a.note.map String.data := by
  obtain ⟨au, ti, ye, doi, url, note, key, app, pu, ve, li⟩ := a
  rcases pu with _ | b <;> rcases ve with _ | v <;> rcases li with _ | l <;>
    rcases doi with _ | d <;> rcases url with _ | u <;>
    rcases note with _ | t <;>
    exact ⟨rfl, rfl, rfl, rfl, rfl, rfl, rfl, rfl, rfl⟩

set_option maxHeartbeats 3200000 in
theorem getL_misc (a : MiscData) :
    pyDictGetL ((miscFieldList a).map (fun p => (lowerL p.1, p.2)))
        "author".data = some (authorStr a.author)
    ∧ pyDictGetL ((miscFieldList a).map (fun p => (lowerL p.1, p.2)))
        "title".data = some a.title.data
    ∧ pyDictGetL ((miscFieldList a).map (fun p => (lowerL p.1, p.2)))
        "year".data = some (intDecimal a.year)
    ∧ pyDictGetL ((miscFieldList a).map (fun p => (lowerL p.1, p.2)))
        "doi".data = a.doi.map String.data
    ∧ pyDictGetL ((miscFieldList a).map (fun p => (lowerL p.1, p.2)))
        "url".data = a.url.map String.data
    ∧ pyDictGetL ((miscFieldList a).map (fun p => (lowerL p.1, p.2)))
        "note".data = a.note.map String.data := by
  obtain ⟨au, ti, ye, doi, url, note, key, app⟩ := a
  rcases doi with _ | d <;> rcases url with _ | u <;>
    rcases note with _ | t <;>
    exact ⟨rfl, rfl, rfl, rfl, rfl, rfl⟩

/-! ## Round-trip of each rendered variant -/

theorem parse_render_article (a : ArticleData)
    (hj : a.journal ≠ "")
    (hpa : ¬(a.pages = Option.none ∧ a.article_number = Option.none))
    (hau : a.author ≠ [])
    (hsk : safeKey a.key = true) (hsau : safeAuthorList a.author = true)
    (hsti : safeStr a.title = true) (hsjo : safeStr a.journal = true)
    (hspg : safeOptStr a.pages = true)
    (hsan : safeOptStr a.article_number = true)
    (hsdoi : safeOptStr a.doi = true) (hsurl : safeOptStr a.url = true)
    (hsnote : safeOptStr a.note = true) :
    fromBibtexChars (renderEntry (.article a))
      = .ok (.article { a with app := Option.none }) := by
  have hps : goodPairs (articleFieldList a) :=
    goodPairs_article a hsau hsti hsjo hspg hsan hsdoi hsurl hsnote
  obtain ⟨hkc, hkstrip⟩ := safeKey_spec hsk
  have hscan : braceScan (('\n' :: catLines (articleFieldList a)) ++ [cbr]) 1
      = ('\n' :: catLines (articleFieldList a)) ++ [cbr] := by
    rw [show ('\n' :: catLines (articleFieldList a)) ++ [cbr]
        = ['\n'] ++ (catLines (articleFieldList a) ++ [cbr]) from rfl]
    rw [braceScan_noBrace ['\n'] _ 1 (by decide) (by omega),
      braceScan_catLines _ hps]
  have hext : extractEntries (renderEntry (.article a))
      = [("article".data, a.key.data,
          '\n' :: catLines (articleFieldList a))] := by
    rw [renderEntry_shape]
    exact extractEntries_entry "article".data a.key.data
      ('\n' :: catLines (articleFieldList a)) (by decide) (by decide)
      (fun c hc => ⟨(hkc c hc).1, (hkc c hc).2.1, (hkc c hc).2.2.2.1,
        (hkc c hc).2.2.2.2⟩)
      hkstrip
      (by
        intro c hc
        rcases List.mem_cons.mp hc with rfl | hc
        · decide
        · exact catLines_noAt hps c hc)
      hscan
  have hpf : parseFields ('\n' :: catLines (articleFieldList a))
      = .ok ((articleFieldList a).map (fun p => (lowerL p.1, p.2))) :=
    parseFields_lines _ hps (by simp [articleFieldList])
  obtain ⟨g1, g2, g3, g4, g5, g6, g7, g8, g9, g10, g11⟩ := getL_article a
  have hy : pyDictGetL ((articleFieldList a).map (fun p => (lowerL p.1, p.2)))
      "year".data = (some a.year).map intDecimal := by rw [g4]; rfl
  have hvol : pyDictGetL
      ((articleFieldList a).map (fun p => (lowerL p.1, p.2)))
      "volume".data = (some a.volume).map intDecimal := by rw [g5]; rfl
  have hck : commonKwargsOf
      ((articleFieldList a).map (fun p => (lowerL p.1, p.2))) a.key.data
      = .ok { key := a.key, author := some a.author, title := some a.title,
              year := some a.year, doi := a.doi, url := a.url,
              note := a.note } := by
    unfold commonKwargsOf
    simp only [intFieldOpt_of_map hy, ebind_ok,
      authorsFieldOpt_of_some g1 hsau, strFieldOpt_of_some g2,
      strFieldOpt_of_map g9, strFieldOpt_of_map g10, strFieldOpt_of_map g11,
      stringMk_data]
  unfold fromBibtexChars
  rw [hext]
  show parseOne "article".data a.key.data
    ('\n' :: catLines (articleFieldList a)) = _
  have htm : typeMap (lowerL "article".data) = some BibClass.articleC := by
    decide
  unfold parseOne
  simp only [htm, hpf, ebind_ok, hck, intFieldOpt_of_map hvol,
    intFieldOpt_of_map g6, reqArg_some, strFieldOpt_of_some g3,
    strFieldOpt_of_map g7, strFieldOpt_of_map g8]
  rw [mkArticle_ok_eq a.author a.title a.year a.journal a.volume a.pages
    a.article_number a.number a.doi a.url a.note (some a.key) Option.none
    hj hpa hau]

theorem parse_render_book (a : BookData)
    (hp : a.publisher ≠ "") (hau : a.author ≠ [])
    (hsk : safeKey a.key = true) (hsau : safeAuthorList a.author = true)
    (hsti : safeStr a.title = true) (hspu : safeStr a.publisher = true)
    (hsed : safeOptStr a.edition = true)
    (hsedr : safeOptAuthorList a.editor = true)
    (hsdoi : safeOptStr a.doi = true) (hsurl : safeOptStr a.url = true)
    (hsnote : safeOptStr a.note = true) :
    fromBibtexChars (renderEntry (.book a))
      = .ok (.book { a with app := Option.none }) := by
  have hps : goodPairs (bookFieldList a) :=
    goodPairs_book a hsau hsti hspu hsed hsedr hsdoi hsurl hsnote
  obtain ⟨hkc, hkstrip⟩ := safeKey_spec hsk
  have hscan : braceScan (('\n' :: catLines (bookFieldList a)) ++ [cbr]) 1
      = ('\n' :: catLines (bookFieldList a)) ++ [cbr] := by
    rw [show ('\n' :: catLines (bookFieldList a)) ++ [cbr]
        = ['\n'] ++ (catLines (bookFieldList a) ++ [cbr]) from rfl]
    rw [braceScan_noBrace ['\n'] _ 1 (by decide) (by omega),
      braceScan_catLines _ hps]
  have hext : extractEntries (renderEntry (.book a))
      = [("book".data, a.key.data,
          '\n' :: catLines (bookFieldList a))] := by
    rw [renderEntry_shape]
    exact extractEntries_entry "book".data a.key.data
      ('\n' :: catLines (bookFieldList a)) (by decide) (by decide)
      (fun c hc => ⟨(hkc c hc).1, (hkc c hc).2.1, (hkc c hc).2.2.2.1,
        (hkc c hc).2.2.2.2⟩)
      hkstrip
      (by
        intro c hc
        rcases List.mem_cons.mp hc with rfl | hc
        · decide
        · exact catLines_noAt hps c hc)
      hscan
  have hpf : parseFields ('\n' :: catLines (bookFieldList a))
      = .ok ((bookFieldList a).map (fun p => (lowerL p.1, p.2))) :=
    parseFields_lines _ hps (by simp [bookFieldList])
  obtain ⟨g1, g2, g3, g4, g5, g6, g7, g8, g9⟩ := getL_book a
  have hy : pyDictGetL ((bookFieldList a).map (fun p => (lowerL p.1, p.2)))
      "year".data = (some a.year).map intDecimal := by rw [g4]; rfl
  have hck : commonKwargsOf
      ((bookFieldList a).map (fun p => (lowerL p.1, p.2))) a.key.data
      = .ok { key := a.key, author := some a.author, title := some a.title,
              year := some a.year, doi := a.doi, url := a.url,
              note := a.note } := by
    unfold commonKwargsOf
    simp only [intFieldOpt_of_map hy, ebind_ok,
      authorsFieldOpt_of_some g1 hsau,
      strFieldOpt_of_some g2,
      strFieldOpt_of_map g7, strFieldOpt_of_map g8,
      strFieldOpt_of_map g9, stringMk_data]
  unfold fromBibtexChars
  rw [hext]
  show parseOne "book".data a.key.data
    ('\n' :: catLines (bookFieldList a)) = _
  have htm : typeMap (lowerL "book".data) = some BibClass.bookC := by
    decide
  unfold parseOne
  simp only [htm, hpf, ebind_ok, hck, reqArg_some, strFieldOpt_of_some g3,
    strFieldOpt_of_map g5, authorsFieldOpt_of_map g6 hsedr]
  rw [mkBook_ok_eq a.author a.title a.year a.publisher a.edition a.editor
    a.doi a.url a.note (some a.key) Option.none hp hau]


theorem parse_render_inProceedings (a : InProceedingsData)
    (hb : a.booktitle ≠ "") (hau : a.author ≠ [])
    (hsk : safeKey a.key = true) (hsau : safeAuthorList a.author = true)
    (hsti : safeStr a.title = true) (hsbo : safeStr a.booktitle = true)
    (hspg : safeOptStr a.pages = true) (hspu : safeOptStr a.publisher = true)
    (hsedr : safeOptAuthorList a.editor = true)
    (hsdoi : safeOptStr a.doi = true) (hsurl : safeOptStr a.url = true)
    (hsnote : safeOptStr a.note = true) :
    fromBibtexChars (renderEntry (.inProceedings a))
      = .ok (.inProceedings { a with app := Option.none }) := by
  have hps : goodPairs (inProceedingsFieldList a) :=
    goodPairs_inProceedings a hsau hsti hsbo hspg hspu hsedr hsdoi hsurl hsnote
  obtain ⟨hkc, hkstrip⟩ := safeKey_spec hsk
  have hscan : braceScan (('\n' :: catLines (inProceedingsFieldList a)) ++ [cbr]) 1
      = ('\n' :: catLines (inProceedingsFieldList a)) ++ [cbr] := by
    rw [show ('\n' :: catLines (inProceedingsFieldList a)) ++ [cbr]
        = ['\n'] ++ (catLines (inProceedingsFieldList a) ++ [cbr]) from rfl]
    rw [braceScan_noBrace ['\n'] _ 1 (by decide) (by omega),
      braceScan_catLines _ hps]
  have hext : extractEntries (renderEntry (.inProceedings a))
      = [("inproceedings".data, a.key.data,
          '\n' :: catLines (inProceedingsFieldList a))] := by
    rw [renderEntry_shape]
    exact extractEntries_entry "inproceedings".data a.key.data
      ('\n' :: catLines (inProceedingsFieldList a)) (by decide) (by decide)
      (fun c hc => ⟨(hkc c hc).1, (hkc c hc).2.1, (hkc c hc).2.2.2.1,
        (hkc c hc).2.2.2.2⟩)
      hkstrip
      (by
        intro c hc
        rcases List.mem_cons.mp hc with rfl | hc
        · decide
        · exact catLines_noAt hps c hc)
      hscan
  have hpf : parseFields ('\n' :: catLines (inProceedingsFieldList a))
      = .ok ((inProceedingsFieldList a).map (fun p => (lowerL p.1, p.2))) :=
    parseFields_lines _ hps (by simp [inProceedingsFieldList])
  obtain ⟨g1, g2, g3, g4, g5, g6, g7, g8, g9, g10⟩ := getL_inProceedings a
  have hy : pyDictGetL ((inProceedingsFieldList a).map (fun p => (lowerL p.1, p.2)))
      "year".data = (some a.year).map intDecimal := by rw [g4]; rfl
  have hck : commonKwargsOf
      ((inProceedingsFieldList a).map (fun p => (lowerL p.1, p.2))) a.key.data
      = .ok { key := a.key, author := some a.author, title := some a.title,
              year := some a.year, doi := a.doi, url := a.url,
              note := a.note } := by
    unfold commonKwargsOf
    simp only [intFieldOpt_of_map hy, ebind_ok,
      authorsFieldOpt_of_some g1 hsau,
      strFieldOpt_of_some g2,
      strFieldOpt_of_map g8, strFieldOpt_of_map g9,
      strFieldOpt_of_map g10, stringMk_data]
  unfold fromBibtexChars
  rw [hext]
  show parseOne "inproceedings".data a.key.data
    ('\n' :: catLines (inProceedingsFieldList a)) = _
  have htm : typeMap (lowerL "inproceedings".data) = some BibClass.inProceedingsC := by
    decide
  unfold parseOne
  simp only [htm, hpf, ebind_ok, hck, reqArg_some, strFieldOpt_of_some g3,
    strFieldOpt_of_map g5, strFieldOpt_of_map g6,
    authorsFieldOpt_of_map g7 hsedr]
  rw [mkInProceedings_ok_eq a.author a.title a.year a.booktitle a.pages
    a.publisher a.editor a.doi a.url a.note (some a.key) Option.none hb hau]


theorem parse_render_techReport (a : TechReportData)
    (hi : a.institution ≠ "") (hau : a.author ≠ [])
    (hsk : safeKey a.key = true) (hsau : safeAuthorList a.author = true)
    (hsti : safeStr a.title = true) (hsin : safeStr a.institution = true)
    (hsnu : safeOptStr a.number = true)
    (hsdoi : safeOptStr a.doi = true) (hsurl : safeOptStr a.url = true)
    (hsnote : safeOptStr a.note = true) :
    fromBibtexChars (renderEntry (.techReport a))
      = .ok (.techReport { a with app := Option.none }) := by
  have hps : goodPairs (techReportFieldList a) :=
    goodPairs_techReport a hsau hsti hsin hsnu hsdoi hsurl hsnote
  obtain ⟨hkc, hkstrip⟩ := safeKey_spec hsk
  have hscan : braceScan (('\n' :: catLines (techReportFieldList a)) ++ [cbr]) 1
      = ('\n' :: catLines (techReportFieldList a)) ++ [cbr] := by
    rw [show ('\n' :: catLines (techReportFieldList a)) ++ [cbr]
        = ['\n'] ++ (catLines (techReportFieldList a) ++ [cbr]) from rfl]
    rw [braceScan_noBrace ['\n'] _ 1 (by decide) (by omega),
      braceScan_catLines _ hps]
  have hext : extractEntries (renderEntry (.techReport a))
      = [("techreport".data, a.key.data,
          '\n' :: catLines (techReportFieldList a))] := by
    rw [renderEntry_shape]
    exact extractEntries_entry "techreport".data a.key.data
      ('\n' :: catLines (techReportFieldList a)) (by decide) (by decide)
      (fun c hc => ⟨(hkc c hc).1, (hkc c hc).2.1, (hkc c hc).2.2.2.1,
        (hkc c hc).2.2.2.2⟩)
      hkstrip
      (by
        intro c hc
        rcases List.mem_cons.mp hc with rfl | hc
        · decide
        · exact catLines_noAt hps c hc)
      hscan
  have hpf : parseFields ('\n' :: catLines (techReportFieldList a))
      = .ok ((techReportFieldList a).map (fun p => (lowerL p.1, p.2))) :=
    parseFields_lines _ hps (by simp [techReportFieldList])
  obtain ⟨g1, g2, g3, g4, g5, g6, g7, g8⟩ := getL_techReport a
  have hy : pyDictGetL ((techReportFieldList a).map (fun p => (lowerL p.1, p.2)))
      "year".data = (some a.year).map intDecimal := by rw [g4]; rfl
  have hck : commonKwargsOf
      ((techReportFieldList a).map (fun p => (lowerL p.1, p.2))) a.key.data
      = .ok { key := a.key, author := some a.author, title := some a.title,
              year := some a.year, doi := a.doi, url := a.url,
              note := a.note } := by
    unfold commonKwargsOf
    simp only [intFieldOpt_of_map hy, ebind_ok,
      authorsFieldOpt_of_some g1 hsau,
      strFieldOpt_of_some g2,
      strFieldOpt_of_map g6, strFieldOpt_of_map g7,
      strFieldOpt_of_map g8, stringMk_data]
  unfold fromBibtexChars
  rw [hext]
  show parseOne "techreport".data a.key.data
    ('\n' :: catLines (techReportFieldList a)) = _
  have htm : typeMap (lowerL "techreport".data) = some BibClass.techReportC := by
    decide
  unfold parseOne
  simp only [htm, hpf, ebind_ok, hck, reqArg_some, strFieldOpt_of_some g3,
    strFieldOpt_of_map g5]
  rw [mkTechReport_ok_eq a.author a.title a.year a.institution a.number
    a.doi a.url a.note (some a.key) Option.none hi hau]


theorem parse_render_software (a : SoftwareData)
    (hau : a.author ≠ [])
    (hsk : safeKey a.key = true) (hsau : safeAuthorList a.author = true)
    (hsti : safeStr a.title = true) (hspu : safeOptStr a.publisher = true)
    (hsve : safeOptStr a.version = true) (hsli : safeOptStr a.license = true)
    (hsdoi : safeOptStr a.doi = true) (hsurl : safeOptStr a.url = true)
    (hsnote : safeOptStr a.note = true) :
    fromBibtexChars (renderEntry (.software a))
      = .ok (.software { a with app := Option.none }) := by
  have hps : goodPairs (softwareFieldList a) :=
    goodPairs_software a hsau hsti hspu hsve hsli hsdoi hsurl hsnote
  obtain ⟨hkc, hkstrip⟩ := safeKey_spec hsk
  have hscan : braceScan (('\n' :: catLines (softwareFieldList a)) ++ [cbr]) 1
      = ('\n' :: catLines (softwareFieldList a)) ++ [cbr] := by
    rw [show ('\n' :: catLines (softwareFieldList a)) ++ [cbr]
        = ['\n'] ++ (catLines (softwareFieldList a) ++ [cbr]) from rfl]
    rw [braceScan_noBrace ['\n'] _ 1 (by decide) (by omega),
      braceScan_catLines _ hps]
  have hext : extractEntries (renderEntry (.software a))
      = [("software".data, a.key.data,
          '\n' :: catLines (softwareFieldList a))] := by
    rw [renderEntry_shape]
    exact extractEntries_entry "software".data a.key.data
      ('\n' :: catLines (softwareFieldList a)) (by decide) (by decide)
      (fun c hc => ⟨(hkc c hc).1, (hkc c hc).2.1, (hkc c hc).2.2.2.1,
        (hkc c hc).2.2.2.2⟩)
      hkstrip
      (by
        intro c hc
        rcases List.mem_cons.mp hc with rfl | hc
        · decide
        · exact catLines_noAt hps c hc)
      hscan
  have hpf : parseFields ('\n' :: catLines (softwareFieldList a))
      = .ok ((softwareFieldList a).map (fun p => (lowerL p.1, p.2))) :=
    parseFields_lines _ hps (by simp [softwareFieldList])
  obtain ⟨g1, g2, g3, g4, g5, g6, g7, g8, g9⟩ := getL_software a
  have hy : pyDictGetL ((softwareFieldList a).map (fun p => (lowerL p.1, p.2)))
      "year".data = (some a.year).map intDecimal := by rw [g3]; rfl
  have hck : commonKwargsOf
      ((softwareFieldList a).map (fun p => (lowerL p.1, p.2))) a.key.data
      = .ok { key := a.key, author := some a.author, title := some a.title,
              year := some a.year, doi := a.doi, url := a.url,
              note := a.note } := by
    unfold commonKwargsOf
    simp only [intFieldOpt_of_map hy, ebind_ok,
      authorsFieldOpt_of_some g1 hsau,
      strFieldOpt_of_some g2,
      strFieldOpt_of_map g7, strFieldOpt_of_map g8,
      strFieldOpt_of_map g9, stringMk_data]
  unfold fromBibtexChars
  rw [hext]
  show parseOne "software".data a.key.data
    ('\n' :: catLines (softwareFieldList a)) = _
  have htm : typeMap (lowerL "software".data) = some BibClass.softwareC := by
    decide
  unfold parseOne
  simp only [htm, hpf, ebind_ok, hck, reqArg_some,
    strFieldOpt_of_map g4, strFieldOpt_of_map g5, strFieldOpt_of_map g6]
  rw [mkSoftware_ok_eq a.author a.title a.year a.publisher a.version
    a.license a.doi a.url a.note (some a.key) Option.none hau]


theorem parse_render_misc (a : MiscData)
    (hau : a.author ≠ [])
    (hsk : safeKey a.key = true) (hsau : safeAuthorList a.author = true)
    (hsti : safeStr a.title = true)
    (hsdoi : safeOptStr a.doi = true) (hsurl : safeOptStr a.url = true)
    (hsnote : safeOptStr a.note = true) :
    fromBibtexChars (renderEntry (.misc a))
      = .ok (.misc { a with app := Option.none }) := by
  have hps : goodPairs (miscFieldList a) :=
    goodPairs_misc a hsau hsti hsdoi hsurl hsnote
  obtain ⟨hkc, hkstrip⟩ := safeKey_spec hsk
  have hscan : braceScan (('\n' :: catLines (miscFieldList a)) ++ [cbr]) 1
      = ('\n' :: catLines (miscFieldList a)) ++ [cbr] := by
    rw [show ('\n' :: catLines (miscFieldList a)) ++ [cbr]
        = ['\n'] ++ (catLines (miscFieldList a) ++ [cbr]) from rfl]
    rw [braceScan_noBrace ['\n'] _ 1 (by decide) (by omega),
      braceScan_catLines _ hps]
  have hext : extractEntries (renderEntry (.misc a))
      = [("misc".data, a.key.data,
          '\n' :: catLines (miscFieldList a))] := by
    rw [renderEntry_shape]
    exact extractEntries_entry "misc".data a.key.data
      ('\n' :: catLines (miscFieldList a)) (by decide) (by decide)
      (fun c hc => ⟨(hkc c hc).1, (hkc c hc).2.1, (hkc c hc).2.2.2.1,
        (hkc c hc).2.2.2.2⟩)
      hkstrip
      (by
        intro c hc
        rcases List.mem_cons.mp hc with rfl | hc
        · decide
        · exact catLines_noAt hps c hc)
      hscan
  have hpf : parseFields ('\n' :: catLines (miscFieldList a))
      = .ok ((miscFieldList a).map (fun p => (lowerL p.1, p.2))) :=
    parseFields_lines _ hps (by simp [miscFieldList])
  obtain ⟨g1, g2, g3, g4, g5, g6⟩ := getL_misc a
  have hy : pyDictGetL ((miscFieldList a).map (fun p => (lowerL p.1, p.2)))
      "year".data = (some a.year).map intDecimal := by rw [g3]; rfl
  have hck : commonKwargsOf
      ((miscFieldList a).map (fun p => (lowerL p.1, p.2))) a.key.data
      = .ok { key := a.key, author := some a.author, title := some a.title,
              year := some a.year, doi := a.doi, url := a.url,
              note := a.note } := by
    unfold commonKwargsOf
    simp only [intFieldOpt_of_map hy, ebind_ok,
      authorsFieldOpt_of_some g1 hsau,
      strFieldOpt_of_some g2,
      strFieldOpt_of_map g4, strFieldOpt_of_map g5,
      strFieldOpt_of_map g6, stringMk_data]
  unfold fromBibtexChars
  rw [hext]
  show parseOne "misc".data a.key.data
    ('\n' :: catLines (miscFieldList a)) = _
  have htm : typeMap (lowerL "misc".data) = some BibClass.miscC := by
    decide
  unfold parseOne
  simp only [htm, hpf, ebind_ok, hck, reqArg_some]
  rw [mkMisc_ok_eq a.author a.title a.year
    a.doi a.url a.note (some a.key) Option.none hau]

theorem parse_render_thesis (a : ThesisData)
    (hsch : a.school ≠ "")
    (htt : a.thesis_type = "phd" ∨ a.thesis_type = "masters")
    (hau : a.author ≠ [])
    (hsk : safeKey a.key = true) (hsau : safeAuthorList a.author = true)
    (hsti : safeStr a.title = true) (hssc : safeStr a.school = true)
    (hsdoi : safeOptStr a.doi = true) (hsurl : safeOptStr a.url = true)
    (hsnote : safeOptStr a.note = true) :
    fromBibtexChars (renderEntry (.thesis a))
      = .ok (.thesis { a with app := Option.none }) := by
  have hps : goodPairs (thesisFieldList a) :=
    goodPairs_thesis a hsau hsti hssc hsdoi hsurl hsnote
  obtain ⟨hkc, hkstrip⟩ := safeKey_spec hsk
  have hscan : braceScan (('\n' :: catLines (thesisFieldList a)) ++ [cbr]) 1
      = ('\n' :: catLines (thesisFieldList a)) ++ [cbr] := by
    rw [show ('\n' :: catLines (thesisFieldList a)) ++ [cbr]
        = ['\n'] ++ (catLines (thesisFieldList a) ++ [cbr]) from rfl]
    rw [braceScan_noBrace ['\n'] _ 1 (by decide) (by omega),
      braceScan_catLines _ hps]
  have hpf : parseFields ('\n' :: catLines (thesisFieldList a))
      = .ok ((thesisFieldList a).map (fun p => (lowerL p.1, p.2))) :=
    parseFields_lines _ hps (by simp [thesisFieldList])
  obtain ⟨g1, g2, g3, g4, g5, g6, g7⟩ := getL_thesis a
  have hy : pyDictGetL ((thesisFieldList a).map (fun p => (lowerL p.1, p.2)))
      "year".data = (some a.year).map intDecimal := by rw [g4]; rfl
  have hck : commonKwargsOf
      ((thesisFieldList a).map (fun p => (lowerL p.1, p.2))) a.key.data
      = .ok { key := a.key, author := some a.author, title := some a.title,
              year := some a.year, doi := a.doi, url := a.url,
              note := a.note } := by
    unfold commonKwargsOf
    simp only [intFieldOpt_of_map hy, ebind_ok,
      authorsFieldOpt_of_some g1 hsau, strFieldOpt_of_some g2,
      strFieldOpt_of_map g5, strFieldOpt_of_map g6,
      strFieldOpt_of_map g7, stringMk_data]
  rcases htt with htt | htt
  · have hbt : (Entry.thesis a).bibType = "phdthesis".data := by
      simp [Entry.bibType, htt]
    have hext : extractEntries (renderEntry (.thesis a))
        = [("phdthesis".data, a.key.data,
            '\n' :: catLines (thesisFieldList a))] := by
      rw [renderEntry_shape, hbt]
      exact extractEntries_entry "phdthesis".data a.key.data
        ('\n' :: catLines (thesisFieldList a)) (by decide) (by decide)
        (fun c hc => ⟨(hkc c hc).1, (hkc c hc).2.1, (hkc c hc).2.2.2.1,
          (hkc c hc).2.2.2.2⟩)
        hkstrip
        (by
          intro c hc
          rcases List.mem_cons.mp hc with rfl | hc
          · decide
          · exact catLines_noAt hps c hc)
        hscan
    unfold fromBibtexChars
    rw [hext]
    show parseOne "phdthesis".data a.key.data
      ('\n' :: catLines (thesisFieldList a)) = _
    have htm : typeMap (lowerL "phdthesis".data)
        = some BibClass.thesisPhd := by decide
    unfold parseOne
    simp only [htm, hpf, ebind_ok, hck, reqArg_some, strFieldOpt_of_some g3]
    rw [mkThesis_ok_eq a.author a.title a.year a.school "phd" a.doi a.url
      a.note (some a.key) Option.none hsch (by decide) (by decide) hau]
    rw [← htt]
  · have hbt : (Entry.thesis a).bibType = "mastersthesis".data := by
      simp [Entry.bibType, htt]
    have hext : extractEntries (renderEntry (.thesis a))
        = [("mastersthesis".data, a.key.data,
            '\n' :: catLines (thesisFieldList a))] := by
      rw [renderEntry_shape, hbt]
      exact extractEntries_entry "mastersthesis".data a.key.data
        ('\n' :: catLines (thesisFieldList a)) (by decide) (by decide)
        (fun c hc => ⟨(hkc c hc).1, (hkc c hc).2.1, (hkc c hc).2.2.2.1,
          (hkc c hc).2.2.2.2⟩)
        hkstrip
        (by
          intro c hc
          rcases List.mem_cons.mp hc with rfl | hc
          · decide
          · exact catLines_noAt hps c hc)
        hscan
    unfold fromBibtexChars
    rw [hext]
    show parseOne "mastersthesis".data a.key.data
      ('\n' :: catLines (thesisFieldList a)) = _
    have htm : typeMap (lowerL "mastersthesis".data)
        = some BibClass.thesisMasters := by decide
    unfold parseOne
    simp only [htm, hpf, ebind_ok, hck, reqArg_some, strFieldOpt_of_some g3]
    rw [mkThesis_ok_eq a.author a.title a.year a.school "masters" a.doi a.url
      a.note (some a.key) Option.none hsch (by decide) (by decide) hau]
    rw [← htt]

/-! ## Claim C2 -/

theorem ceq_setAppNone (e : Entry) : ceq e.setAppNone e = true := by
  cases e <;> exact ceq_refl _

/-- C2 (corrected): for every constructible entry whose text parts are
BibTeX-safe — no braces, no `@`, no newline in any rendered value, a comma-
and-brace-free already-stripped cite key, and author/editor names the
reader's normalisation fixes — parsing the rendered text succeeds and
returns the same entry with `app` cleared (so it is `==`-equal to the
original, of the same variant, with the same key and all parser-supported
fields intact).  Without the safety side conditions this fails (see the
counterexample). -/
theorem C2_render_parse_roundtrip : ∀ e : Entry,
    e.valid = true → bibtexSafe e = true →
    fromBibtexChars (renderEntry e) = .ok e.setAppNone
      ∧ ceq e.setAppNone e = true := by
  intro e hv hs
  refine ⟨?_, ceq_setAppNone e⟩
  cases e with
  | article a =>
    simp only [Entry.valid, Bool.and_eq_true, Bool.or_eq_true,
      decide_eq_true_eq] at hv
    simp only [bibtexSafe, Bool.and_eq_true] at hs
    obtain ⟨⟨hj, hpa⟩, hau⟩ := hv
    obtain ⟨⟨⟨⟨⟨⟨⟨⟨hsk, hsau⟩, hsti⟩, hsjo⟩, hspg⟩, hsan⟩, hsdoi⟩, hsurl⟩,
      hsnote⟩ := hs
    exact parse_render_article a hj (by tauto) hau hsk hsau hsti hsjo hspg
      hsan hsdoi hsurl hsnote
  | book a =>
    simp only [Entry.valid, Bool.and_eq_true, decide_eq_true_eq] at hv
    simp only [bibtexSafe, Bool.and_eq_true] at hs
    obtain ⟨hp, hau⟩ := hv
    obtain ⟨⟨⟨⟨⟨⟨⟨⟨hsk, hsau⟩, hsti⟩, hspu⟩, hsed⟩, hsedr⟩, hsdoi⟩, hsurl⟩,
      hsnote⟩ := hs
    exact parse_render_book a hp hau hsk hsau hsti hspu hsed hsedr hsdoi
      hsurl hsnote
  | inProceedings a =>
    simp only [Entry.valid, Bool.and_eq_true, decide_eq_true_eq] at hv
    simp only [bibtexSafe, Bool.and_eq_true] at hs
    obtain ⟨hb, hau⟩ := hv
    obtain ⟨⟨⟨⟨⟨⟨⟨⟨⟨hsk, hsau⟩, hsti⟩, hsbo⟩, hspg⟩, hspu⟩, hsedr⟩, hsdoi⟩,
      hsurl⟩, hsnote⟩ := hs
    exact parse_render_inProceedings a hb hau hsk hsau hsti hsbo hspg hspu
      hsedr hsdoi hsurl hsnote
  | techReport a =>
    simp only [Entry.valid, Bool.and_eq_true, decide_eq_true_eq] at hv
    simp only [bibtexSafe, Bool.and_eq_true] at hs
    obtain ⟨hi, hau⟩ := hv
    obtain ⟨⟨⟨⟨⟨⟨⟨hsk, hsau⟩, hsti⟩, hsin⟩, hsnu⟩, hsdoi⟩, hsurl⟩,
      hsnote⟩ := hs
    exact parse_render_techReport a hi hau hsk hsau hsti hsin hsnu hsdoi
      hsurl hsnote
  | thesis a =>
    simp only [Entry.valid, Bool.and_eq_true, Bool.or_eq_true,
      decide_eq_true_eq] at hv
    simp only [bibtexSafe, Bool.and_eq_true] at hs
    obtain ⟨⟨hsch, htt⟩, hau⟩ := hv
    obtain ⟨⟨⟨⟨⟨⟨hsk, hsau⟩, hsti⟩, hssc⟩, hsdoi⟩, hsurl⟩, hsnote⟩ := hs
    exact parse_render_thesis a hsch htt hau hsk hsau hsti hssc hsdoi hsurl
      hsnote
  | software a =>
    simp only [Entry.valid, decide_eq_true_eq] at hv
    simp only [bibtexSafe, Bool.and_eq_true] at hs
    obtain ⟨⟨⟨⟨⟨⟨⟨⟨hsk, hsau⟩, hsti⟩, hspu⟩, hsve⟩, hsli⟩, hsdoi⟩, hsurl⟩,
      hsnote⟩ := hs
    exact parse_render_software a hv hsk hsau hsti hspu hsve hsli hsdoi
      hsurl hsnote
  | misc a =>
    simp only [Entry.valid, decide_eq_true_eq] at hv
    simp only [bibtexSafe, Bool.and_eq_true] at hs
    obtain ⟨⟨⟨⟨⟨hsk, hsau⟩, hsti⟩, hsdoi⟩, hsurl⟩, hsnote⟩ := hs
    exact parse_render_misc a hv hsk hsau hsti hsdoi hsurl hsnote

/-- C2 counterexample: `braceTitleEntry` is a constructible `Misc` whose
title is the brace pair `}{`.  Rendering then parsing succeeds but returns
a different entry — the title collapses to the empty string — so the parse
is not the inverse of `__str__` on all constructible entries, against the
original claim; the entry indeed violates the brace-safety side
condition. -/
theorem C2_render_parse_counterexample :
    braceTitleEntry.valid = true
      ∧ bibtexSafe braceTitleEntry = false
      ∧ fromBibtexChars (renderEntry braceTitleEntry)
          = .ok (.misc { author := ["A"], title := "", year := 2024,
                           doi := Option.none, url := Option.none,
                           note := Option.none,
                           key := "k", app := Option.none })
      ∧ ("" : String) ≠ braceTitleEntry.title
      ∧ ceq (.misc { author := ["A"], title := "", year := 2024,
                       doi := Option.none, url := Option.none,
                       note := Option.none,
                       key := "k", app := Option.none })
          braceTitleEntry = false := by
  refine ⟨by decide, by decide, ?_, by decide, by decide⟩
  have h1 : extractEntries (renderEntry braceTitleEntry)
      = [("misc".data, "k".data,
          ("\n  author    = \x7bA\x7d,\n  title     = \x7b\x7d\x7b\x7d,\n  year      = \x7b2024\x7d,\n").data)] := by
    decide
  unfold fromBibtexChars
  rw [h1]
  decide

/-- Witness for C2: a concrete BibTeX-safe article round-trips through
render and parse, with `app` cleared and content equality to the
original. -/
theorem C2_render_parse_roundtrip_witness :
    witnessArticle.valid = true ∧ bibtexSafe witnessArticle = true
      ∧ fromBibtexChars (renderEntry witnessArticle)
          = .ok witnessArticle.setAppNone
      ∧ ceq witnessArticle.setAppNone witnessArticle = true :=
  ⟨by decide, by decide,
    (C2_render_parse_roundtrip witnessArticle (by decide) (by decide)).1,
    (C2_render_parse_roundtrip witnessArticle (by decide) (by decide)).2⟩

end Citeable
